import Mathlib

/-!
Verification of the HexTree repository: a shallow embedding of the
H3-cell bit manipulation (`src/cell.rs`), the digit iterator
(`src/digits.rs`), the in-memory trie (`src/node.rs`,
`src/hex_tree_map.rs`, `src/compaction.rs`, `src/iteration.rs`) and the
on-disk format (`src/disktree/*`), with theorems settling the frozen
claims about the code.

Machine integers are modelled as `Nat` with explicit truncation
(`% 2^64`) where Rust performs wrapping casts or shifts; fallible Rust
code is modelled with `Except`/`Option`; a Rust panic is modelled as a
`none` result of the enclosing operation.
-/

namespace HexTree

/-- Error kinds, from `src/error.rs` (`Error`). -/
inductive Error where
  | index (raw : Nat)
  | io
  | notDisktree
  | version (v : Nat)
  | invalidTag (tag : Nat) (pos : Nat)
  | varint (v : Nat)
  | writer
  deriving Repr, DecidableEq

deriving instance DecidableEq for Except

/-! ## `Index`: low-level H3 bit manipulation (`src/cell.rs`, `impl Index`).

An `Index` is its raw `u64`, modelled as a `Nat` (validity theorems
take `x < 2^64` as a hypothesis where it matters). Rust's `as u8`
casts are modelled as `&&& 0xFF`. -/
namespace Index

/-- `Index::reserved`: `self.0 >> 0x3F == 1`. -/
def reserved (x : Nat) : Bool := x >>> 0x3F == 1

/-- `Index::mode`: `(self.0 >> 0x3B) as u8 & 0b1111`. -/
def mode (x : Nat) : Nat := ((x >>> 0x3B) &&& 0xFF) &&& 0b1111

/-- `Index::res`: `(self.0 >> 0x34) as u8 & 0b1111`. -/
def res (x : Nat) : Nat := ((x >>> 0x34) &&& 0xFF) &&& 0b1111

/-- The complement of a mask inside a `u64` (Rust `!mask`). -/
def compl64 (m : Nat) : Nat := (2 ^ 64 - 1) ^^^ m

/-- `Index::set_res`: clear bits 52–55, then or-in `(res & 0b1111) << 0x34`. -/
def set_res (x r : Nat) : Nat :=
  (x &&& compl64 (0b1111 <<< 0x34)) ||| ((r &&& 0b1111) <<< 0x34)

/-- `Index::base`: `(self.0 >> 0x2D) as u8 & 0x7F`. -/
def base (x : Nat) : Nat := ((x >>> 0x2D) &&& 0xFF) &&& 0x7F

/-- `Index::set_base`: clear bits 45–51, then or-in `(base & 0x7F) << 0x2D`. -/
def set_base (x b : Nat) : Nat :=
  (x &&& compl64 (0x7F <<< 0x2D)) ||| ((b &&& 0x7F) <<< 0x2D)

/-- `Index::digit`: the 3-bit digit at resolution `r`, `None` for `r = 0` or `r > 15`. -/
def digit (x r : Nat) : Option Nat :=
  if r = 0 ∨ r > 15 then none
  else some (((x >>> ((15 - r) * 3)) &&& 0xFF) &&& 0b111)

/-- `Index::set_digit`: clear the 3 bits of resolution `r`, or-in `digit << ((15-r)*3)`. -/
def set_digit (x r d : Nat) : Nat :=
  (x &&& compl64 (0b111 <<< ((15 - r) * 3))) ||| (d <<< ((15 - r) * 3))

end Index

/-! ## `Cell` (`src/cell.rs`, `impl Cell`). A cell is its raw `u64`. -/
namespace Cell

/-- `Cell::from_raw`: accepts when reserved bit is 0, mode is 1 and the
base field is below 122; otherwise fails with `Error::Index(raw)`. -/
def from_raw (raw : Nat) : Except Error Nat :=
  if !(Index.reserved raw) && (Index.mode raw == 1) && decide (Index.base raw < 122)
  then .ok raw
  else .error (.index raw)

/-- `Cell::into_raw`. -/
def into_raw (c : Nat) : Nat := c

/-- `Cell::res`. -/
def res (c : Nat) : Nat := Index.res c

/-- `Cell::base`. -/
def base (c : Nat) : Nat := Index.base c

/-- `Cell::to_parent`: `None` when `res < r`; identity at `r`; otherwise
set the resolution field to `r` and or-in `u64::MAX >> (64 - (15-r)*3)`. -/
def to_parent (c r : Nat) : Option Nat :=
  if res c < r then none
  else if res c = r then some c
  else some ((Index.set_res c r) ||| ((2 ^ 64 - 1) >>> (64 - (15 - r) * 3)))

end Cell

/-! ## Digits iterator (`src/digits.rs`). -/
namespace Digits

/-- The state produced by `Digits::new`: the pre-shifted digit bits and
the number of remaining digits. `wrapping_shl` is truncation mod `2^64`;
the mask is computed in `u128` then truncated to `u64`. -/
def init (c : Nat) : Nat × Nat :=
  let r := Cell.res c
  let mask := (((2 ^ 128 - 1) <<< (64 - 3 * r)) % 2 ^ 128) % 2 ^ 64
  (((c <<< 19) % 2 ^ 64) &&& mask, r)

/-- One step of `<Digits as Iterator>::next`. -/
def next : Nat × Nat → Option (Nat × (Nat × Nat))
  | (_, 0) => none
  | (d, n + 1) => some ((d &&& (0b111 <<< 61)) >>> 61, ((d <<< 3) % 2 ^ 64, n))

/-- Driving `next` to exhaustion from a given state. -/
def toListFrom : Nat → Nat → List Nat
  | _, 0 => []
  | d, n + 1 => ((d &&& (0b111 <<< 61)) >>> 61) :: toListFrom ((d <<< 3) % 2 ^ 64) n

/-- The full digit sequence of a cell, coarsest first. -/
def list (c : Nat) : List Nat :=
  toListFrom (init c).1 (init c).2

end Digits

/-- The 3-bit digit of cell `c` at resolution `r` (`1 ≤ r ≤ 15`),
extracted directly from the fixed bit positions. -/
def digitAt (c r : Nat) : Nat := (c >>> ((15 - r) * 3)) &&& 0b111

/-- A raw value accepted by `Cell::from_raw`. -/
def cellOk (x : Nat) : Prop :=
  x < 2 ^ 64 ∧ Index.reserved x = false ∧ Index.mode x = 1 ∧ Index.base x < 122

instance (x : Nat) : Decidable (cellOk x) := by
  unfold cellOk; infer_instance

/-- The H3 digit-range invariant that `Cell::from_raw` does *not* check:
every digit at a resolution `≤ R` is in `0..=6`. -/
def digitsOk (x : Nat) : Prop :=
  ∀ r, 1 ≤ r → r ≤ Cell.res x → digitAt x r < 7

/-- The resolution field is four bits wide. -/
theorem res_le_15 (x : Nat) : Cell.res x ≤ 15 :=
  Nat.le_of_lt_succ (Nat.lt_succ_of_le (Nat.and_le_right))

instance (x : Nat) : Decidable (digitsOk x) :=
  decidable_of_iff (∀ r, r ≤ 15 → 1 ≤ r → r ≤ Cell.res x → digitAt x r < 7)
    ⟨fun h r h1 h2 => h r (le_trans h2 (res_le_15 x)) h1 h2,
     fun h r _ h1 h2 => h r h1 h2⟩


/-! ## Bit-manipulation toolkit. -/

namespace Bits

theorem and_255_and_15 (a : Nat) : (a &&& 0xFF) &&& 0xF = a % 2 ^ 4 := by
  have h8 : (0xFF : Nat) = 2 ^ 8 - 1 := by norm_num
  have h4 : (0xF : Nat) = 2 ^ 4 - 1 := by norm_num
  rw [h8, h4, Nat.and_pow_two_sub_one_eq_mod, Nat.and_pow_two_sub_one_eq_mod,
    Nat.mod_mod_of_dvd _ (by norm_num)]

theorem and_255_and_127 (a : Nat) : (a &&& 0xFF) &&& 0x7F = a % 2 ^ 7 := by
  have h8 : (0xFF : Nat) = 2 ^ 8 - 1 := by norm_num
  have h7 : (0x7F : Nat) = 2 ^ 7 - 1 := by norm_num
  rw [h8, h7, Nat.and_pow_two_sub_one_eq_mod, Nat.and_pow_two_sub_one_eq_mod,
    Nat.mod_mod_of_dvd _ (by norm_num)]

theorem and_255_and_7 (a : Nat) : (a &&& 0xFF) &&& 0x7 = a % 2 ^ 3 := by
  have h8 : (0xFF : Nat) = 2 ^ 8 - 1 := by norm_num
  have h3 : (0x7 : Nat) = 2 ^ 3 - 1 := by norm_num
  rw [h8, h3, Nat.and_pow_two_sub_one_eq_mod, Nat.and_pow_two_sub_one_eq_mod,
    Nat.mod_mod_of_dvd _ (by norm_num)]

theorem and_7 (a : Nat) : a &&& 0x7 = a % 2 ^ 3 := by
  have h3 : (0x7 : Nat) = 2 ^ 3 - 1 := by norm_num
  rw [h3, Nat.and_pow_two_sub_one_eq_mod]

theorem and_15 (a : Nat) : a &&& 0xF = a % 2 ^ 4 := by
  have h4 : (0xF : Nat) = 2 ^ 4 - 1 := by norm_num
  rw [h4, Nat.and_pow_two_sub_one_eq_mod]

/-- A value whose bits in a window agree with those of `v < 2^w` is
extracted to `v` by shift-and-mask. -/
theorem div_mod_eq_of_testBit {a v : Nat} (s w : Nat) (hv : v < 2 ^ w)
    (h : ∀ i, i < w → a.testBit (s + i) = v.testBit i) :
    a / 2 ^ s % 2 ^ w = v := by
  rw [← Nat.shiftRight_eq_div_pow]
  apply Nat.eq_of_testBit_eq
  intro i
  rw [Nat.testBit_mod_two_pow, Nat.testBit_shiftRight]
  rcases Nat.lt_or_ge i w with hi | hi
  · simp [hi, h i hi]
  · have h1 : v.testBit i = false :=
      Nat.testBit_lt_two_pow (lt_of_lt_of_le hv (Nat.pow_le_pow_right Nat.zero_lt_two hi))
    simp [Nat.not_lt.2 hi, h1]

/-- Two values whose bits agree on a window extract equally there. -/
theorem div_mod_congr {a b : Nat} (s w : Nat)
    (h : ∀ i, i < w → a.testBit (s + i) = b.testBit (s + i)) :
    a / 2 ^ s % 2 ^ w = b / 2 ^ s % 2 ^ w := by
  rw [← Nat.shiftRight_eq_div_pow, ← Nat.shiftRight_eq_div_pow]
  apply Nat.eq_of_testBit_eq
  intro i
  rw [Nat.testBit_mod_two_pow, Nat.testBit_mod_two_pow,
    Nat.testBit_shiftRight, Nat.testBit_shiftRight]
  rcases Nat.lt_or_ge i w with hi | hi
  · simp [hi, h i hi]
  · simp [Nat.not_lt.2 hi]

/-- `u64::MAX >> (64 - k)` is the low-`k` mask. -/
theorem maxU64_shiftRight (k : Nat) (hk : k ≤ 64) :
    (2 ^ 64 - 1) >>> (64 - k) = 2 ^ k - 1 := by
  apply Nat.eq_of_testBit_eq
  intro i
  rw [Nat.testBit_shiftRight, Nat.testBit_two_pow_sub_one, Nat.testBit_two_pow_sub_one]
  simp only [decide_eq_decide]
  omega

end Bits

/-! ## Field-extraction characterizations. -/

theorem Index.res_eq_div_mod (x : Nat) : Index.res x = x / 2 ^ 52 % 2 ^ 4 := by
  rw [Index.res, Bits.and_255_and_15, Nat.shiftRight_eq_div_pow]

theorem Index.mode_eq_div_mod (x : Nat) : Index.mode x = x / 2 ^ 59 % 2 ^ 4 := by
  rw [Index.mode, Bits.and_255_and_15, Nat.shiftRight_eq_div_pow]

theorem Index.base_eq_div_mod (x : Nat) : Index.base x = x / 2 ^ 45 % 2 ^ 7 := by
  rw [Index.base, Bits.and_255_and_127, Nat.shiftRight_eq_div_pow]

theorem Index.reserved_iff (x : Nat) (hx : x < 2 ^ 64) :
    Index.reserved x = false ↔ x / 2 ^ 63 % 2 = 0 := by
  have hlt : x / 2 ^ 63 < 2 := by
    apply Nat.div_lt_of_lt_mul
    calc x < 2 ^ 64 := hx
    _ = 2 ^ 63 * 2 := by norm_num
  rw [Index.reserved, Nat.shiftRight_eq_div_pow]
  constructor
  · intro h
    have : ¬ x / 2 ^ 63 = 1 := by simpa using h
    omega
  · intro h
    have h0 : x / 2 ^ 63 = 0 := by omega
    simp only [beq_eq_false_iff_ne, ne_eq]
    omega

theorem digitAt_eq_div_mod (c r : Nat) :
    digitAt c r = c / 2 ^ ((15 - r) * 3) % 2 ^ 3 := by
  rw [digitAt, Bits.and_7, Nat.shiftRight_eq_div_pow]

theorem Index.digit_eq (x r : Nat) (h1 : 1 ≤ r) (h15 : r ≤ 15) :
    Index.digit x r = some (x / 2 ^ ((15 - r) * 3) % 2 ^ 3) := by
  rw [Index.digit, if_neg (by omega), Bits.and_255_and_7, Nat.shiftRight_eq_div_pow]


/-! ## Claim C5: `Cell::from_raw` validation. -/

/-- The arithmetic form of the three conditions `Cell::from_raw` checks:
reserved bit clear, mode field equal to 1, base field below 122. -/
def fromRawAccepts (x : Nat) : Prop :=
  x / 2 ^ 63 % 2 = 0 ∧ x / 2 ^ 59 % 2 ^ 4 = 1 ∧ x / 2 ^ 45 % 2 ^ 7 < 122

instance (x : Nat) : Decidable (fromRawAccepts x) := by
  unfold fromRawAccepts; infer_instance

/-- C5 counterexample: `0x0800000000000000` has reserved 0, mode 1, base 0
and resolution 0, but its digit at resolution 1 — a position beyond the
resolution — is 0 rather than the sentinel 7. `Cell::from_raw`
nevertheless accepts it, refuting the claim that acceptance happens
exactly when the digit positions beyond the resolution are all 7. -/
theorem claim5_counterexample :
    Cell.from_raw 0x0800000000000000 = Except.ok 0x0800000000000000 ∧
    Cell.res 0x0800000000000000 = 0 ∧
    Index.digit 0x0800000000000000 1 = some 0 := by
  refine ⟨?_, by decide, by decide⟩
  show (if _ then _ else _) = _
  rw [if_pos (by decide)]

/-- C5 (amended): for every `u64`, `Cell::from_raw` returns `Ok` exactly
when the reserved bit is 0, the mode field is 1 and the base field is
below 122 (digit positions beyond the resolution are *not* validated);
it is the identity on accepted inputs and returns the `InvalidIndex`
error kind on every other input. -/
theorem claim5_from_raw_validation (x : Nat) (hx : x < 2 ^ 64) :
    (Cell.from_raw x = .ok x ↔ fromRawAccepts x) ∧
    (¬ fromRawAccepts x → Cell.from_raw x = .error (.index x)) := by
  have hcond : (!(Index.reserved x) && (Index.mode x == 1) &&
      decide (Index.base x < 122)) = true ↔ fromRawAccepts x := by
    simp only [Bool.and_eq_true, Bool.not_eq_true', beq_iff_eq, decide_eq_true_eq]
    rw [Index.mode_eq_div_mod, Index.base_eq_div_mod, Index.reserved_iff x hx,
      fromRawAccepts]
    tauto
  by_cases hc : fromRawAccepts x
  · have hb := hcond.mpr hc
    rw [Cell.from_raw, if_pos hb]
    exact ⟨iff_of_true rfl hc, fun hn => absurd hc hn⟩
  · have hb : ¬ ((!(Index.reserved x) && (Index.mode x == 1) &&
        decide (Index.base x < 122)) = true) := fun h => absurd (hcond.mp h) hc
    rw [Cell.from_raw, if_neg hb]
    exact ⟨iff_of_false (fun h => Except.noConfusion h) hc, fun _ => rfl⟩

/-- Witness for C5 on a concrete valid cell. -/
theorem claim5_witness :
    (0x85283473fffffff : Nat) < 2 ^ 64 ∧
      (Cell.from_raw 0x85283473fffffff = .ok 0x85283473fffffff ↔
        fromRawAccepts 0x85283473fffffff) :=
  ⟨by norm_num, (claim5_from_raw_validation 0x85283473fffffff (by norm_num)).1⟩

/-! ## Claim C6: `Cell::to_parent`. -/

/-- Bit-level characterization of the value built by the non-trivial
branch of `to_parent`: low digit positions are forced to 1-bits, the
resolution field holds `r`, everything else comes from `x`. -/
theorem testBit_toParent_raw (x r : Nat) (hr : r ≤ 15) (j : Nat) (hj : j < 64) :
    (Index.set_res x r ||| ((2 ^ 64 - 1) >>> (64 - (15 - r) * 3))).testBit j =
      (if j < (15 - r) * 3 then true
       else if 52 ≤ j ∧ j < 56 then r.testBit (j - 52)
       else x.testBit j) := by
  have hk : (15 - r) * 3 ≤ 64 := by omega
  have hr15 : r &&& 0b1111 = r := by
    rw [(by norm_num : (0b1111 : Nat) = 2 ^ 4 - 1), Nat.and_pow_two_sub_one_eq_mod,
      Nat.mod_eq_of_lt (by omega)]
  have hmask : ∀ i, ((0b1111 : Nat) <<< 0x34).testBit i =
      (decide (52 ≤ i) && decide (i - 52 < 4)) := by
    intro i
    rw [Nat.testBit_shiftLeft]
    congr 1
    rw [(by norm_num : (0b1111 : Nat) = 2 ^ 4 - 1), Nat.testBit_two_pow_sub_one]
  rw [Index.set_res, Index.compl64, hr15, Bits.maxU64_shiftRight _ hk]
  simp only [Nat.testBit_or, Nat.testBit_and, Nat.testBit_xor, Nat.testBit_shiftLeft,
    Nat.testBit_two_pow_sub_one, hmask]
  by_cases h1 : j < (15 - r) * 3
  · simp [h1]
  · by_cases h3 : 52 ≤ j
    · by_cases h2 : j < 56
      · have e1 : j - 52 < 4 := by omega
        rw [if_neg h1, if_pos ⟨h3, h2⟩]
        simp [h1, h3, e1, hj]
      · have e1 : ¬ (j - 52 < 4) := by omega
        have hb : r.testBit (j - 52) = false := by
          apply Nat.testBit_lt_two_pow
          calc r < 2 ^ 4 := by omega
          _ ≤ 2 ^ (j - 52) := Nat.pow_le_pow_right Nat.zero_lt_two (by omega)
        rw [if_neg h1, if_neg (by omega)]
        simp [h1, h3, e1, hj, hb]
    · rw [if_neg h1, if_neg (by omega)]
      simp [h1, h3, hj]

/-- C6: `to_parent(r)` succeeds exactly when `r ≤ R`; it is the identity
at `r = R`, and for `r < R` it produces a cell with resolution field `r`,
the same base and digits `1..=r` as `x`, and every digit position above
`r` set to 7. -/
theorem claim6_to_parent (x : Nat) (hx : cellOk x) (r : Nat) (hr : r ≤ 15) :
    ((Cell.to_parent x r).isSome ↔ r ≤ Cell.res x) ∧
    (r = Cell.res x → Cell.to_parent x r = some x) ∧
    (r < Cell.res x →
      ∃ y, Cell.to_parent x r = some y ∧
        Cell.res y = r ∧
        Cell.base y = Cell.base x ∧
        (∀ i, 1 ≤ i → i ≤ r → Index.digit y i = Index.digit x i) ∧
        (∀ i, r < i → i ≤ 15 → Index.digit y i = some 7)) := by
  obtain ⟨hx64, -, -, -⟩ := hx
  have hres15 : Cell.res x ≤ 15 := res_le_15 x
  refine ⟨?_, ?_, ?_⟩
  · unfold Cell.to_parent
    split_ifs with h h2
    · simp only [Option.isSome_none, Bool.false_eq_true, false_iff]
      omega
    · simp only [Option.isSome_some, true_iff]
      omega
    · simp only [Option.isSome_some, true_iff]
      omega
  · intro h
    unfold Cell.to_parent
    rw [if_neg (by omega), if_pos h.symm]
  · intro h
    have hr14 : r ≤ 14 := by omega
    refine ⟨Index.set_res x r ||| ((2 ^ 64 - 1) >>> (64 - (15 - r) * 3)), ?_, ?_, ?_, ?_, ?_⟩
    · unfold Cell.to_parent
      rw [if_neg (by omega), if_neg (by omega)]
    · rw [Cell.res, Index.res_eq_div_mod]
      apply Bits.div_mod_eq_of_testBit 52 4 (by omega)
      intro i hi
      rw [testBit_toParent_raw x r hr (52 + i) (by omega)]
      rw [if_neg (by omega), if_pos ⟨by omega, by omega⟩]
      congr 1
      omega
    · rw [Cell.base, Cell.base, Index.base_eq_div_mod, Index.base_eq_div_mod]
      apply Bits.div_mod_congr 45 7
      intro i hi
      rw [testBit_toParent_raw x r hr (45 + i) (by omega)]
      rw [if_neg (by omega), if_neg (by omega)]
    · intro i h1i hir
      rw [Index.digit_eq _ i h1i (by omega), Index.digit_eq _ i h1i (by omega)]
      congr 1
      apply Bits.div_mod_congr ((15 - i) * 3) 3
      intro t ht
      rw [testBit_toParent_raw x r hr ((15 - i) * 3 + t) (by omega)]
      rw [if_neg (by omega), if_neg (by omega)]
    · intro i hri hi15
      rw [Index.digit_eq _ i (by omega) hi15]
      congr 1
      apply Bits.div_mod_eq_of_testBit ((15 - i) * 3) 3 (by norm_num)
      intro t ht
      rw [testBit_toParent_raw x r hr ((15 - i) * 3 + t) (by omega)]
      rw [if_pos (by omega)]
      have h7 : (7 : Nat) = 2 ^ 3 - 1 := by norm_num
      rw [h7, Nat.testBit_two_pow_sub_one]
      simp [ht]

/-- Witness for C6 on the repository's own test cell at `r = 4`. -/
theorem claim6_witness :
    cellOk 0x85283473fffffff ∧
      ((Cell.to_parent 0x85283473fffffff 4).isSome ↔
        4 ≤ Cell.res 0x85283473fffffff) :=
  ⟨by decide, (claim6_to_parent 0x85283473fffffff (by decide) 4 (by norm_num)).1⟩


/-! ## Varint framing (`src/disktree/varint.rs`). -/

namespace Bits

/-- Or-ing a power of two above a small value is addition. -/
theorem or_pow_eq_add {v : Nat} (k : Nat) (h : v < 2 ^ k) :
    v ||| 2 ^ k = v + 2 ^ k := by
  rw [Nat.lor_comm]
  have h2 := (Nat.mul_add_lt_is_or h 1).symm
  rw [Nat.mul_one] at h2
  rw [h2, Nat.add_comm]

/-- Or-ing below a shifted value is addition. -/
theorem mul_pow_or_eq_add {y : Nat} (x k : Nat) (hy : y < 2 ^ k) :
    (x * 2 ^ k) ||| y = x * 2 ^ k + y := by
  rw [Nat.mul_comm x]
  exact (Nat.mul_add_lt_is_or hy x).symm

theorem and_255 (a : Nat) : a &&& 0xFF = a % 2 ^ 8 := by
  rw [(by norm_num : (0xFF : Nat) = 2 ^ 8 - 1), Nat.and_pow_two_sub_one_eq_mod]

theorem and_ffff (a : Nat) : a &&& 0xFFFF = a % 2 ^ 16 := by
  rw [(by norm_num : (0xFFFF : Nat) = 2 ^ 16 - 1), Nat.and_pow_two_sub_one_eq_mod]

theorem and_63 (a : Nat) : a &&& 0x3F = a % 2 ^ 6 := by
  rw [(by norm_num : (0x3F : Nat) = 2 ^ 6 - 1), Nat.and_pow_two_sub_one_eq_mod]

theorem and_31 (a : Nat) : a &&& 0x1F = a % 2 ^ 5 := by
  rw [(by norm_num : (0x1F : Nat) = 2 ^ 5 - 1), Nat.and_pow_two_sub_one_eq_mod]

end Bits

namespace Varint

/-- `u8::leading_zeros`. -/
def leadingZeros8 (b : Nat) : Nat :=
  if b ≥ 128 then 0
  else if b ≥ 64 then 1
  else if b ≥ 32 then 2
  else if b ≥ 16 then 3
  else if b ≥ 8 then 4
  else if b ≥ 4 then 5
  else if b ≥ 2 then 6
  else if b ≥ 1 then 7
  else 8

/-- `varint::write`: the emitted bytes and the count of bytes written.
Big-endian multi-byte writes are spelled out byte by byte; `as uN`
casts are masks. -/
def write (value : Nat) : Except Error (List Nat × Nat) :=
  if value < 0x40 then
    .ok ([(value ||| 0x40) &&& 0xFF], 1)
  else if value < 0x2000 then
    let w := (value ||| 0x2000) &&& 0xFFFF
    .ok ([(w >>> 8) &&& 0xFF, w &&& 0xFF], 2)
  else if value < 0x100000 then
    let w := value ||| 0x100000
    let lo := w &&& 0xFFFF
    .ok ([(w >>> 16) &&& 0xFF, (lo >>> 8) &&& 0xFF, lo &&& 0xFF], 3)
  else if value < 0x8000000 then
    let w := value ||| 0x8000000
    .ok ([(w >>> 24) &&& 0xFF, (w >>> 16) &&& 0xFF, (w >>> 8) &&& 0xFF, w &&& 0xFF], 4)
  else
    .error (.varint value)

/-- `varint::read` over a byte sequence: the decoded value and the
number of bytes consumed. A missing byte is an IO error. -/
def read (bytes : List Nat) : Except Error (Nat × Nat) :=
  match bytes with
  | [] => .error .io
  | a :: rest =>
    match leadingZeros8 a, rest with
    | 1, _ => .ok (a &&& 0x3F, 1)
    | 2, b :: _ => .ok (((a &&& 0x1F) <<< 8) ||| b, 2)
    | 2, _ => .error .io
    | 3, b :: c :: _ => .ok (((a &&& 0x0F) <<< 16) ||| ((b <<< 8) ||| c), 3)
    | 3, _ => .error .io
    | 4, b :: c :: d :: _ =>
      .ok ((((a &&& 0x07) <<< 24) ||| (b <<< 16)) ||| ((c <<< 8) ||| d), 4)
    | 4, _ => .error .io
    | _, _ => .error (.varint a)

end Varint



namespace Varint

theorem lz8_eq_one {b : Nat} (h1 : 64 ≤ b) (h2 : b < 128) : leadingZeros8 b = 1 := by
  rw [leadingZeros8, if_neg (by omega), if_pos (by omega)]

theorem lz8_eq_two {b : Nat} (h1 : 32 ≤ b) (h2 : b < 64) : leadingZeros8 b = 2 := by
  rw [leadingZeros8, if_neg (by omega), if_neg (by omega), if_pos (by omega)]

theorem lz8_eq_three {b : Nat} (h1 : 16 ≤ b) (h2 : b < 32) : leadingZeros8 b = 3 := by
  rw [leadingZeros8, if_neg (by omega), if_neg (by omega), if_neg (by omega),
    if_pos (by omega)]

theorem lz8_eq_four {b : Nat} (h1 : 8 ≤ b) (h2 : b < 16) : leadingZeros8 b = 4 := by
  rw [leadingZeros8, if_neg (by omega), if_neg (by omega), if_neg (by omega),
    if_neg (by omega), if_pos (by omega)]

theorem write_band1 (v : Nat) (h1 : v < 0x40) :
    write v = .ok ([v + 0x40], 1) := by
  rw [write, if_pos h1]
  have e : v ||| 0x40 = v + 0x40 := by
    rw [(by norm_num : (0x40 : Nat) = 2 ^ 6)]
    exact Bits.or_pow_eq_add 6 (by omega)
  rw [e, Bits.and_255, Nat.mod_eq_of_lt (by omega)]

theorem read_band1 (v : Nat) (rest : List Nat) (h1 : v < 0x40) :
    read ((v + 0x40) :: rest) = .ok (v, 1) := by
  have hlz : leadingZeros8 (v + 0x40) = 1 := lz8_eq_one (by omega) (by omega)
  simp only [read, hlz]
  rw [Bits.and_63]
  congr 2
  omega

theorem write_band2 (v : Nat) (h1 : 0x40 ≤ v) (h2 : v < 0x2000) :
    write v = .ok ([(v + 0x2000) / 2 ^ 8 % 2 ^ 8, (v + 0x2000) % 2 ^ 8], 2) := by
  rw [write, if_neg (by omega), if_pos h2]
  have e : v ||| 0x2000 = v + 0x2000 := by
    rw [(by norm_num : (0x2000 : Nat) = 2 ^ 13)]
    exact Bits.or_pow_eq_add 13 (by omega)
  simp only [e, Bits.and_ffff, Bits.and_255, Nat.shiftRight_eq_div_pow]
  have a1 : (v + 0x2000) % 2 ^ 16 / 2 ^ 8 % 2 ^ 8 = (v + 0x2000) / 2 ^ 8 % 2 ^ 8 := by
    omega
  have a2 : (v + 0x2000) % 2 ^ 16 % 2 ^ 8 = (v + 0x2000) % 2 ^ 8 := by omega
  rw [a1, a2]

theorem read_band2 (v : Nat) (rest : List Nat) (h1 : 0x40 ≤ v) (h2 : v < 0x2000) :
    read ((v + 0x2000) / 2 ^ 8 % 2 ^ 8 :: (v + 0x2000) % 2 ^ 8 :: rest) =
      .ok (v, 2) := by
  have hlz : leadingZeros8 ((v + 0x2000) / 2 ^ 8 % 2 ^ 8) = 2 :=
    lz8_eq_two (by omega) (by omega)
  simp only [read, hlz]
  rw [Bits.and_31, Nat.shiftLeft_eq,
    Bits.mul_pow_or_eq_add _ 8 (Nat.mod_lt _ (by norm_num))]
  congr 2
  omega

theorem write_band3 (v : Nat) (h1 : 0x2000 ≤ v) (h2 : v < 0x100000) :
    write v = .ok ([(v + 0x100000) / 2 ^ 16 % 2 ^ 8,
      (v + 0x100000) / 2 ^ 8 % 2 ^ 8, (v + 0x100000) % 2 ^ 8], 3) := by
  rw [write, if_neg (by omega), if_neg (by omega), if_pos h2]
  have e : v ||| 0x100000 = v + 0x100000 := by
    rw [(by norm_num : (0x100000 : Nat) = 2 ^ 20)]
    exact Bits.or_pow_eq_add 20 (by omega)
  simp only [e, Bits.and_ffff, Bits.and_255, Nat.shiftRight_eq_div_pow]
  have a1 : (v + 0x100000) % 2 ^ 16 / 2 ^ 8 % 2 ^ 8 = (v + 0x100000) / 2 ^ 8 % 2 ^ 8 := by
    omega
  have a2 : (v + 0x100000) % 2 ^ 16 % 2 ^ 8 = (v + 0x100000) % 2 ^ 8 := by omega
  rw [a1, a2]

theorem read_band3 (v : Nat) (rest : List Nat) (h1 : 0x2000 ≤ v) (h2 : v < 0x100000) :
    read ((v + 0x100000) / 2 ^ 16 % 2 ^ 8 :: (v + 0x100000) / 2 ^ 8 % 2 ^ 8 ::
        (v + 0x100000) % 2 ^ 8 :: rest) = .ok (v, 3) := by
  have hlz : leadingZeros8 ((v + 0x100000) / 2 ^ 16 % 2 ^ 8) = 3 :=
    lz8_eq_three (by omega) (by omega)
  simp only [read, hlz]
  rw [Bits.and_15, Nat.shiftLeft_eq, Nat.shiftLeft_eq,
    Bits.mul_pow_or_eq_add _ 8 (Nat.mod_lt _ (by norm_num)),
    Bits.mul_pow_or_eq_add _ 16 (by omega)]
  congr 2
  omega

theorem write_band4 (v : Nat) (h1 : 0x100000 ≤ v) (h2 : v < 0x8000000) :
    write v = .ok ([(v + 0x8000000) / 2 ^ 24 % 2 ^ 8,
      (v + 0x8000000) / 2 ^ 16 % 2 ^ 8, (v + 0x8000000) / 2 ^ 8 % 2 ^ 8,
      (v + 0x8000000) % 2 ^ 8], 4) := by
  rw [write, if_neg (by omega), if_neg (by omega), if_neg (by omega), if_pos h2]
  have e : v ||| 0x8000000 = v + 0x8000000 := by
    rw [(by norm_num : (0x8000000 : Nat) = 2 ^ 27)]
    exact Bits.or_pow_eq_add 27 (by omega)
  simp only [e, Bits.and_255, Nat.shiftRight_eq_div_pow]

theorem read_band4 (v : Nat) (rest : List Nat) (h1 : 0x100000 ≤ v)
    (h2 : v < 0x8000000) :
    read ((v + 0x8000000) / 2 ^ 24 % 2 ^ 8 :: (v + 0x8000000) / 2 ^ 16 % 2 ^ 8 ::
        (v + 0x8000000) / 2 ^ 8 % 2 ^ 8 :: (v + 0x8000000) % 2 ^ 8 :: rest) =
      .ok (v, 4) := by
  have hlz : leadingZeros8 ((v + 0x8000000) / 2 ^ 24 % 2 ^ 8) = 4 :=
    lz8_eq_four (by omega) (by omega)
  simp only [read, hlz]
  rw [Bits.and_7, Nat.shiftLeft_eq, Nat.shiftLeft_eq, Nat.shiftLeft_eq,
    Bits.mul_pow_or_eq_add _ 8 (Nat.mod_lt _ (by norm_num)),
    Bits.mul_pow_or_eq_add _ 24 (by omega)]
  rw [(by ring : (v + 0x8000000) / 2 ^ 24 % 2 ^ 8 % 2 ^ 3 * 2 ^ 24 +
      (v + 0x8000000) / 2 ^ 16 % 2 ^ 8 * 2 ^ 16 =
      ((v + 0x8000000) / 2 ^ 24 % 2 ^ 8 % 2 ^ 3 * 2 ^ 8 +
        (v + 0x8000000) / 2 ^ 16 % 2 ^ 8) * 2 ^ 16),
    Bits.mul_pow_or_eq_add _ 16 (by omega)]
  congr 2
  omega

end Varint


/-- C8: `varint::write(v)` succeeds exactly for `v < 2^27`, with the byte
count determined by the band boundaries `2^6`, `2^13`, `2^20`, `2^27`;
it fails with the `Varint(v)` error kind at and above `2^27`; and
`varint::read` decodes the emitted bytes back to `(v, n)`. -/
theorem claim8_varint (v : Nat) (hv : v < 2 ^ 32) :
    (v < 2 ^ 27 → ∃ bs n, Varint.write v = Except.ok (bs, n) ∧ bs.length = n ∧
      (n = 1 ↔ v < 2 ^ 6) ∧
      (n = 2 ↔ 2 ^ 6 ≤ v ∧ v < 2 ^ 13) ∧
      (n = 3 ↔ 2 ^ 13 ≤ v ∧ v < 2 ^ 20) ∧
      (n = 4 ↔ 2 ^ 20 ≤ v ∧ v < 2 ^ 27) ∧
      (∀ rest, Varint.read (bs ++ rest) = Except.ok (v, n))) ∧
    (2 ^ 27 ≤ v → Varint.write v = Except.error (.varint v)) := by
  constructor
  · intro h27
    by_cases b1 : v < 0x40
    · exact ⟨_, 1, Varint.write_band1 v b1, rfl, by omega, by omega, by omega, by omega,
        fun rest => Varint.read_band1 v rest b1⟩
    · by_cases b2 : v < 0x2000
      · exact ⟨_, 2, Varint.write_band2 v (by omega) b2, rfl, by omega, by omega,
          by omega, by omega, fun rest => Varint.read_band2 v rest (by omega) b2⟩
      · by_cases b3 : v < 0x100000
        · exact ⟨_, 3, Varint.write_band3 v (by omega) b3, rfl, by omega, by omega,
            by omega, by omega, fun rest => Varint.read_band3 v rest (by omega) b3⟩
        · exact ⟨_, 4, Varint.write_band4 v (by omega) (by omega), rfl, by omega,
            by omega, by omega, by omega,
            fun rest => Varint.read_band4 v rest (by omega) (by omega)⟩
  · intro hge
    rw [Varint.write, if_neg (by omega), if_neg (by omega), if_neg (by omega),
      if_neg (by omega)]

/-- Witness for C8 at the band boundary `v = 0x2000`. -/
theorem claim8_witness :
    ∃ bs n, Varint.write 0x2000 = Except.ok (bs, n) ∧ bs.length = n ∧
      (n = 1 ↔ (0x2000 : Nat) < 2 ^ 6) ∧
      (n = 2 ↔ (2 ^ 6 : Nat) ≤ 0x2000 ∧ (0x2000 : Nat) < 2 ^ 13) ∧
      (n = 3 ↔ (2 ^ 13 : Nat) ≤ 0x2000 ∧ (0x2000 : Nat) < 2 ^ 20) ∧
      (n = 4 ↔ (2 ^ 20 : Nat) ≤ 0x2000 ∧ (0x2000 : Nat) < 2 ^ 27) ∧
      (∀ rest, Varint.read (bs ++ rest) = Except.ok (0x2000, n)) :=
  (claim8_varint 0x2000 (by norm_num)).1 (by norm_num)

/-! ## Disk pointers (`src/disktree/dptr.rs`). -/

namespace Dp

/-- `Dp::DISK_REPR_SZ`. -/
def DISK_REPR_SZ : Nat := 5

/-- `Dp::MAX = 2^(5·8) − 1`. -/
def MAX : Nat := 2 ^ (DISK_REPR_SZ * 8) - 1

/-- `Dp::NULL`. -/
def NULL : Nat := 0

/-- `From<u64> for Dp`: `assert!(raw <= Self::MAX)`. A failed assert is
a panic, modelled as `none`. -/
def fromU64 (raw : Nat) : Option Nat :=
  if raw ≤ MAX then some raw else none

/-- `u64::to_le_bytes`. -/
def toLeBytes8 (x : Nat) : List Nat :=
  [x % 2 ^ 8, x / 2 ^ 8 % 2 ^ 8, x / 2 ^ 16 % 2 ^ 8, x / 2 ^ 24 % 2 ^ 8,
   x / 2 ^ 32 % 2 ^ 8, x / 2 ^ 40 % 2 ^ 8, x / 2 ^ 48 % 2 ^ 8, x / 2 ^ 56 % 2 ^ 8]

/-- `Dp::write`: emit the first `DISK_REPR_SZ` bytes of the
little-endian representation. -/
def write (dp : Nat) : List Nat := (toLeBytes8 dp).take DISK_REPR_SZ

/-- `Dp::read`: read 5 bytes, zero-extend to 8, parse little-endian. -/
def read (bytes : List Nat) : Except Error Nat :=
  match bytes with
  | b0 :: b1 :: b2 :: b3 :: b4 :: _ =>
    .ok (b0 + b1 * 2 ^ 8 + b2 * 2 ^ 16 + b3 * 2 ^ 24 + b4 * 2 ^ 32)
  | _ => .error .io

end Dp

/-- C10: converting an offset to a disk pointer asserts `off ≤ 2^40 − 1`
and panics (`none`) beyond it, so an over-large node area aborts at the
conversion; `Dp::write` emits exactly the five low-order little-endian
bytes of the offset, and `Dp::read` recovers `off % 2^40`. -/
theorem claim10_dp (off : Nat) :
    (Dp.fromU64 off = some off ↔ off < 2 ^ 40) ∧
    (2 ^ 40 ≤ off → Dp.fromU64 off = none) ∧
    Dp.write off = [off % 2 ^ 8, off / 2 ^ 8 % 2 ^ 8, off / 2 ^ 16 % 2 ^ 8,
      off / 2 ^ 24 % 2 ^ 8, off / 2 ^ 32 % 2 ^ 8] ∧
    (∀ rest, Dp.read (Dp.write off ++ rest) = Except.ok (off % 2 ^ 40)) := by
  refine ⟨?_, ?_, rfl, ?_⟩
  · rw [Dp.fromU64, Dp.MAX]
    split_ifs with h
    · simp only [Option.some_inj, true_iff]
      simp only [Dp.DISK_REPR_SZ] at h
      omega
    · simp only [Dp.DISK_REPR_SZ] at h
      exact iff_of_false (by simp) (by omega)
  · intro h
    rw [Dp.fromU64, if_neg (by simp only [Dp.MAX, Dp.DISK_REPR_SZ]; omega)]
  · intro rest
    show Dp.read (off % 2 ^ 8 :: off / 2 ^ 8 % 2 ^ 8 :: off / 2 ^ 16 % 2 ^ 8 ::
      off / 2 ^ 24 % 2 ^ 8 :: off / 2 ^ 32 % 2 ^ 8 :: rest) = Except.ok (off % 2 ^ 40)
    rw [Dp.read]
    congr 1
    omega


/-! ## In-memory trie (`src/node.rs`, `src/compaction.rs`,
`src/hex_tree_map.rs`).

`Node` stores its cell as in `src/node.rs` (`Parent(H3Cell, [Option<Box<Node>>; 7])`,
`Leaf(H3Cell, V)`). Child slots are seven explicit fields, mirroring the
fixed-size array. Digits are `Fin 7` after the bounds check that models
the `children[digit as usize]` indexing panic. -/

inductive Node (V : Type) where
  | leaf (cell : Nat) (v : V)
  | parent (cell : Nat) (c0 c1 c2 c3 c4 c5 c6 : Option (Node V))

namespace Node

/-- `Node::new`: a parent with no children. -/
def newNode (cell : Nat) : Node V :=
  .parent cell none none none none none none none

/-- `Node::value`. -/
def value : Node V → Option V
  | .leaf _ v => some v
  | .parent .. => none

/-- Select the child slot for a digit from the seven slots. -/
def childSel (c0 c1 c2 c3 c4 c5 c6 : Option (Node V)) (d : Fin 7) :
    Option (Node V) :=
  match d with
  | 0 => c0
  | 1 => c1
  | 2 => c2
  | 3 => c3
  | 4 => c4
  | 5 => c5
  | 6 => c6

/-- `children[digit]` on a node (a leaf has no children). -/
def child (n : Node V) (d : Fin 7) : Option (Node V) :=
  match n with
  | .leaf _ _ => none
  | .parent _ c0 c1 c2 c3 c4 c5 c6 => childSel c0 c1 c2 c3 c4 c5 c6 d

/-- `children[digit] = x` on a parent node (identity on a leaf). -/
def setChild (n : Node V) (d : Fin 7) (x : Option (Node V)) : Node V :=
  match n with
  | .leaf c v => .leaf c v
  | .parent c c0 c1 c2 c3 c4 c5 c6 =>
    match d with
    | ⟨0, _⟩ => .parent c x c1 c2 c3 c4 c5 c6
    | ⟨1, _⟩ => .parent c c0 x c2 c3 c4 c5 c6
    | ⟨2, _⟩ => .parent c c0 c1 x c3 c4 c5 c6
    | ⟨3, _⟩ => .parent c c0 c1 c2 x c4 c5 c6
    | ⟨4, _⟩ => .parent c c0 c1 c2 c3 x c5 c6
    | ⟨5, _⟩ => .parent c c0 c1 c2 c3 c4 x c6
    | ⟨6, _⟩ => .parent c c0 c1 c2 c3 c4 c5 x

mutual

/-- `Node::len`: the number of leaves. -/
def len : Node V → Nat
  | .leaf _ _ => 1
  | .parent _ c0 c1 c2 c3 c4 c5 c6 =>
    lenO c0 + lenO c1 + lenO c2 + lenO c3 + lenO c4 + lenO c5 + lenO c6

/-- The leaf count of an optional subtree. -/
def lenO : Option (Node V) → Nat
  | some n => len n
  | none => 0

end

mutual

/-- The number of nodes, used as a structural measure. -/
def size : Node V → Nat
  | .leaf _ _ => 1
  | .parent _ c0 c1 c2 c3 c4 c5 c6 =>
    1 + sizeO c0 + sizeO c1 + sizeO c2 + sizeO c3 + sizeO c4 + sizeO c5 + sizeO c6

/-- The node count of an optional subtree. -/
def sizeO : Option (Node V) → Nat
  | some n => size n
  | none => 0

end

end Node

/-- The compactor hook. `src/node.rs` passes the parent node's
resolution as the first argument (the `src/compaction.rs` variant names
it `cell`; the built-in compactors ignore it either way). -/
abbrev Compactor (V : Type) := Nat → List (Option V) → Option V

/-- `NullCompactor`. -/
def nullCompactor : Compactor V := fun _ _ => none

/-- `SetCompactor`: coalesce iff all seven children are present. -/
def setCompactor : Compactor Unit := fun _ children =>
  if children.all Option.isSome then some () else none

/-- `EqCompactor`: coalesce iff all seven child values are present and
equal; returns (a clone of) the first. -/
def eqCompactor [DecidableEq V] : Compactor V := fun _ children =>
  match children with
  | [some v0, some v1, some v2, some v3, some v4, some v5, some v6] =>
    if v0 = v1 ∧ v1 = v2 ∧ v2 = v3 ∧ v3 = v4 ∧ v4 = v5 ∧ v5 = v6
    then some v0 else none
  | _ => none

namespace Node

/-- Does this optional child hold a `Parent`? (`matches!(…, Some(Parent(..)))`). -/
def isParentOpt : Option (Node V) → Bool
  | some (.parent ..) => true
  | _ => false

/-- `Node::coalesce`: on a parent whose children are all leaves (or
absent), ask the compactor; replace the parent with a leaf carrying the
returned value if any. -/
def coalesce (n : Node V) (res : Nat) (C : Compactor V) : Node V :=
  match n with
  | .leaf c v => .leaf c v
  | .parent c c0 c1 c2 c3 c4 c5 c6 =>
    if [c0, c1, c2, c3, c4, c5, c6].any isParentOpt then
      .parent c c0 c1 c2 c3 c4 c5 c6
    else
      match C res ([c0, c1, c2, c3, c4, c5, c6].map (fun o => o.bind value)) with
      | some v => .leaf c v
      | none => .parent c c0 c1 c2 c3 c4 c5 c6

/-- `Node::insert`: descend along the digits, creating parents as
needed; place a leaf at path end; drop the insert upon meeting a leaf
before path end (without coalescing); coalesce on the way out. The
`hex.get_parent(res + 1).expect(…)` of the source cannot fail when the
digit list is the cell's own digit path; its panic is modelled by a
`getD` fallback. -/
def insert (n : Node V) (hex res : Nat) (digits : List (Fin 7)) (v : V)
    (C : Compactor V) : Node V :=
  match digits with
  | [] => coalesce (.leaf hex v) res C
  | d :: rest =>
    match n with
    | .leaf c w => .leaf c w
    | .parent c c0 c1 c2 c3 c4 c5 c6 =>
      let newChild :=
        match childSel c0 c1 c2 c3 c4 c5 c6 d with
        | some m => insert m hex (res + 1) rest v C
        | none =>
          insert (newNode ((Cell.to_parent hex (res + 1)).getD hex))
            hex (res + 1) rest v C
      coalesce
        (setChild (.parent c c0 c1 c2 c3 c4 c5 c6) d (some newChild)) res C

/-- `Node::contains`. -/
def contains : Node V → List (Fin 7) → Bool
  | .leaf _ _, _ => true
  | .parent _ _ _ _ _ _ _ _, [] => false
  | .parent _ c0 c1 c2 c3 c4 c5 c6, d :: rest =>
    match childSel c0 c1 c2 c3 c4 c5 c6 d with
    | some m => contains m rest
    | none => false

/-- Modelled from the spec: the node-level lookup behind
`HexTreeMap::get` (the canonical cell-returning `Node::get(res, cell,
digits)` is not present under `src/`, which only has an older variant
returning the bare value): descend; on any leaf return its value
together with `cell.to_parent(current depth)`; on a parent with the
digits exhausted, or a missing child, return `None`. -/
def getCell : Node V → Nat → Nat → List (Fin 7) → Option (Nat × V)
  | .leaf _ v, res, cell, _ => ((Cell.to_parent cell res).getD cell, v)
  | .parent _ _ _ _ _ _ _ _, _, _, [] => none
  | .parent _ c0 c1 c2 c3 c4 c5 c6, res, cell, d :: rest =>
    match childSel c0 c1 c2 c3 c4 c5 c6 d with
    | some m => getCell m (res + 1) cell rest
    | none => none

mutual

/-- The digit paths of all leaves below a node. -/
def leafPaths : Node V → List (List (Fin 7))
  | .leaf _ _ => [[]]
  | .parent _ c0 c1 c2 c3 c4 c5 c6 =>
    (leafPathsO c0).map ((0 : Fin 7) :: ·) ++
    (leafPathsO c1).map ((1 : Fin 7) :: ·) ++
    (leafPathsO c2).map ((2 : Fin 7) :: ·) ++
    (leafPathsO c3).map ((3 : Fin 7) :: ·) ++
    (leafPathsO c4).map ((4 : Fin 7) :: ·) ++
    (leafPathsO c5).map ((5 : Fin 7) :: ·) ++
    (leafPathsO c6).map ((6 : Fin 7) :: ·)

/-- The leaf digit paths of an optional subtree. -/
def leafPathsO : Option (Node V) → List (List (Fin 7))
  | some n => leafPaths n
  | none => []

end

end Node

/-- Bounds-check a digit list: `none` models the `children[7]`
out-of-bounds panic reachable through un-validated digits. -/
def toFin7 : List Nat → Option (List (Fin 7))
  | [] => some []
  | d :: rest =>
    if h : d < 7 then (toFin7 rest).map (⟨d, h⟩ :: ·) else none

/-- A cell's digit path as checked digits. -/
def digitsFin (c : Nat) : Option (List (Fin 7)) := toFin7 (Digits.list c)

/-- `HexTreeMap`: the 122-slot dense root array. The compactor is
passed per call rather than stored. -/
structure HexTreeMap (V : Type) where
  nodes : List (Option (Node V))

namespace HexTreeMap

/-- `HexTreeMap::new`. -/
def empty : HexTreeMap V := ⟨List.replicate 122 none⟩

/-- `HexTreeMap::insert` (`none` models a panic: an out-of-range digit
or a base-cell index beyond the root array). The source's `Node::new()`
for a fresh base slot is given the cell's resolution-0 parent, as the
cell-storing `Node` variant requires. -/
def insert (t : HexTreeMap V) (cell : Nat) (v : V) (C : Compactor V) :
    Option (HexTreeMap V) :=
  match digitsFin cell, t.nodes.get? (Cell.base cell) with
  | some ds, some slot =>
    let node :=
      match slot with
      | some n => Node.insert n cell 0 ds v C
      | none =>
        Node.insert (Node.newNode ((Cell.to_parent cell 0).getD cell))
          cell 0 ds v C
    some ⟨t.nodes.set (Cell.base cell) (some node)⟩
  | _, _ => none

/-- `HexTreeMap::get` (outer `none` models a panic as in `insert`). -/
def get (t : HexTreeMap V) (cell : Nat) : Option (Option (Nat × V)) :=
  match digitsFin cell, t.nodes.get? (Cell.base cell) with
  | some ds, some slot =>
    some (match slot with
      | some n => Node.getCell n 0 cell ds
      | none => none)
  | _, _ => none

/-- `HexTreeMap::contains`. -/
def containsCell (t : HexTreeMap V) (cell : Nat) : Option Bool :=
  match digitsFin cell, t.nodes.get? (Cell.base cell) with
  | some ds, some slot =>
    some (match slot with
      | some n => Node.contains n ds
      | none => false)
  | _, _ => none

/-- `HexTreeMap::len`. -/
def len (t : HexTreeMap V) : Nat :=
  (t.nodes.map (fun o => match o with | some n => n.len | none => 0)).sum

end HexTreeMap

namespace Node

theorem size_parent (c : Nat) (c0 c1 c2 c3 c4 c5 c6 : Option (Node V)) :
    (Node.parent c c0 c1 c2 c3 c4 c5 c6).size =
      1 + sizeO c0 + sizeO c1 + sizeO c2 + sizeO c3 + sizeO c4 + sizeO c5 +
        sizeO c6 := by
  simp [size]

theorem size_childSel {c : Nat} {c0 c1 c2 c3 c4 c5 c6 : Option (Node V)}
    {d : Fin 7} {m : Node V} (h : childSel c0 c1 c2 c3 c4 c5 c6 d = some m) :
    m.size < (Node.parent c c0 c1 c2 c3 c4 c5 c6).size := by
  have hs : sizeO (childSel c0 c1 c2 c3 c4 c5 c6 d) = m.size := by rw [h, sizeO]
  rw [size_parent]
  fin_cases d
  · replace hs : sizeO c0 = m.size := hs
    omega
  · replace hs : sizeO c1 = m.size := hs
    omega
  · replace hs : sizeO c2 = m.size := hs
    omega
  · replace hs : sizeO c3 = m.size := hs
    omega
  · replace hs : sizeO c4 = m.size := hs
    omega
  · replace hs : sizeO c5 = m.size := hs
    omega
  · replace hs : sizeO c6 = m.size := hs
    omega

/-- The node reached by following a digit path. -/
def nodeAt : Node V → List (Fin 7) → Option (Node V)
  | n, [] => some n
  | n, d :: p =>
    match child n d with
    | some m => nodeAt m p
    | none => none

@[simp] theorem nodeAt_nil (n : Node V) : nodeAt n [] = some n := rfl

theorem nodeAt_cons (n : Node V) (d : Fin 7) (p : List (Fin 7)) :
    nodeAt n (d :: p) =
      match child n d with
      | some m => nodeAt m p
      | none => none := rfl

@[simp] theorem child_leaf (c : Nat) (v : V) (d : Fin 7) :
    child (.leaf c v) d = none := rfl

theorem child_parent (c : Nat) (c0 c1 c2 c3 c4 c5 c6 : Option (Node V)) (d : Fin 7) :
    child (.parent c c0 c1 c2 c3 c4 c5 c6) d = childSel c0 c1 c2 c3 c4 c5 c6 d := rfl

theorem setChild_self {n : Node V} {d : Fin 7} {m : Node V}
    (h : child n d = some m) : setChild n d (some m) = n := by
  cases n with
  | leaf c v => simp [child] at h
  | parent c c0 c1 c2 c3 c4 c5 c6 =>
    fin_cases d
    · replace h : c0 = some m := h
      subst h; rfl
    · replace h : c1 = some m := h
      subst h; rfl
    · replace h : c2 = some m := h
      subst h; rfl
    · replace h : c3 = some m := h
      subst h; rfl
    · replace h : c4 = some m := h
      subst h; rfl
    · replace h : c5 = some m := h
      subst h; rfl
    · replace h : c6 = some m := h
      subst h; rfl

theorem coalesce_leaf (c : Nat) (v : V) (res : Nat) (C : Compactor V) :
    coalesce (.leaf c v) res C = .leaf c v := rfl

theorem coalesce_null (n : Node V) (res : Nat) :
    coalesce n res nullCompactor = n := by
  cases n <;> simp [coalesce, nullCompactor]

theorem coalesce_parent_cases (c : Nat) (c0 c1 c2 c3 c4 c5 c6 : Option (Node V))
    (res : Nat) (C : Compactor V) :
    coalesce (.parent c c0 c1 c2 c3 c4 c5 c6) res C =
      .parent c c0 c1 c2 c3 c4 c5 c6 ∨
    ∃ vv, C res [c0.bind value, c1.bind value, c2.bind value, c3.bind value,
        c4.bind value, c5.bind value, c6.bind value] = some vv ∧
      coalesce (.parent c c0 c1 c2 c3 c4 c5 c6) res C = .leaf c vv := by
  simp only [coalesce, List.map]
  split_ifs with h
  · left
    rfl
  · rcases hC : C res [c0.bind value, c1.bind value, c2.bind value, c3.bind value,
        c4.bind value, c5.bind value, c6.bind value] with _ | vv
    · left
      rfl
    · right
      exact ⟨vv, rfl, rfl⟩

theorem insert_nil (n : Node V) (hex res : Nat) (v : V) (C : Compactor V) :
    insert n hex res [] v C = .leaf hex v := rfl

theorem insert_cons_leaf (c : Nat) (w : V) (hex res : Nat) (d : Fin 7)
    (rest : List (Fin 7)) (v : V) (C : Compactor V) :
    insert (.leaf c w) hex res (d :: rest) v C = .leaf c w := rfl

theorem insert_cons_parent (c : Nat) (c0 c1 c2 c3 c4 c5 c6 : Option (Node V))
    (hex res : Nat) (d : Fin 7) (rest : List (Fin 7)) (v : V) (C : Compactor V) :
    insert (.parent c c0 c1 c2 c3 c4 c5 c6) hex res (d :: rest) v C =
      coalesce
        (setChild (.parent c c0 c1 c2 c3 c4 c5 c6) d
          (some (match childSel c0 c1 c2 c3 c4 c5 c6 d with
            | some m => insert m hex (res + 1) rest v C
            | none =>
              insert (newNode ((Cell.to_parent hex (res + 1)).getD hex))
                hex (res + 1) rest v C))) res C := rfl

theorem getCell_leaf (c : Nat) (w : V) (res cell : Nat) (ds : List (Fin 7)) :
    getCell (.leaf c w) res cell ds =
      some ((Cell.to_parent cell res).getD cell, w) := by
  cases ds <;> rfl

theorem getCell_parent_nil (c : Nat) (c0 c1 c2 c3 c4 c5 c6 : Option (Node V))
    (res cell : Nat) :
    getCell (.parent c c0 c1 c2 c3 c4 c5 c6) res cell [] = none := rfl

theorem getCell_parent_cons (c : Nat) (c0 c1 c2 c3 c4 c5 c6 : Option (Node V))
    (res cell : Nat) (d : Fin 7) (rest : List (Fin 7)) :
    getCell (.parent c c0 c1 c2 c3 c4 c5 c6) res cell (d :: rest) =
      match childSel c0 c1 c2 c3 c4 c5 c6 d with
      | some m => getCell m (res + 1) cell rest
      | none => none := rfl

/-- The insert is dropped without any change when an existing leaf sits
strictly above the insertion path, provided no compactor fires
(`NullCompactor`): exact no-op. -/
theorem insert_noop_null (pre : List (Fin 7)) :
    ∀ (n : Node V) (hex res : Nat) (v : V) (post : List (Fin 7)) (a : Nat) (w : V),
      post ≠ [] → nodeAt n pre = some (.leaf a w) →
      insert n hex res (pre ++ post) v nullCompactor = n := by
  induction pre with
  | nil =>
    intro n hex res v post a w hpost hleaf
    simp only [nodeAt_nil, Option.some_inj] at hleaf
    subst hleaf
    cases post with
    | nil => exact absurd rfl hpost
    | cons d rest => rfl
  | cons d pre' ih =>
    intro n hex res v post a w hpost hleaf
    match n with
    | .leaf c w' =>
      rw [nodeAt_cons] at hleaf
      simp [child] at hleaf
    | .parent c c0 c1 c2 c3 c4 c5 c6 =>
      rw [nodeAt_cons] at hleaf
      rcases hc : child (.parent c c0 c1 c2 c3 c4 c5 c6) d with _ | m
      · rw [hc] at hleaf
        simp at hleaf
      · rw [hc] at hleaf
        simp only at hleaf
        have hsel : childSel c0 c1 c2 c3 c4 c5 c6 d = some m := hc
        rw [List.cons_append, insert_cons_parent]
        simp only [hsel]
        rw [ih m hex (res + 1) v post a w hpost hleaf]
        rw [setChild_self hc, coalesce_null]

/-- Membership in the leaf paths of a parent node. -/
theorem mem_leafPaths_parent {c : Nat} {c0 c1 c2 c3 c4 c5 c6 : Option (Node V)}
    {p : List (Fin 7)} :
    p ∈ (Node.parent c c0 c1 c2 c3 c4 c5 c6).leafPaths ↔
    ∃ (d : Fin 7) (m : Node V) (p' : List (Fin 7)),
      childSel c0 c1 c2 c3 c4 c5 c6 d = some m ∧ p' ∈ m.leafPaths ∧
        p = d :: p' := by
  constructor
  · intro hp
    simp only [leafPaths, List.mem_append, List.mem_map] at hp
    rcases hp with ((((((⟨p', hp', rfl⟩ | ⟨p', hp', rfl⟩) | ⟨p', hp', rfl⟩) |
      ⟨p', hp', rfl⟩) | ⟨p', hp', rfl⟩) | ⟨p', hp', rfl⟩) | ⟨p', hp', rfl⟩)
    · rcases hck : c0 with _ | m
      · rw [hck] at hp'
        simp [leafPathsO] at hp'
      · rw [hck] at hp'
        exact ⟨0, m, p', rfl, by simpa [leafPathsO] using hp', rfl⟩
    · rcases hck : c1 with _ | m
      · rw [hck] at hp'
        simp [leafPathsO] at hp'
      · rw [hck] at hp'
        exact ⟨1, m, p', rfl, by simpa [leafPathsO] using hp', rfl⟩
    · rcases hck : c2 with _ | m
      · rw [hck] at hp'
        simp [leafPathsO] at hp'
      · rw [hck] at hp'
        exact ⟨2, m, p', rfl, by simpa [leafPathsO] using hp', rfl⟩
    · rcases hck : c3 with _ | m
      · rw [hck] at hp'
        simp [leafPathsO] at hp'
      · rw [hck] at hp'
        exact ⟨3, m, p', rfl, by simpa [leafPathsO] using hp', rfl⟩
    · rcases hck : c4 with _ | m
      · rw [hck] at hp'
        simp [leafPathsO] at hp'
      · rw [hck] at hp'
        exact ⟨4, m, p', rfl, by simpa [leafPathsO] using hp', rfl⟩
    · rcases hck : c5 with _ | m
      · rw [hck] at hp'
        simp [leafPathsO] at hp'
      · rw [hck] at hp'
        exact ⟨5, m, p', rfl, by simpa [leafPathsO] using hp', rfl⟩
    · rcases hck : c6 with _ | m
      · rw [hck] at hp'
        simp [leafPathsO] at hp'
      · rw [hck] at hp'
        exact ⟨6, m, p', rfl, by simpa [leafPathsO] using hp', rfl⟩
  · rintro ⟨d, m, p', hsel, hp', rfl⟩
    simp only [leafPaths, List.mem_append, List.mem_map]
    fin_cases d
    · replace hsel : c0 = some m := hsel
      subst hsel
      exact Or.inl (Or.inl (Or.inl (Or.inl (Or.inl (Or.inl ⟨p', by
        simpa [leafPathsO] using hp', rfl⟩)))))
    · replace hsel : c1 = some m := hsel
      subst hsel
      exact Or.inl (Or.inl (Or.inl (Or.inl (Or.inl (Or.inr ⟨p', by
        simpa [leafPathsO] using hp', rfl⟩)))))
    · replace hsel : c2 = some m := hsel
      subst hsel
      exact Or.inl (Or.inl (Or.inl (Or.inl (Or.inr ⟨p', by
        simpa [leafPathsO] using hp', rfl⟩))))
    · replace hsel : c3 = some m := hsel
      subst hsel
      exact Or.inl (Or.inl (Or.inl (Or.inr ⟨p', by
        simpa [leafPathsO] using hp', rfl⟩)))
    · replace hsel : c4 = some m := hsel
      subst hsel
      exact Or.inl (Or.inl (Or.inr ⟨p', by simpa [leafPathsO] using hp', rfl⟩))
    · replace hsel : c5 = some m := hsel
      subst hsel
      exact Or.inl (Or.inr ⟨p', by simpa [leafPathsO] using hp', rfl⟩)
    · replace hsel : c6 = some m := hsel
      subst hsel
      exact Or.inr ⟨p', by simpa [leafPathsO] using hp', rfl⟩

/-- Structurally, no leaf path is a proper prefix of another: two leaves
can never lie on the same root-to-leaf path. -/
theorem leafPaths_prefixFree (n : Node V) :
    ∀ p q, p ∈ n.leafPaths → q ∈ n.leafPaths → p <+: q → p = q := by
  match n with
  | .leaf c v =>
    intro p q hp hq _
    simp only [leafPaths, List.mem_singleton] at hp hq
    rw [hp, hq]
  | .parent c c0 c1 c2 c3 c4 c5 c6 =>
    intro p q hp hq hpre
    rw [mem_leafPaths_parent] at hp hq
    obtain ⟨dp, mp, p', hselp, hp', rfl⟩ := hp
    obtain ⟨dq, mq, q', hselq, hq', rfl⟩ := hq
    obtain ⟨rfl, hpre'⟩ := List.cons_prefix_cons.mp hpre
    rw [hselp] at hselq
    injection hselq with hmq
    subst hmq
    rw [leafPaths_prefixFree mp p' q' hp' hq' hpre']
termination_by n.size
decreasing_by exact size_childSel hselp


/-- Is this node a `Parent`? -/
def isParentB : Node V → Bool
  | .parent .. => true
  | .leaf _ _ => false

theorem isParentOpt_some (m : Node V) : isParentOpt (some m) = isParentB m := by
  cases m <;> rfl

theorem child_newNode (c : Nat) (d : Fin 7) :
    child (newNode (V := V) c) d = none := by
  fin_cases d <;> rfl

theorem child_setChild (c : Nat) (c0 c1 c2 c3 c4 c5 c6 : Option (Node V))
    (d d' : Fin 7) (x : Option (Node V)) :
    child (setChild (.parent c c0 c1 c2 c3 c4 c5 c6) d x) d' =
      if d = d' then x else childSel c0 c1 c2 c3 c4 c5 c6 d' := by
  fin_cases d <;> fin_cases d' <;> simp [setChild, child, childSel]

theorem setChild_setChild (n : Node V) (d : Fin 7) (x y : Option (Node V)) :
    setChild (setChild n d x) d y = setChild n d y := by
  cases n with
  | leaf c v => rfl
  | parent c c0 c1 c2 c3 c4 c5 c6 => fin_cases d <;> rfl

theorem isParentB_setChild (c : Nat) (c0 c1 c2 c3 c4 c5 c6 : Option (Node V))
    (d : Fin 7) (x : Option (Node V)) :
    isParentB (setChild (.parent c c0 c1 c2 c3 c4 c5 c6) d x) = true := by
  fin_cases d <;> rfl

theorem coalesce_skip {n : Node V} {d : Fin 7} {m : Node V}
    (hc : child n d = some m) (hm : isParentB m = true) (res : Nat)
    (C : Compactor V) : coalesce n res C = n := by
  cases n with
  | leaf c v => rfl
  | parent c c0 c1 c2 c3 c4 c5 c6 =>
    have hany : [c0, c1, c2, c3, c4, c5, c6].any isParentOpt = true := by
      rw [child_parent] at hc
      fin_cases d
      · replace hc : c0 = some m := hc
        simp [hc, isParentOpt_some, hm]
      · replace hc : c1 = some m := hc
        simp [hc, isParentOpt_some, hm]
      · replace hc : c2 = some m := hc
        simp [hc, isParentOpt_some, hm]
      · replace hc : c3 = some m := hc
        simp [hc, isParentOpt_some, hm]
      · replace hc : c4 = some m := hc
        simp [hc, isParentOpt_some, hm]
      · replace hc : c5 = some m := hc
        simp [hc, isParentOpt_some, hm]
      · replace hc : c6 = some m := hc
        simp [hc, isParentOpt_some, hm]
    simp [coalesce, hany]

theorem insert_cons_of_child_some {n : Node V} (hn : isParentB n = true)
    {d : Fin 7} {m : Node V} (hc : child n d = some m) (hex res : Nat)
    (rest : List (Fin 7)) (v : V) (C : Compactor V) :
    insert n hex res (d :: rest) v C =
      coalesce (setChild n d (some (insert m hex (res + 1) rest v C))) res C := by
  cases n with
  | leaf c w => simp [isParentB] at hn
  | parent c c0 c1 c2 c3 c4 c5 c6 =>
    rw [child_parent] at hc
    rw [insert_cons_parent]
    simp only [hc]

theorem insert_cons_of_child_none {n : Node V} (hn : isParentB n = true)
    {d : Fin 7} (hc : child n d = none) (hex res : Nat)
    (rest : List (Fin 7)) (v : V) (C : Compactor V) :
    insert n hex res (d :: rest) v C =
      coalesce (setChild n d
        (some (insert (newNode ((Cell.to_parent hex (res + 1)).getD hex))
          hex (res + 1) rest v C))) res C := by
  cases n with
  | leaf c w => simp [isParentB] at hn
  | parent c c0 c1 c2 c3 c4 c5 c6 =>
    rw [child_parent] at hc
    rw [insert_cons_parent]
    simp only [hc]

theorem getCell_cons_of_child_some {n : Node V} (hn : isParentB n = true)
    {d : Fin 7} {m : Node V} (hc : child n d = some m) (res cell : Nat)
    (rest : List (Fin 7)) :
    getCell n res cell (d :: rest) = getCell m (res + 1) cell rest := by
  cases n with
  | leaf c w => simp [isParentB] at hn
  | parent c c0 c1 c2 c3 c4 c5 c6 =>
    rw [child_parent] at hc
    rw [getCell_parent_cons]
    simp only [hc]

theorem len_parent (c : Nat) (c0 c1 c2 c3 c4 c5 c6 : Option (Node V)) :
    (Node.parent c c0 c1 c2 c3 c4 c5 c6).len =
      lenO c0 + lenO c1 + lenO c2 + lenO c3 + lenO c4 + lenO c5 + lenO c6 := by
  simp [len]

theorem nodeAt_newNode (P : Nat) (p : List (Fin 7)) (a : Nat) (w : V) :
    nodeAt (newNode P) p ≠ some (.leaf a w) := by
  cases p with
  | nil => simp [newNode]
  | cons d p' =>
    rw [nodeAt_cons]
    have : child (newNode (V := V) P) d = none := by
      fin_cases d <;> rfl
    simp [this]

theorem coalesce_cases (n : Node V) (res : Nat) (C : Compactor V) :
    coalesce n res C = n ∨ ∃ cc vv, coalesce n res C = .leaf cc vv := by
  cases n with
  | leaf c v => left; rfl
  | parent c c0 c1 c2 c3 c4 c5 c6 =>
    rcases coalesce_parent_cases c c0 c1 c2 c3 c4 c5 c6 res C with h | ⟨vv, _, h⟩
    · left; exact h
    · right; exact ⟨c, vv, h⟩

theorem exists_parent_setChild (c : Nat) (c0 c1 c2 c3 c4 c5 c6 : Option (Node V))
    (d : Fin 7) (x : Option (Node V)) :
    ∃ e0 e1 e2 e3 e4 e5 e6,
      setChild (.parent c c0 c1 c2 c3 c4 c5 c6) d x = .parent c e0 e1 e2 e3 e4 e5 e6 ∧
      childSel e0 e1 e2 e3 e4 e5 e6 d = x := by
  fin_cases d
  · exact ⟨x, c1, c2, c3, c4, c5, c6, rfl, rfl⟩
  · exact ⟨c0, x, c2, c3, c4, c5, c6, rfl, rfl⟩
  · exact ⟨c0, c1, x, c3, c4, c5, c6, rfl, rfl⟩
  · exact ⟨c0, c1, c2, x, c4, c5, c6, rfl, rfl⟩
  · exact ⟨c0, c1, c2, c3, x, c5, c6, rfl, rfl⟩
  · exact ⟨c0, c1, c2, c3, c4, x, c6, rfl, rfl⟩
  · exact ⟨c0, c1, c2, c3, c4, c5, x, rfl, rfl⟩

/-- The single-child chain of fresh parents built along a digit path by
the first insert below an empty slot: at depth `j` a parent carrying
`to_parent x0 j` whose only child (at the next path digit) continues the
chain down to `inner`. -/
def chainTo (x0 : Nat) : Nat → List (Fin 7) → Node V → Node V
  | _, [], inner => inner
  | j, e :: rest, inner =>
    setChild (newNode ((Cell.to_parent x0 j).getD x0)) e
      (some (chainTo x0 (j + 1) rest inner))

theorem isParentB_chainTo (x0 : Nat) (j : Nat) (e : Fin 7) (rest : List (Fin 7))
    (inner : Node V) : isParentB (chainTo x0 j (e :: rest) inner) = true := by
  rw [chainTo]
  exact isParentB_setChild _ _ _ _ _ _ _ _ _ _

theorem child_chainTo (x0 : Nat) (j : Nat) (e : Fin 7) (rest : List (Fin 7))
    (inner : Node V) :
    child (chainTo x0 j (e :: rest) inner) e =
      some (chainTo x0 (j + 1) rest inner) := by
  rw [chainTo, newNode, child_setChild, if_pos rfl]

/-- Under the Eq compactor, a parent holding a single non-parent child
and nothing else never coalesces. -/
theorem coalesce_eq_single [DecidableEq V] (cj : Nat) (e : Fin 7) (lf : Node V)
    (hlf : isParentB lf = false) (res : Nat) :
    coalesce (setChild (newNode cj) e (some lf)) res eqCompactor =
      setChild (newNode cj) e (some lf) := by
  cases lf with
  | parent => simp [isParentB] at hlf
  | leaf a w =>
    fin_cases e <;>
      simp [setChild, newNode, coalesce, isParentOpt, eqCompactor, value]

/-- Inserting through an existing chain only touches the node below it
(Eq compactor). -/
theorem insert_chainTo [DecidableEq V] (x0 : Nat) (ds : List (Fin 7)) :
    ∀ (j : Nat) (M : Node V) (hex : Nat) (v : V) (d : Fin 7),
      isParentB M = true →
      insert (chainTo x0 j ds M) hex j (ds ++ [d]) v eqCompactor =
        chainTo x0 j ds (insert M hex (j + ds.length) [d] v eqCompactor) := by
  induction ds with
  | nil =>
    intro j M hex v d _
    rw [chainTo, chainTo]
    simp
  | cons e rest ih =>
    intro j M hex v d hM
    rw [List.cons_append,
      insert_cons_of_child_some (isParentB_chainTo x0 j e rest M)
        (child_chainTo x0 j e rest M) hex j (rest ++ [d]) v eqCompactor,
      ih (j + 1) M hex v d hM]
    rw [chainTo, setChild_setChild]
    have hlen : j + 1 + rest.length = j + (e :: rest).length := by
      simp [List.length_cons]
      omega
    rw [hlen]
    set M' := insert M hex (j + (e :: rest).length) [d] v eqCompactor with hM'
    cases rest with
    | nil =>
      rcases hshape : isParentB M' with _ | _
      · -- the updated node is a leaf: the chain above it holds a single
        -- non-parent child, so the Eq compactor declines
        rw [chainTo]
        exact coalesce_eq_single _ e M' hshape j
      · exact coalesce_skip (child_chainTo x0 j e [] M')
          (by rw [chainTo]; exact hshape) j eqCompactor
    | cons e' rest' =>
      exact coalesce_skip (child_chainTo x0 j e (e' :: rest') M')
        (isParentB_chainTo x0 (j + 1) e' rest' M') j eqCompactor

/-- The first insert below an empty slot builds the chain of fresh
parents and a single leaf at path end (Eq compactor). -/
theorem insert_fresh_chain [DecidableEq V] (x0 : Nat) (v : V) (ds : List (Fin 7)) :
    ∀ (j : Nat) (d : Fin 7),
      insert (newNode ((Cell.to_parent x0 j).getD x0)) x0 j (ds ++ [d]) v
          eqCompactor =
        chainTo x0 j ds
          (setChild (newNode ((Cell.to_parent x0 (j + ds.length)).getD x0)) d
            (some (.leaf x0 v))) := by
  induction ds with
  | nil =>
    intro j d
    rw [List.nil_append, chainTo,
      insert_cons_of_child_none (by rfl) (child_newNode _ d) x0 j [] v
        eqCompactor,
      insert_nil]
    simp only [List.length_nil, Nat.add_zero]
    exact coalesce_eq_single _ d (.leaf x0 v) rfl j
  | cons e rest ih =>
    intro j d
    rw [List.cons_append,
      insert_cons_of_child_none (by rfl) (child_newNode _ e) x0 j
        (rest ++ [d]) v eqCompactor,
      ih (j + 1) d]
    have hlen : j + 1 + rest.length = j + (e :: rest).length := by
      simp [List.length_cons]
      omega
    rw [hlen, ← chainTo]
    cases rest with
    | nil =>
      refine coalesce_skip (child_chainTo x0 j e [] _) ?_ j eqCompactor
      rw [chainTo, newNode]
      exact isParentB_setChild _ _ _ _ _ _ _ _ _ _
    | cons e' rest' =>
      exact coalesce_skip (child_chainTo x0 j e (e' :: rest') _)
        (isParentB_chainTo x0 (j + 1) e' rest' _) j eqCompactor

theorem getCell_chainTo (x0 : Nat) (ds : List (Fin 7)) :
    ∀ (j : Nat) (M : Node V) (cell : Nat) (tail : List (Fin 7)),
      getCell (chainTo x0 j ds M) j cell (ds ++ tail) =
        getCell M (j + ds.length) cell tail := by
  induction ds with
  | nil =>
    intro j M cell tail
    rw [chainTo]
    simp
  | cons e rest ih =>
    intro j M cell tail
    rw [List.cons_append,
      getCell_cons_of_child_some (isParentB_chainTo x0 j e rest M)
        (child_chainTo x0 j e rest M) j cell (rest ++ tail),
      ih (j + 1) M cell tail]
    congr 1
    simp [List.length_cons]
    omega

theorem len_setChild_newNode (c : Nat) (e : Fin 7) (X : Node V) :
    (setChild (newNode c) e (some X)).len = X.len := by
  fin_cases e <;> simp [setChild, newNode, len, lenO]

theorem len_chainTo (x0 : Nat) (ds : List (Fin 7)) :
    ∀ (j : Nat) (M : Node V), (chainTo x0 j ds M).len = M.len := by
  induction ds with
  | nil => intro j M; rw [chainTo]
  | cons e rest ih =>
    intro j M
    rw [chainTo, len_setChild_newNode, ih]

/-- The node at the parent position `P` after the first `k + 1` of its
children (digits `0..k`, cells `x 0 .. x k`) have been inserted with the
common value `v`. -/
def pStage (x : Fin 7 → Nat) (v : V) (pc : Nat) : Nat → Node V
  | 0 => .parent pc (some (.leaf (x 0) v)) none none none none none none
  | 1 => .parent pc (some (.leaf (x 0) v)) (some (.leaf (x 1) v)) none none none
      none none
  | 2 => .parent pc (some (.leaf (x 0) v)) (some (.leaf (x 1) v))
      (some (.leaf (x 2) v)) none none none none
  | 3 => .parent pc (some (.leaf (x 0) v)) (some (.leaf (x 1) v))
      (some (.leaf (x 2) v)) (some (.leaf (x 3) v)) none none none
  | 4 => .parent pc (some (.leaf (x 0) v)) (some (.leaf (x 1) v))
      (some (.leaf (x 2) v)) (some (.leaf (x 3) v)) (some (.leaf (x 4) v)) none
      none
  | _ => .parent pc (some (.leaf (x 0) v)) (some (.leaf (x 1) v))
      (some (.leaf (x 2) v)) (some (.leaf (x 3) v)) (some (.leaf (x 4) v))
      (some (.leaf (x 5) v)) none

theorem insert_pStage1 [DecidableEq V] (x : Fin 7 → Nat) (v : V) (pc r : Nat) :
    insert (pStage x v pc 0) (x 1) r [1] v eqCompactor = pStage x v pc 1 := by
  have hp : isParentB (pStage x v pc 0) = true := rfl
  have hc : child (pStage x v pc 0) 1 = none := rfl
  rw [insert_cons_of_child_none hp hc (x 1) r [] v eqCompactor, insert_nil]
  have h1 : setChild (pStage x v pc 0) 1 (some (.leaf (x 1) v)) =
      pStage x v pc 1 := rfl
  rw [h1]
  simp [pStage, coalesce, isParentOpt, eqCompactor, value]

theorem insert_pStage2 [DecidableEq V] (x : Fin 7 → Nat) (v : V) (pc r : Nat) :
    insert (pStage x v pc 1) (x 2) r [2] v eqCompactor = pStage x v pc 2 := by
  have hp : isParentB (pStage x v pc 1) = true := rfl
  have hc : child (pStage x v pc 1) 2 = none := rfl
  rw [insert_cons_of_child_none hp hc (x 2) r [] v eqCompactor, insert_nil]
  have h1 : setChild (pStage x v pc 1) 2 (some (.leaf (x 2) v)) =
      pStage x v pc 2 := rfl
  rw [h1]
  simp [pStage, coalesce, isParentOpt, eqCompactor, value]

theorem insert_pStage3 [DecidableEq V] (x : Fin 7 → Nat) (v : V) (pc r : Nat) :
    insert (pStage x v pc 2) (x 3) r [3] v eqCompactor = pStage x v pc 3 := by
  have hp : isParentB (pStage x v pc 2) = true := rfl
  have hc : child (pStage x v pc 2) 3 = none := rfl
  rw [insert_cons_of_child_none hp hc (x 3) r [] v eqCompactor, insert_nil]
  have h1 : setChild (pStage x v pc 2) 3 (some (.leaf (x 3) v)) =
      pStage x v pc 3 := rfl
  rw [h1]
  simp [pStage, coalesce, isParentOpt, eqCompactor, value]

theorem insert_pStage4 [DecidableEq V] (x : Fin 7 → Nat) (v : V) (pc r : Nat) :
    insert (pStage x v pc 3) (x 4) r [4] v eqCompactor = pStage x v pc 4 := by
  have hp : isParentB (pStage x v pc 3) = true := rfl
  have hc : child (pStage x v pc 3) 4 = none := rfl
  rw [insert_cons_of_child_none hp hc (x 4) r [] v eqCompactor, insert_nil]
  have h1 : setChild (pStage x v pc 3) 4 (some (.leaf (x 4) v)) =
      pStage x v pc 4 := rfl
  rw [h1]
  simp [pStage, coalesce, isParentOpt, eqCompactor, value]

theorem insert_pStage5 [DecidableEq V] (x : Fin 7 → Nat) (v : V) (pc r : Nat) :
    insert (pStage x v pc 4) (x 5) r [5] v eqCompactor = pStage x v pc 5 := by
  have hp : isParentB (pStage x v pc 4) = true := rfl
  have hc : child (pStage x v pc 4) 5 = none := rfl
  rw [insert_cons_of_child_none hp hc (x 5) r [] v eqCompactor, insert_nil]
  have h1 : setChild (pStage x v pc 4) 5 (some (.leaf (x 5) v)) =
      pStage x v pc 5 := rfl
  rw [h1]
  simp [pStage, coalesce, isParentOpt, eqCompactor, value]

/-- The seventh child completes the parent: the Eq compactor coalesces
the seven equal leaves into a single leaf at `P`. -/
theorem insert_pStage6 [DecidableEq V] (x : Fin 7 → Nat) (v : V) (pc r : Nat) :
    insert (pStage x v pc 5) (x 6) r [6] v eqCompactor = .leaf pc v := by
  have hp : isParentB (pStage x v pc 5) = true := rfl
  have hc : child (pStage x v pc 5) 6 = none := rfl
  rw [insert_cons_of_child_none hp hc (x 6) r [] v eqCompactor, insert_nil]
  have h1 : setChild (pStage x v pc 5) 6 (some (.leaf (x 6) v)) =
      .parent pc (some (.leaf (x 0) v)) (some (.leaf (x 1) v))
        (some (.leaf (x 2) v)) (some (.leaf (x 3) v)) (some (.leaf (x 4) v))
        (some (.leaf (x 5) v)) (some (.leaf (x 6) v)) := rfl
  rw [h1]
  simp [coalesce, isParentOpt, eqCompactor, value]

/-- After `insert`, a lookup of the inserted cell finds a leaf at some
depth `k` of the digit path and reports the cell `to_parent(res + k)`;
the leaf is the fresh one (`k` at path end, value `v`), a pre-existing
leaf strictly above (with its old value), or a leaf built by compaction
at a position that was not a leaf before. -/
theorem insert_then_get (ds : List (Fin 7)) :
    ∀ (n : Node V) (hex res : Nat) (v : V) (C : Compactor V),
      ∃ (k : Nat) (v' : V),
        k ≤ ds.length ∧
        getCell (insert n hex res ds v C) res hex ds =
          some ((Cell.to_parent hex (res + k)).getD hex, v') ∧
        ((k = ds.length ∧ v' = v) ∨
         (k < ds.length ∧ ∃ a, nodeAt n (ds.take k) = some (.leaf a v')) ∨
         (k < ds.length ∧ ∀ a w, nodeAt n (ds.take k) ≠ some (.leaf a w))) := by
  induction ds with
  | nil =>
    intro n hex res v C
    refine ⟨0, v, Nat.le_refl _, ?_, Or.inl ⟨rfl, rfl⟩⟩
    rw [insert_nil, getCell_leaf, Nat.add_zero]
  | cons d rest ih =>
    intro n hex res v C
    match n with
    | .leaf c w =>
      refine ⟨0, w, Nat.zero_le _, ?_, Or.inr (Or.inl ⟨Nat.succ_pos _, c, rfl⟩)⟩
      rw [insert_cons_leaf, getCell_leaf, Nat.add_zero]
    | .parent c c0 c1 c2 c3 c4 c5 c6 =>
      rw [insert_cons_parent]
      rcases hsel : childSel c0 c1 c2 c3 c4 c5 c6 d with _ | m
      all_goals simp only [hsel]
      · -- absent child: insert into a fresh node
        obtain ⟨e0, e1, e2, e3, e4, e5, e6, hset, hchild⟩ :=
          exists_parent_setChild c c0 c1 c2 c3 c4 c5 c6 d
            (some (insert (newNode ((Cell.to_parent hex (res + 1)).getD hex))
              hex (res + 1) rest v C))
        rw [hset]
        rcases coalesce_parent_cases c e0 e1 e2 e3 e4 e5 e6 res C
          with hA | ⟨vv, _, hB⟩
        · rw [hA, getCell_parent_cons]
          simp only [hchild]
          obtain ⟨k', v', hk', heq, hcase⟩ :=
            ih (newNode ((Cell.to_parent hex (res + 1)).getD hex)) hex (res + 1) v C
          refine ⟨k' + 1, v', by simpa using Nat.succ_le_succ hk', ?_, ?_⟩
          · rw [show res + 1 + k' = res + (k' + 1) from by omega] at heq
            exact heq
          · rcases hcase with ⟨hkl, hv⟩ | ⟨_, a, hleafat⟩ | ⟨hkl, _⟩
            · exact Or.inl ⟨by simp [hkl], hv⟩
            · exact absurd hleafat (nodeAt_newNode _ _ _ _)
            · refine Or.inr (Or.inr ⟨by simpa using Nat.succ_lt_succ hkl, ?_⟩)
              intro a w
              rw [List.take_succ_cons, nodeAt_cons, child_parent, hsel]
              simp
        · rw [hB, getCell_leaf]
          refine ⟨0, vv, Nat.zero_le _, by rw [Nat.add_zero],
            Or.inr (Or.inr ⟨Nat.succ_pos _, ?_⟩)⟩
          intro a w
          simp
      · -- existing child: recursive insert
        obtain ⟨e0, e1, e2, e3, e4, e5, e6, hset, hchild⟩ :=
          exists_parent_setChild c c0 c1 c2 c3 c4 c5 c6 d
            (some (insert m hex (res + 1) rest v C))
        rw [hset]
        rcases coalesce_parent_cases c e0 e1 e2 e3 e4 e5 e6 res C
          with hA | ⟨vv, _, hB⟩
        · rw [hA, getCell_parent_cons]
          simp only [hchild]
          obtain ⟨k', v', hk', heq, hcase⟩ := ih m hex (res + 1) v C
          refine ⟨k' + 1, v', by simpa using Nat.succ_le_succ hk', ?_, ?_⟩
          · rw [show res + 1 + k' = res + (k' + 1) from by omega] at heq
            exact heq
          · rcases hcase with ⟨hkl, hv⟩ | ⟨hkl, a, hleafat⟩ | ⟨hkl, hnol⟩
            · exact Or.inl ⟨by simp [hkl], hv⟩
            · refine Or.inr (Or.inl ⟨by simpa using Nat.succ_lt_succ hkl, a, ?_⟩)
              rw [List.take_succ_cons, nodeAt_cons, child_parent, hsel]
              exact hleafat
            · refine Or.inr (Or.inr ⟨by simpa using Nat.succ_lt_succ hkl, ?_⟩)
              intro a w
              rw [List.take_succ_cons, nodeAt_cons, child_parent, hsel]
              exact hnol a w
        · rw [hB, getCell_leaf]
          refine ⟨0, vv, Nat.zero_le _, by rw [Nat.add_zero],
            Or.inr (Or.inr ⟨Nat.succ_pos _, ?_⟩)⟩
          intro a w
          simp

end Node

theorem list_set_self {A : Type} (l : List A) :
    ∀ (i : Nat) (a : A), l.get? i = some a → l.set i a = l := by
  induction l with
  | nil => intro i a h; simp at h
  | cons x xs ih =>
    intro i a h
    cases i with
    | zero =>
      simp only [List.get?_cons_zero, Option.some_inj] at h
      simp [h]
    | succ i =>
      simp only [List.get?_cons_succ] at h
      simp [ih i _ h]

/-- The node found by descending from a root slot along a digit path. -/
def HexTreeMap.nodeAtPath (t : HexTreeMap V) (b : Nat) (p : List (Fin 7)) :
    Option (Node V) :=
  match t.nodes.get? b with
  | some (some n) => Node.nodeAt n p
  | _ => none

set_option maxRecDepth 8000 in
/-- C2 (amended): (1) when a strict ancestor of the inserted cell is
already stored as a leaf, the insert is dropped; under the Null
compactor the map is exactly unchanged (with a compacting compactor the
ancestors of the existing leaf may still coalesce — see the
counterexample). (2) After a successful insert, `get` of the inserted
cell finds a leaf at some depth `k` of its digit path, reported as
`to_parent(k)`; that leaf is the inserted one (`k` maximal, value `v`),
a pre-existing strict-ancestor leaf with its old value, or a
compaction-created leaf at a position that was not a leaf before.
(3) No two leaves ever lie on the same root-to-leaf path. -/
theorem claim2_insert_semantics (V : Type) :
    (∀ (t : HexTreeMap V) (cell : Nat) (v : V) (pre post : List (Fin 7))
        (a : Nat) (w : V),
      digitsFin cell = some (pre ++ post) → post ≠ [] →
      t.nodeAtPath (Cell.base cell) pre = some (.leaf a w) →
      t.insert cell v nullCompactor = some t) ∧
    (∀ (t : HexTreeMap V) (cell : Nat) (v : V) (C : Compactor V)
        (ds : List (Fin 7)),
      digitsFin cell = some ds → Cell.base cell < t.nodes.length →
      ∃ t' k v', t.insert cell v C = some t' ∧ k ≤ ds.length ∧
        t'.get cell = some (some ((Cell.to_parent cell k).getD cell, v')) ∧
        ((k = ds.length ∧ v' = v) ∨
         (k < ds.length ∧
           ∃ a, t.nodeAtPath (Cell.base cell) (ds.take k) = some (.leaf a v')) ∨
         (k < ds.length ∧
           ∀ a w, t.nodeAtPath (Cell.base cell) (ds.take k) ≠ some (.leaf a w)))) ∧
    (∀ (n : Node V) (p q : List (Fin 7)),
      p ∈ n.leafPaths → q ∈ n.leafPaths → p <+: q → p = q) := by
  refine ⟨?_, ?_, fun n => Node.leafPaths_prefixFree n⟩
  · intro t cell v pre post a w hds hpost hleaf
    rw [HexTreeMap.nodeAtPath] at hleaf
    rcases hslot : t.nodes.get? (Cell.base cell) with _ | slot
    · rw [hslot] at hleaf
      simp at hleaf
    · rcases slot with _ | n
      · rw [hslot] at hleaf
        simp at hleaf
      · rw [hslot] at hleaf
        simp only at hleaf
        simp only [HexTreeMap.insert, hds, hslot]
        rw [Node.insert_noop_null pre n cell 0 v post a w hpost hleaf]
        rw [list_set_self _ _ _ hslot]
  · intro t cell v C ds hds hb
    rcases hslot : t.nodes.get? (Cell.base cell) with _ | slot
    · rw [List.get?_eq_getElem?, List.getElem?_eq_none_iff] at hslot
      omega
    · have hset : ∀ x, (t.nodes.set (Cell.base cell) x).get? (Cell.base cell) = some x := by
        intro x
        rw [List.get?_eq_getElem?]
        exact List.getElem?_set_self (by simpa using hb)
      rcases slot with _ | n
      · -- empty base slot: fresh node
        obtain ⟨k, v', hk, heq, hcase⟩ :=
          Node.insert_then_get ds
            (Node.newNode ((Cell.to_parent cell 0).getD cell)) cell 0 v C
        refine ⟨⟨t.nodes.set (Cell.base cell)
          (some (Node.insert (Node.newNode ((Cell.to_parent cell 0).getD cell))
            cell 0 ds v C))⟩, k, v', ?_, hk, ?_, ?_⟩
        · simp only [HexTreeMap.insert, hds, hslot]
        · simp only [HexTreeMap.get, hds, hset]
          rw [heq, Nat.zero_add]
        · rcases hcase with h1 | ⟨_, a, habs⟩ | ⟨hkl, _⟩
          · exact Or.inl h1
          · exact absurd habs (Node.nodeAt_newNode _ _ _ _)
          · refine Or.inr (Or.inr ⟨hkl, ?_⟩)
            intro a w
            rw [HexTreeMap.nodeAtPath, hslot]
            simp
      · -- occupied base slot
        obtain ⟨k, v', hk, heq, hcase⟩ := Node.insert_then_get ds n cell 0 v C
        refine ⟨⟨t.nodes.set (Cell.base cell)
          (some (Node.insert n cell 0 ds v C))⟩, k, v', ?_, hk, ?_, ?_⟩
        · simp only [HexTreeMap.insert, hds, hslot]
        · simp only [HexTreeMap.get, hds, hset]
          rw [heq, Nat.zero_add]
        · rcases hcase with h1 | ⟨hkl, a, hla⟩ | ⟨hkl, hno⟩
          · exact Or.inl h1
          · refine Or.inr (Or.inl ⟨hkl, a, ?_⟩)
            rw [HexTreeMap.nodeAtPath, hslot]
            exact hla
          · refine Or.inr (Or.inr ⟨hkl, ?_⟩)
            intro a w
            rw [HexTreeMap.nodeAtPath, hslot]
            exact hno a w

set_option maxRecDepth 100000 in
/-- C2 counterexample. Build (with the Null compactor) a map holding the
seven equal-valued res-1 children of base cell 0; the res-1 leaf `a
= 0x081003ffffffffff` is a strict ancestor of the res-2 cell `c
= 0x0820007fffffffff`. Inserting `c` under the Eq compactor is dropped
(no value 99 appears) but is *not* a no-op: the whole base subtree
coalesces into one res-0 leaf, so `len` falls from 7 to 1, and `get(c)`
afterwards returns the res-0 cell with value 42 — an ancestor that was
not stored as a leaf before the insert. -/
theorem claim2_counterexample :
    Cell.res 0x081003FFFFFFFFFF < Cell.res 0x0820007FFFFFFFFF ∧
    Cell.to_parent 0x0820007FFFFFFFFF (Cell.res 0x081003FFFFFFFFFF) =
      some 0x081003FFFFFFFFFF ∧
    (let T := (List.range 7).foldl
      (fun acc d => acc.bind (fun m =>
        m.insert (0x0810000000000000 + d * 2 ^ 42 + (2 ^ 42 - 1)) 42
          nullCompactor))
      (some (HexTreeMap.empty (V := Nat)));
    T.bind (fun t => t.get 0x081003FFFFFFFFFF) =
        some (some (0x081003FFFFFFFFFF, 42)) ∧
      T.map HexTreeMap.len = some 7 ∧
      T.bind (fun t => t.get 0x08001FFFFFFFFFFF) = some none ∧
      (T.bind (fun t => t.insert 0x0820007FFFFFFFFF 99 eqCompactor)).map
        HexTreeMap.len = some 1 ∧
      (T.bind (fun t => t.insert 0x0820007FFFFFFFFF 99 eqCompactor)).bind
        (fun t => t.get 0x0820007FFFFFFFFF) =
        some (some (0x08001FFFFFFFFFFF, 42))) := by
  refine ⟨by decide, by decide, by decide, by decide, by decide, ?_, ?_⟩
  · decide
  · decide

set_option maxRecDepth 100000 in
/-- Witness for C2 part (1) on a one-leaf map. -/
theorem claim2_witness :
    HexTreeMap.insert
      ⟨(List.replicate 122 (none : Option (Node Nat))).set 0
        (some (.parent 0x08001FFFFFFFFFFF
          (some (.leaf 0x081003FFFFFFFFFF 42)) none none none none none none))⟩
      0x0820007FFFFFFFFF 99 nullCompactor =
    some ⟨(List.replicate 122 (none : Option (Node Nat))).set 0
      (some (.parent 0x08001FFFFFFFFFFF
        (some (.leaf 0x081003FFFFFFFFFF 42)) none none none none none none))⟩ :=
  (claim2_insert_semantics Nat).1 _ 0x0820007FFFFFFFFF 99 [0] [0]
    0x081003FFFFFFFFFF 42 (by rfl) (by simp) (by rfl)

theorem sum_len_replicate {V : Type} (n : Nat) :
    ((List.replicate n (none : Option (Node V))).map
      (fun o => match o with | some m => m.len | none => 0)).sum = 0 := by
  induction n with
  | zero => rfl
  | succ k ih => simp [List.replicate_succ, ih]

theorem sum_len_set {V : Type} (N : Node V) :
    ∀ (n b : Nat), b < n →
      (((List.replicate n (none : Option (Node V))).set b (some N)).map
        (fun o => match o with | some m => m.len | none => 0)).sum = N.len := by
  intro n
  induction n with
  | zero => intro b hb; omega
  | succ k ih =>
    intro b hb
    rw [List.replicate_succ]
    cases b with
    | zero =>
      simp only [List.set_cons_zero, List.map_cons, List.sum_cons]
      rw [sum_len_replicate]
      omega
    | succ b' =>
      simp only [List.set_cons_succ, List.map_cons, List.sum_cons]
      rw [ih b' (by omega)]
      omega

/-- A map whose root array holds a single occupied slot has the length of
that slot's subtree. -/
theorem len_single_slot {V : Type} (b : Nat) (N : Node V) (hb : b < 122) :
    HexTreeMap.len ⟨(List.replicate 122 (none : Option (Node V))).set b
      (some N)⟩ = N.len := by
  simp only [HexTreeMap.len]
  exact sum_len_set N 122 b hb

set_option maxRecDepth 2000 in
/-- C4 (amended: starting from the empty map). Under the Eq compactor,
inserting the seven resolution-(r+1) children `x 0 .. x 6` of a parent
cell `P` (children characterised by their digit paths `ds ++ [d]`, their
base cell, and `to_parent r = P`) into the empty map with one common
value `v` succeeds, leaves the map with `len` exactly 1 (one more than
the empty map: the seven leaves coalesced into one), and afterwards
`get` of any of the seven children returns `(P, v)`. -/
theorem claim4_eq_compaction (V : Type) [DecidableEq V] (P r : Nat) (v : V)
    (ds : List (Fin 7)) (x : Fin 7 → Nat)
    (hres : ds.length = r)
    (hb : Cell.base P < 122)
    (hbase : ∀ d : Fin 7, Cell.base (x d) = Cell.base P)
    (hdigits : ∀ d : Fin 7, digitsFin (x d) = some (ds ++ [d]))
    (hparent : ∀ d : Fin 7, Cell.to_parent (x d) r = some P) :
    ∃ t' : HexTreeMap V,
      (List.finRange 7).foldl
        (fun t d => t.bind (fun t => t.insert (x d) v eqCompactor))
        (some HexTreeMap.empty) = some t' ∧
      HexTreeMap.len (HexTreeMap.empty (V := V)) = 0 ∧
      t'.len = 1 ∧
      ∀ d : Fin 7, t'.get (x d) = some (some (P, v)) := by
  have hrep : ∀ i : Nat, i < 122 →
      (List.replicate 122 (none : Option (Node V))).get? i = some none := by
    intro i hi
    rw [List.get?_eq_getElem?,
      List.getElem?_eq_getElem (by simpa using hi), List.getElem_replicate]
  have hset : ∀ s : Option (Node V),
      ((List.replicate 122 (none : Option (Node V))).set (Cell.base P)
        s).get? (Cell.base P) = some s := by
    intro s
    rw [List.get?_eq_getElem?]
    exact List.getElem?_set_self (by simpa using hb)
  have hpc0 : (Cell.to_parent (x 0) (0 + ds.length)).getD (x 0) = P := by
    rw [Nat.zero_add, hres, hparent 0]
    rfl
  have h0 : HexTreeMap.insert (HexTreeMap.empty (V := V)) (x 0) v eqCompactor =
      some ⟨(List.replicate 122 (none : Option (Node V))).set (Cell.base P)
        (some (Node.chainTo (x 0) 0 ds (Node.pStage x v P 0)))⟩ := by
    simp only [HexTreeMap.insert, HexTreeMap.empty, hdigits 0, hbase 0,
      hrep (Cell.base P) hb]
    rw [Node.insert_fresh_chain (x 0) v ds 0 0, hpc0]
    rfl
  have h1 : HexTreeMap.insert
      (⟨(List.replicate 122 (none : Option (Node V))).set (Cell.base P)
        (some (Node.chainTo (x 0) 0 ds (Node.pStage x v P 0)))⟩ :
        HexTreeMap V) (x 1) v eqCompactor =
      some ⟨(List.replicate 122 (none : Option (Node V))).set (Cell.base P)
        (some (Node.chainTo (x 0) 0 ds (Node.pStage x v P 1)))⟩ := by
    simp only [HexTreeMap.insert, hdigits 1, hbase 1, hset]
    rw [Node.insert_chainTo (x 0) ds 0 (Node.pStage x v P 0) (x 1) v 1 rfl,
      Node.insert_pStage1 x v P (0 + ds.length), List.set_set]
  have h2 : HexTreeMap.insert
      (⟨(List.replicate 122 (none : Option (Node V))).set (Cell.base P)
        (some (Node.chainTo (x 0) 0 ds (Node.pStage x v P 1)))⟩ :
        HexTreeMap V) (x 2) v eqCompactor =
      some ⟨(List.replicate 122 (none : Option (Node V))).set (Cell.base P)
        (some (Node.chainTo (x 0) 0 ds (Node.pStage x v P 2)))⟩ := by
    simp only [HexTreeMap.insert, hdigits 2, hbase 2, hset]
    rw [Node.insert_chainTo (x 0) ds 0 (Node.pStage x v P 1) (x 2) v 2 rfl,
      Node.insert_pStage2 x v P (0 + ds.length), List.set_set]
  have h3 : HexTreeMap.insert
      (⟨(List.replicate 122 (none : Option (Node V))).set (Cell.base P)
        (some (Node.chainTo (x 0) 0 ds (Node.pStage x v P 2)))⟩ :
        HexTreeMap V) (x 3) v eqCompactor =
      some ⟨(List.replicate 122 (none : Option (Node V))).set (Cell.base P)
        (some (Node.chainTo (x 0) 0 ds (Node.pStage x v P 3)))⟩ := by
    simp only [HexTreeMap.insert, hdigits 3, hbase 3, hset]
    rw [Node.insert_chainTo (x 0) ds 0 (Node.pStage x v P 2) (x 3) v 3 rfl,
      Node.insert_pStage3 x v P (0 + ds.length), List.set_set]
  have h4 : HexTreeMap.insert
      (⟨(List.replicate 122 (none : Option (Node V))).set (Cell.base P)
        (some (Node.chainTo (x 0) 0 ds (Node.pStage x v P 3)))⟩ :
        HexTreeMap V) (x 4) v eqCompactor =
      some ⟨(List.replicate 122 (none : Option (Node V))).set (Cell.base P)
        (some (Node.chainTo (x 0) 0 ds (Node.pStage x v P 4)))⟩ := by
    simp only [HexTreeMap.insert, hdigits 4, hbase 4, hset]
    rw [Node.insert_chainTo (x 0) ds 0 (Node.pStage x v P 3) (x 4) v 4 rfl,
      Node.insert_pStage4 x v P (0 + ds.length), List.set_set]
  have h5 : HexTreeMap.insert
      (⟨(List.replicate 122 (none : Option (Node V))).set (Cell.base P)
        (some (Node.chainTo (x 0) 0 ds (Node.pStage x v P 4)))⟩ :
        HexTreeMap V) (x 5) v eqCompactor =
      some ⟨(List.replicate 122 (none : Option (Node V))).set (Cell.base P)
        (some (Node.chainTo (x 0) 0 ds (Node.pStage x v P 5)))⟩ := by
    simp only [HexTreeMap.insert, hdigits 5, hbase 5, hset]
    rw [Node.insert_chainTo (x 0) ds 0 (Node.pStage x v P 4) (x 5) v 5 rfl,
      Node.insert_pStage5 x v P (0 + ds.length), List.set_set]
  have h6 : HexTreeMap.insert
      (⟨(List.replicate 122 (none : Option (Node V))).set (Cell.base P)
        (some (Node.chainTo (x 0) 0 ds (Node.pStage x v P 5)))⟩ :
        HexTreeMap V) (x 6) v eqCompactor =
      some ⟨(List.replicate 122 (none : Option (Node V))).set (Cell.base P)
        (some (Node.chainTo (x 0) 0 ds (.leaf P v)))⟩ := by
    simp only [HexTreeMap.insert, hdigits 6, hbase 6, hset]
    rw [Node.insert_chainTo (x 0) ds 0 (Node.pStage x v P 5) (x 6) v 6 rfl,
      Node.insert_pStage6 x v P (0 + ds.length), List.set_set]
  refine ⟨⟨(List.replicate 122 (none : Option (Node V))).set (Cell.base P)
    (some (Node.chainTo (x 0) 0 ds (.leaf P v)))⟩, ?_, ?_, ?_, ?_⟩
  · rw [show List.finRange 7 = [0, 1, 2, 3, 4, 5, 6] from by decide]
    simp only [List.foldl, Option.some_bind, h0, h1, h2, h3, h4, h5, h6]
  · simp only [HexTreeMap.len, HexTreeMap.empty]
    exact sum_len_replicate 122
  · rw [len_single_slot _ _ hb, Node.len_chainTo]
    rfl
  · intro d
    simp only [HexTreeMap.get, hdigits d, hbase d, hset]
    rw [Node.getCell_chainTo (x 0) ds 0 (.leaf P v) (x d) [d],
      Node.getCell_leaf, Nat.zero_add, hres, hparent d]
    rfl

set_option maxRecDepth 100000 in
/-- C4 counterexample to the claim as stated ("a map that contains no
cell related to P"). Pre-populate the map with the six res-1 sibling
cells of `P = 0x081003FFFFFFFFFF` (value 42) — none of them an ancestor
or descendant of `P`. Inserting the seven res-2 children of `P` with
value 42 first coalesces them into a leaf at `P`, whereupon the base
node holds seven equal leaves and coalesces again: `len` drops from 6
to 1 instead of rising by 1, and `get(child)` returns the res-0 cell,
not `P`. -/
theorem claim4_counterexample :
    (∀ d : Fin 6,
      Cell.to_parent 0x081003FFFFFFFFFF
          (Cell.res (0x0810000000000000 + (d.val + 1) * 2 ^ 42 + (2 ^ 42 - 1))) ≠
        some (0x0810000000000000 + (d.val + 1) * 2 ^ 42 + (2 ^ 42 - 1)) ∧
      Cell.to_parent (0x0810000000000000 + (d.val + 1) * 2 ^ 42 + (2 ^ 42 - 1))
          (Cell.res 0x081003FFFFFFFFFF) ≠ some 0x081003FFFFFFFFFF) ∧
    (let T6 := (List.range 6).foldl
      (fun acc d => acc.bind (fun m =>
        m.insert (0x0810000000000000 + (d + 1) * 2 ^ 42 + (2 ^ 42 - 1)) 42
          eqCompactor))
      (some (HexTreeMap.empty (V := Nat)));
    let T := (List.range 7).foldl
      (fun acc d => acc.bind (fun m =>
        m.insert (0x0820000000000000 + d * 2 ^ 39 + (2 ^ 39 - 1)) 42
          eqCompactor))
      T6;
    T6.map HexTreeMap.len = some 6 ∧
    T.map HexTreeMap.len = some 1 ∧
    T.bind (fun t => t.get 0x0820007FFFFFFFFF) =
      some (some (0x08001FFFFFFFFFFF, 42))) := by
  refine ⟨by decide, ?_, ?_, ?_⟩
  · decide
  · decide
  · decide

set_option maxRecDepth 4000 in
/-- Witness for C4 at `P = 0x081003FFFFFFFFFF` (res 1, base 0, first
digit 0) with the seven res-2 children `0x0820000000000000 + d * 2^39 +
(2^39 - 1)` and value 42. -/
theorem claim4_witness :
    ∃ t' : HexTreeMap Nat,
      (List.finRange 7).foldl
        (fun t d => t.bind (fun t => t.insert
          (0x0820000000000000 + d.val * 2 ^ 39 + (2 ^ 39 - 1)) 42 eqCompactor))
        (some HexTreeMap.empty) = some t' ∧
      HexTreeMap.len (HexTreeMap.empty (V := Nat)) = 0 ∧
      t'.len = 1 ∧
      ∀ d : Fin 7,
        t'.get (0x0820000000000000 + d.val * 2 ^ 39 + (2 ^ 39 - 1)) =
          some (some (0x081003FFFFFFFFFF, 42)) :=
  claim4_eq_compaction Nat 0x081003FFFFFFFFFF 1 42 [0]
    (fun d => 0x0820000000000000 + d.val * 2 ^ 39 + (2 ^ 39 - 1))
    rfl (by decide) (by decide) (by decide) (by decide)

/-- C9 is false: `0x08101FFFFFFFFFFF` (resolution 1, base 0, first digit
7) satisfies every invariant `Cell::from_raw` checks — and even the
digit-sentinel invariant, which only constrains positions beyond the
resolution — so `from_raw` accepts it unchanged; but its digit iterator
yields the digit 7. Inserting it into the empty map panics:
`HexTreeMap::insert` finds the base slot empty, builds a res-0 parent
with `Node::new`, and `Node::insert` consumes the digit 7 and indexes
`children[7]` in the 7-element array (modelled by `none`). Looking it
up in a map whose base-0 slot holds a parent node — here obtained by
first inserting the well-formed cell `0x081003FFFFFFFFFF` under the
`NullCompactor` — panics the same way in `Node::get` and
`Node::contains` when the root parent consumes the digit 7. (Against
the still-empty map, `get`/`contains` return `None`/`false` from the
base-slot check without consuming a digit, so the lookup panic is
exercised on the occupied slot only.) -/
theorem claim9_insert_panics :
    Cell.from_raw 0x08101FFFFFFFFFFF = .ok 0x08101FFFFFFFFFFF ∧
    cellOk 0x08101FFFFFFFFFFF ∧
    Digits.list 0x08101FFFFFFFFFFF = [7] ∧
    digitsFin 0x08101FFFFFFFFFFF = none ∧
    (HexTreeMap.insert (HexTreeMap.empty (V := Nat)) 0x08101FFFFFFFFFFF 42
      nullCompactor).isNone = true ∧
    (HexTreeMap.insert (HexTreeMap.empty (V := Nat)) 0x081003FFFFFFFFFF 1
        nullCompactor).map
      (fun t =>
        ((t.nodes.get? 0).elim false (fun o => o.elim false Node.isParentB),
          HexTreeMap.get t 0x08101FFFFFFFFFFF,
          HexTreeMap.containsCell t 0x08101FFFFFFFFFFF)) =
      some (true, none, none) := by
  refine ⟨?_, ?_, ?_, ?_, ?_, ?_⟩ <;> decide

/-! ## The on-disk tree: reader side (`src/disktree/tree.rs`,
`src/disktree/node.rs`). The disk image is a byte buffer modelled as
`List Nat`; cursor reads are `drop`/`take`. -/

namespace Disk

/-- `tree.rs::HDR_MAGIC` (`b"hextree\0"`). -/
def HDR_MAGIC : List Nat := [104, 101, 120, 116, 114, 101, 101, 0]

/-- `tree.rs::HDR_SZ`: magic plus the version byte. -/
def HDR_SZ : Nat := 9

/-- `node.rs::NODE_BUF_SZ`: one tag byte plus seven 5-byte pointers. -/
def NODE_BUF_SZ : Nat := 36

/-- `disktree::node::Node`: a decoded on-disk node. A leaf holds the
byte range of its value; a parent holds seven optional child
pointers. -/
inductive DNode where
  | leaf (vbegin vend : Nat)
  | parent (children : List (Option Nat))
  deriving Repr, DecidableEq

/-- The child-pointer loop of `node.rs::Node::read`: for each digit in
order, consume one 5-byte pointer exactly when the digit's tag bit is
set. -/
def readChildrenFrom (tag : Nat) : List Nat → List Nat → Except Error (List (Option Nat))
  | [], _ => .ok []
  | d :: dsx, bytes =>
    if tag &&& (1 <<< d) != 0 then
      match Dp.read bytes with
      | .error e => .error e
      | .ok dp => (readChildrenFrom tag dsx (bytes.drop 5)).map (some dp :: ·)
    else
      (readChildrenFrom tag dsx bytes).map (none :: ·)

/-- `node.rs::Node::read` at position `pos`: read up to `NODE_BUF_SZ`
bytes, branch on bit 7 of the tag byte; a leaf re-parses the buffer as
a varint length and records the value range, a parent reads one 5-byte
pointer per set tag bit. -/
def DNode.read (buf : List Nat) (pos : Nat) : Except Error DNode :=
  match (buf.drop pos).take NODE_BUF_SZ with
  | [] => .error .io
  | tag :: rest =>
    if tag &&& 0x80 == 0 then
      match Varint.read (tag :: rest) with
      | .error e => .error e
      | .ok (len, n) => .ok (.leaf (pos + n) (pos + n + len))
    else
      match readChildrenFrom tag [0, 1, 2, 3, 4, 5, 6] rest with
      | .error e => .error e
      | .ok cs => .ok (.parent cs)

/-- `tree.rs::DiskTreeMap::_get_raw`. Digits are the raw (unchecked)
digit values; the outer `none` models the `children[digit]` index panic
on a digit outside `0..=6` (or on a decoded parent with fewer than 7
children, which never occurs). -/
def _get_raw (buf : List Nat) (cell : Nat) :
    Nat → Nat → List Nat → Option (Except Error (Option (Nat × Nat × DNode)))
  | _, dp, [] =>
    match DNode.read buf dp with
    | .error e => some (.error e)
    | .ok n => some (.ok (some (cell, dp, n)))
  | res, dp, d :: rest =>
    match DNode.read buf dp with
    | .error e => some (.error e)
    | .ok (.leaf b e) =>
      some (.ok (some ((Cell.to_parent cell res).getD cell, dp, .leaf b e)))
    | .ok (.parent children) =>
      if d < 7 then
        match children.get? d with
        | some (some dp2) => _get_raw buf cell (res + 1) dp2 rest
        | some none => some (.ok none)
        | none => none
      else none

theorem _get_raw_nil (buf : List Nat) (cell res dp : Nat) :
    _get_raw buf cell res dp [] =
      match DNode.read buf dp with
      | .error e => some (.error e)
      | .ok n => some (.ok (some (cell, dp, n))) := rfl

theorem _get_raw_cons (buf : List Nat) (cell res dp d : Nat) (rest : List Nat) :
    _get_raw buf cell res dp (d :: rest) =
      match DNode.read buf dp with
      | .error e => some (.error e)
      | .ok (.leaf b e) =>
        some (.ok (some ((Cell.to_parent cell res).getD cell, dp, .leaf b e)))
      | .ok (.parent children) =>
        if d < 7 then
          match children.get? d with
          | some (some dp2) => _get_raw buf cell (res + 1) dp2 rest
          | some none => some (.ok none)
          | none => none
        else none := rfl

/-- `tree.rs::DiskTreeMap::get_raw`: read the base-slot pointer, stop
at null, otherwise descend. -/
def get_raw (buf : List Nat) (cell : Nat) :
    Option (Except Error (Option (Nat × Nat × DNode))) :=
  match Dp.read (buf.drop (HDR_SZ + 5 * Cell.base cell)) with
  | .error e => some (.error e)
  | .ok dp =>
    if dp = 0 then some (.ok none)
    else _get_raw buf cell 0 dp (Digits.list cell)

/-- `tree.rs::DiskTreeMap::get`: keep only leaves and slice out the
value bytes (`none` models the slice panic of `&buf[range]` on an
out-of-range value range). -/
def get (buf : List Nat) (cell : Nat) :
    Option (Except Error (Option (Nat × List Nat))) :=
  match get_raw buf cell with
  | none => none
  | some (.error e) => some (.error e)
  | some (.ok none) => some (.ok none)
  | some (.ok (some (_, _, .parent _))) => some (.ok none)
  | some (.ok (some (c, _, .leaf b e))) =>
    if b ≤ e ∧ e ≤ buf.length then
      some (.ok (some (c, (buf.drop b).take (e - b))))
    else none

/-- The on-disk node reached from `dp` by following a digit path
through decoded parents (the disk-side analogue of `Node.nodeAt`). -/
def dNodeAt (buf : List Nat) : Nat → List (Fin 7) → Option (Nat × DNode)
  | dp, [] =>
    match DNode.read buf dp with
    | .ok n => some (dp, n)
    | .error _ => none
  | dp, d :: rest =>
    match DNode.read buf dp with
    | .ok (.parent children) =>
      match children.get? d.val with
      | some (some dp2) => dNodeAt buf dp2 rest
      | _ => none
    | _ => none

end Disk

namespace Node

theorem nodeAt_leaf_cons (a : Nat) (w : V) (d : Fin 7) (p : List (Fin 7)) :
    nodeAt (.leaf a w) (d :: p) = none := rfl

/-- A leaf on the descent path determines the lookup result: the value
of the first leaf met, tagged with `to_parent` at its depth. -/
theorem getCell_of_nodeAt_leaf (ds : List (Fin 7)) :
    ∀ (k : Nat) (n : Node V) (res cell a : Nat) (w : V),
      k ≤ ds.length → nodeAt n (ds.take k) = some (.leaf a w) →
      getCell n res cell ds =
        some ((Cell.to_parent cell (res + k)).getD cell, w) := by
  induction ds with
  | nil =>
    intro k n res cell a w hk hleaf
    have hk0 : k = 0 := by simpa using hk
    subst hk0
    rw [List.take_nil, nodeAt_nil, Option.some_inj] at hleaf
    subst hleaf
    rw [getCell_leaf, Nat.add_zero]
  | cons d rest ih =>
    intro k n res cell a w hk hleaf
    cases k with
    | zero =>
      rw [List.take_zero, nodeAt_nil, Option.some_inj] at hleaf
      subst hleaf
      rw [getCell_leaf, Nat.add_zero]
    | succ k' =>
      rw [List.take_succ_cons] at hleaf
      cases n with
      | leaf a' w' => rw [nodeAt_leaf_cons] at hleaf; exact absurd hleaf (by simp)
      | parent c c0 c1 c2 c3 c4 c5 c6 =>
        rw [nodeAt_cons, child_parent] at hleaf
        rcases hsel : childSel c0 c1 c2 c3 c4 c5 c6 d with _ | m
        · rw [hsel] at hleaf
          exact absurd hleaf (by simp)
        · rw [hsel] at hleaf
          simp only at hleaf
          rw [getCell_parent_cons, hsel]
          have hres := ih k' m (res + 1) cell a w (by simpa using hk) hleaf
          rw [show res + 1 + k' = res + (k' + 1) from by omega] at hres
          exact hres

/-- If no prefix of the digit path reaches a leaf, the lookup misses. -/
theorem getCell_of_no_leaf (ds : List (Fin 7)) :
    ∀ (n : Node V) (res cell : Nat),
      (∀ (k a : Nat) (w : V), nodeAt n (ds.take k) ≠ some (.leaf a w)) →
      getCell n res cell ds = none := by
  induction ds with
  | nil =>
    intro n res cell hno
    cases n with
    | leaf a w => exact absurd (by rw [List.take_nil, nodeAt_nil]) (hno 0 a w)
    | parent c c0 c1 c2 c3 c4 c5 c6 => rw [getCell_parent_nil]
  | cons d rest ih =>
    intro n res cell hno
    cases n with
    | leaf a w => exact absurd (by rw [List.take_zero, nodeAt_nil]) (hno 0 a w)
    | parent c c0 c1 c2 c3 c4 c5 c6 =>
      rw [getCell_parent_cons]
      rcases hsel : childSel c0 c1 c2 c3 c4 c5 c6 d with _ | m
      · rfl
      · simp only
        refine ih m (res + 1) cell ?_
        intro k a w hk
        refine hno (k + 1) a w ?_
        rw [List.take_succ_cons, nodeAt_cons, child_parent, hsel]
        exact hk

end Node

namespace Disk

/-- Descending the full digit path reaches a node: `_get_raw` returns
it with the target cell itself. -/
theorem _get_raw_full (ds : List (Fin 7)) :
    ∀ (buf : List Nat) (cell res dp dp' : Nat) (n : DNode),
      dNodeAt buf dp ds = some (dp', n) →
      _get_raw buf cell res dp (ds.map Fin.val) =
        some (.ok (some (cell, dp', n))) := by
  induction ds with
  | nil =>
    intro buf cell res dp dp' n h
    rw [dNodeAt] at h
    rcases hr : DNode.read buf dp with e | n'
    · rw [hr] at h; exact absurd h (by simp)
    · rw [hr] at h
      simp only [Option.some_inj, Prod.mk.injEq] at h
      rw [List.map_nil, _get_raw_nil, hr]
      rw [h.1, h.2]
  | cons d rest ih =>
    intro buf cell res dp dp' n h
    rw [dNodeAt] at h
    rcases hr : DNode.read buf dp with e | n'
    · rw [hr] at h; exact absurd h (by simp)
    · rw [hr] at h
      cases n' with
      | leaf b e => exact absurd h (by simp)
      | parent cs =>
        simp only at h
        rcases hc : cs.get? d.val with _ | oc
        · rw [hc] at h; exact absurd h (by simp)
        · rw [hc] at h
          rcases oc with _ | dp2
          · exact absurd h (by simp)
          · simp only at h
            rw [List.map_cons, _get_raw_cons, hr]
            simp only [if_pos d.isLt, hc]
            exact ih buf cell (res + 1) dp2 dp' n h

/-- A leaf met strictly before the digits are exhausted: `_get_raw`
returns it with the cell promoted to the leaf depth. -/
theorem _get_raw_leaf_early (ds : List (Fin 7)) :
    ∀ (k : Nat) (buf : List Nat) (cell res dp dp' b e : Nat),
      k < ds.length → dNodeAt buf dp (ds.take k) = some (dp', .leaf b e) →
      _get_raw buf cell res dp (ds.map Fin.val) =
        some (.ok (some ((Cell.to_parent cell (res + k)).getD cell, dp',
          .leaf b e))) := by
  induction ds with
  | nil => intro k buf cell res dp dp' b e hk; exact absurd hk (by simp)
  | cons d rest ih =>
    intro k buf cell res dp dp' b e hk h
    cases k with
    | zero =>
      rw [List.take_zero, dNodeAt] at h
      rcases hr : DNode.read buf dp with e' | n'
      · rw [hr] at h; exact absurd h (by simp)
      · rw [hr] at h
        simp only [Option.some_inj, Prod.mk.injEq] at h
        rw [List.map_cons, _get_raw_cons, hr, h.2]
        rw [h.1, Nat.add_zero]
        rfl
    | succ k' =>
      rw [List.take_succ_cons, dNodeAt] at h
      rcases hr : DNode.read buf dp with e' | n'
      · rw [hr] at h; exact absurd h (by simp)
      · rw [hr] at h
        cases n' with
        | leaf b' e' => exact absurd h (by simp)
        | parent cs =>
          simp only at h
          rcases hc : cs.get? d.val with _ | oc
          · rw [hc] at h; exact absurd h (by simp)
          · rw [hc] at h
            rcases oc with _ | dp2
            · exact absurd h (by simp)
            · simp only at h
              rw [List.map_cons, _get_raw_cons, hr]
              simp only [if_pos d.isLt, hc]
              have hres := ih k' buf cell (res + 1) dp2 dp' b e
                (by simpa using hk) h
              rw [show res + 1 + k' = res + (k' + 1) from by omega] at hres
              exact hres

/-- A missing child on the path: `_get_raw` returns `Ok(None)`. -/
theorem _get_raw_missing (ds : List (Fin 7)) :
    ∀ (k : Nat) (buf : List Nat) (cell res dp dp' : Nat)
        (cs : List (Option Nat)) (dk : Fin 7),
      ds.get? k = some dk →
      dNodeAt buf dp (ds.take k) = some (dp', .parent cs) →
      cs.get? dk.val = some none →
      _get_raw buf cell res dp (ds.map Fin.val) = some (.ok none) := by
  induction ds with
  | nil => intro k buf cell res dp dp' cs dk hg; simp at hg
  | cons d rest ih =>
    intro k buf cell res dp dp' cs dk hg h hmiss
    cases k with
    | zero =>
      rw [List.get?_cons_zero, Option.some_inj] at hg
      subst hg
      rw [List.take_zero, dNodeAt] at h
      rcases hr : DNode.read buf dp with e' | n'
      · rw [hr] at h; exact absurd h (by simp)
      · rw [hr] at h
        simp only [Option.some_inj, Prod.mk.injEq] at h
        rw [List.map_cons, _get_raw_cons, hr, h.2]
        simp only [if_pos d.isLt, hmiss]
    | succ k' =>
      rw [List.get?_cons_succ] at hg
      rw [List.take_succ_cons, dNodeAt] at h
      rcases hr : DNode.read buf dp with e' | n'
      · rw [hr] at h; exact absurd h (by simp)
      · rw [hr] at h
        cases n' with
        | leaf b' e' => exact absurd h (by simp)
        | parent cs0 =>
          simp only at h
          rcases hc : cs0.get? d.val with _ | oc
          · rw [hc] at h; exact absurd h (by simp)
          · rw [hc] at h
            rcases oc with _ | dp2
            · exact absurd h (by simp)
            · simp only at h
              rw [List.map_cons, _get_raw_cons, hr]
              simp only [if_pos d.isLt, hc]
              exact ih k' buf cell (res + 1) dp2 dp' cs dk hg h hmiss

end Disk

/-- A checked digit list projects back to the raw digits. -/
theorem toFin7_map_val :
    ∀ (l : List Nat) (f : List (Fin 7)), toFin7 l = some f → l = f.map Fin.val := by
  intro l
  induction l with
  | nil =>
    intro f h
    rw [toFin7, Option.some_inj] at h
    rw [← h, List.map_nil]
  | cons d rest ih =>
    intro f h
    rw [toFin7] at h
    split_ifs at h with hd
    · rw [Option.map_eq_some'] at h
      obtain ⟨f', hf', rfl⟩ := h
      rw [List.map_cons, ← ih f' hf']

set_option maxRecDepth 2000 in
/-- C1: a point lookup returns the first leaf on the descent path. In
memory (`HexTreeMap::get`, node descent modelled from the spec as the
canonical cell-returning `Node::get` is absent from `src/`): a leaf at
depth `k` of the digit path yields `(to_parent(k), value)` — the target
cell itself at full depth — and a path that never meets a leaf yields
`None`. On disk (`DiskTreeMap::get` over an arbitrary buffer): a leaf
record at depth `k` yields `(to_parent(k), value bytes)`, the target
cell itself at full depth; exhausting the digits at a parent record, or
hitting an absent child, yields `None`. -/
theorem claim1_point_lookup (V : Type) :
    (∀ (t : HexTreeMap V) (n : Node V) (cell : Nat) (ds : List (Fin 7))
        (k a : Nat) (w : V),
      digitsFin cell = some ds →
      t.nodes.get? (Cell.base cell) = some (some n) →
      k ≤ ds.length → Node.nodeAt n (ds.take k) = some (.leaf a w) →
      t.get cell = some (some ((Cell.to_parent cell k).getD cell, w))) ∧
    (∀ (t : HexTreeMap V) (n : Node V) (cell : Nat) (ds : List (Fin 7))
        (a : Nat) (w : V),
      digitsFin cell = some ds →
      t.nodes.get? (Cell.base cell) = some (some n) →
      Node.nodeAt n ds = some (.leaf a w) →
      Cell.to_parent cell ds.length = some cell →
      t.get cell = some (some (cell, w))) ∧
    (∀ (t : HexTreeMap V) (n : Node V) (cell : Nat) (ds : List (Fin 7)),
      digitsFin cell = some ds →
      t.nodes.get? (Cell.base cell) = some (some n) →
      (∀ (k a : Nat) (w : V), Node.nodeAt n (ds.take k) ≠ some (.leaf a w)) →
      t.get cell = some none) ∧
    (∀ (buf : List Nat) (cell dp : Nat) (ds : List (Fin 7)) (k dp' b e : Nat),
      digitsFin cell = some ds →
      Dp.read (buf.drop (Disk.HDR_SZ + 5 * Cell.base cell)) = .ok dp →
      dp ≠ 0 →
      k < ds.length → Disk.dNodeAt buf dp (ds.take k) = some (dp', .leaf b e) →
      b ≤ e → e ≤ buf.length →
      Disk.get buf cell =
        some (.ok (some ((Cell.to_parent cell k).getD cell,
          (buf.drop b).take (e - b))))) ∧
    (∀ (buf : List Nat) (cell dp : Nat) (ds : List (Fin 7)) (dp' b e : Nat),
      digitsFin cell = some ds →
      Dp.read (buf.drop (Disk.HDR_SZ + 5 * Cell.base cell)) = .ok dp →
      dp ≠ 0 →
      Disk.dNodeAt buf dp ds = some (dp', .leaf b e) →
      b ≤ e → e ≤ buf.length →
      Disk.get buf cell = some (.ok (some (cell, (buf.drop b).take (e - b))))) ∧
    (∀ (buf : List Nat) (cell dp : Nat) (ds : List (Fin 7)) (dp' : Nat)
        (cs : List (Option Nat)),
      digitsFin cell = some ds →
      Dp.read (buf.drop (Disk.HDR_SZ + 5 * Cell.base cell)) = .ok dp →
      dp ≠ 0 →
      Disk.dNodeAt buf dp ds = some (dp', .parent cs) →
      Disk.get buf cell = some (.ok none)) ∧
    (∀ (buf : List Nat) (cell dp : Nat) (ds : List (Fin 7)) (k : Nat)
        (dk : Fin 7) (dp' : Nat) (cs : List (Option Nat)),
      digitsFin cell = some ds →
      Dp.read (buf.drop (Disk.HDR_SZ + 5 * Cell.base cell)) = .ok dp →
      dp ≠ 0 →
      ds.get? k = some dk →
      Disk.dNodeAt buf dp (ds.take k) = some (dp', .parent cs) →
      cs.get? dk.val = some none →
      Disk.get buf cell = some (.ok none)) := by
  have hlist : ∀ (cell : Nat) (ds : List (Fin 7)), digitsFin cell = some ds →
      Digits.list cell = ds.map Fin.val := fun cell ds h =>
    toFin7_map_val (Digits.list cell) ds h
  refine ⟨?_, ?_, ?_, ?_, ?_, ?_, ?_⟩
  · intro t n cell ds k a w hds hslot hk hleaf
    simp only [HexTreeMap.get, hds, hslot]
    rw [Node.getCell_of_nodeAt_leaf ds k n 0 cell a w hk hleaf, Nat.zero_add]
  · intro t n cell ds a w hds hslot hleaf hself
    simp only [HexTreeMap.get, hds, hslot]
    rw [Node.getCell_of_nodeAt_leaf ds ds.length n 0 cell a w le_rfl
      (by rw [List.take_length]; exact hleaf), Nat.zero_add, hself]
    rfl
  · intro t n cell ds hds hslot hno
    simp only [HexTreeMap.get, hds, hslot]
    rw [Node.getCell_of_no_leaf ds n 0 cell hno]
  · intro buf cell dp ds k dp' b e hds hbase hdp hk hleaf hbe hel
    have hraw : Disk.get_raw buf cell =
        some (.ok (some ((Cell.to_parent cell k).getD cell, dp',
          Disk.DNode.leaf b e))) := by
      rw [Disk.get_raw, hbase]
      simp only [if_neg hdp]
      rw [hlist cell ds hds]
      have := Disk._get_raw_leaf_early ds k buf cell 0 dp dp' b e hk hleaf
      rw [Nat.zero_add] at this
      exact this
    simp only [Disk.get, hraw]
    rw [if_pos ⟨hbe, hel⟩]
  · intro buf cell dp ds dp' b e hds hbase hdp hleaf hbe hel
    have hraw : Disk.get_raw buf cell =
        some (.ok (some (cell, dp', Disk.DNode.leaf b e))) := by
      rw [Disk.get_raw, hbase]
      simp only [if_neg hdp]
      rw [hlist cell ds hds]
      exact Disk._get_raw_full ds buf cell 0 dp dp' (.leaf b e) hleaf
    simp only [Disk.get, hraw]
    rw [if_pos ⟨hbe, hel⟩]
  · intro buf cell dp ds dp' cs hds hbase hdp hpar
    have hraw : Disk.get_raw buf cell =
        some (.ok (some (cell, dp', Disk.DNode.parent cs))) := by
      rw [Disk.get_raw, hbase]
      simp only [if_neg hdp]
      rw [hlist cell ds hds]
      exact Disk._get_raw_full ds buf cell 0 dp dp' (.parent cs) hpar
    simp only [Disk.get, hraw]
  · intro buf cell dp ds k dk dp' cs hds hbase hdp hg hpar hmiss
    have hraw : Disk.get_raw buf cell = some (.ok none) := by
      rw [Disk.get_raw, hbase]
      simp only [if_neg hdp]
      rw [hlist cell ds hds]
      exact Disk._get_raw_missing ds k buf cell 0 dp dp' cs dk hg hpar hmiss
    simp only [Disk.get, hraw]

set_option maxRecDepth 40000 in
/-- Witness for C1: an in-memory lookup of a res-2 cell that stops at a
res-1 ancestor leaf, and a disk lookup over a hand-laid-out image
(header, base-0 pointer, one parent record with a single digit-0 child,
one leaf record with value bytes `[9, 9]`). -/
theorem claim1_witness :
    (HexTreeMap.get
      (⟨(List.replicate 122 (none : Option (Node Nat))).set 0
        (some (.parent 0x08001FFFFFFFFFFF
          (some (.leaf 0x081003FFFFFFFFFF 42)) none none none none none
          none))⟩ : HexTreeMap Nat)
      0x0820007FFFFFFFFF = some (some (0x081003FFFFFFFFFF, 42))) ∧
    (Disk.get (Disk.HDR_MAGIC ++ [0xFE] ++ Dp.write 619 ++
        List.replicate 605 0 ++ [0x81] ++ Dp.write 625 ++ [0x42, 9, 9])
      0x081003FFFFFFFFFF = some (.ok (some (0x081003FFFFFFFFFF, [9, 9])))) := by
  constructor
  · have h := (claim1_point_lookup Nat).1
      ⟨(List.replicate 122 (none : Option (Node Nat))).set 0
        (some (.parent 0x08001FFFFFFFFFFF
          (some (.leaf 0x081003FFFFFFFFFF 42)) none none none none none none))⟩
      (.parent 0x08001FFFFFFFFFFF
        (some (.leaf 0x081003FFFFFFFFFF 42)) none none none none none none)
      0x0820007FFFFFFFFF [0, 0] 1 0x081003FFFFFFFFFF 42
      (by decide) (by rfl) (by decide) (by rfl)
    exact h.trans (by decide)
  · have h := (claim1_point_lookup Nat).2.2.2.2.1
      (Disk.HDR_MAGIC ++ [0xFE] ++ Dp.write 619 ++ List.replicate 605 0 ++
        [0x81] ++ Dp.write 625 ++ [0x42, 9, 9])
      0x081003FFFFFFFFFF 619 [0] 625 626 628
      (by decide) (by decide) (by decide) (by decide) (by decide) (by decide)
    exact h.trans (by decide)

/-! ## The on-disk tree: writer side (`src/disktree/writer.rs`,
`src/disktree/dtseek.rs`). The write target (`W: Write + Seek`) is a
growable byte buffer with a cursor; `write_all` overwrites at the
cursor and extends at the end. -/

namespace Disk

/-- The writer's stream: buffer plus cursor. -/
structure WS where
  bytes : List Nat
  pos : Nat
  deriving Repr, DecidableEq

/-- A writer outcome that is not a clean return: an `Err` propagated
from the source's `Result`, or a panic (the `assert!` inside
`From<u64> for Dp`, reached through `DtSeek::pos`). -/
inductive WErr where
  | err (e : Error)
  | panic
  deriving Repr, DecidableEq

/-- `write_all`: overwrite at the cursor, extending at the end. -/
def wWrite (data : List Nat) (s : WS) : WS :=
  ⟨s.bytes.take s.pos ++ data ++ s.bytes.drop (s.pos + data.length),
   s.pos + data.length⟩

/-- One step of the placeholder loop in `write_node`'s parent arm: for
a present child, record `self.pos()` (with its `Dp::from` assert) and
write a null pointer. -/
def placeholder : Option (Node V) → WS → Except WErr (Option Nat × WS)
  | none, s => .ok (none, s)
  | some _, s =>
    match Dp.fromU64 s.pos with
    | some p => .ok (some p, wWrite (Dp.write 0) s)
    | none => .error .panic

/-- The tag byte: the source's shift-register fold over the seven
children (shift right once per child, or-in bit 7 when present),
followed by the final shift plus the sentinel bit. -/
def tagByte (bits : List Bool) : Nat :=
  ((bits.foldl (fun t b => if b then (t >>> 1) ||| 0x80 else t >>> 1) 0) >>> 1)
    ||| 0x80

mutual

/-- `writer.rs::DiskTreeWriter::write_node`. Fast-forward to the end of
the stream (`node_pos`, asserted to fit a `Dp`); a leaf emits the
varint of the encoded value's length (a `u32` cast of a `usize`)
followed by the value bytes; a parent emits a dummy tag byte and one
null-pointer placeholder per present child, patches the tag, then
handles its fixup list: each present child in ascending digit order is
written recursively and its placeholder patched with its position. -/
def write_node (enc : V → List Nat) : Node V → WS → Except WErr (Nat × WS)
  | .leaf _ v, s =>
    match Dp.fromU64 s.bytes.length with
    | none => .error .panic
    | some np =>
      match Varint.write ((enc v).length % 2 ^ 32) with
      | .error e => .error (.err e)
      | .ok (vb, _) =>
        .ok (np, wWrite (enc v) (wWrite vb ⟨s.bytes, s.bytes.length⟩))
  | .parent _ c0 c1 c2 c3 c4 c5 c6, s =>
    match Dp.fromU64 s.bytes.length with
    | none => .error .panic
    | some np =>
      match placeholder c0 (wWrite [0x80] ⟨s.bytes, s.bytes.length⟩) with
      | .error e => .error e
      | .ok (fx0, s3) =>
      match placeholder c1 s3 with
      | .error e => .error e
      | .ok (fx1, s4) =>
      match placeholder c2 s4 with
      | .error e => .error e
      | .ok (fx2, s5) =>
      match placeholder c3 s5 with
      | .error e => .error e
      | .ok (fx3, s6) =>
      match placeholder c4 s6 with
      | .error e => .error e
      | .ok (fx4, s7) =>
      match placeholder c5 s7 with
      | .error e => .error e
      | .ok (fx5, s8) =>
      match placeholder c6 s8 with
      | .error e => .error e
      | .ok (fx6, s9) =>
      match wChild enc c0 fx0
          (wWrite [tagByte [c0.isSome, c1.isSome, c2.isSome, c3.isSome,
            c4.isSome, c5.isSome, c6.isSome]] ⟨s9.bytes, np⟩) with
      | .error e => .error e
      | .ok s11 =>
      match wChild enc c1 fx1 s11 with
      | .error e => .error e
      | .ok s12 =>
      match wChild enc c2 fx2 s12 with
      | .error e => .error e
      | .ok s13 =>
      match wChild enc c3 fx3 s13 with
      | .error e => .error e
      | .ok s14 =>
      match wChild enc c4 fx4 s14 with
      | .error e => .error e
      | .ok s15 =>
      match wChild enc c5 fx5 s15 with
      | .error e => .error e
      | .ok s16 =>
      match wChild enc c6 fx6 s16 with
      | .error e => .error e
      | .ok s17 => .ok (np, s17)

/-- One entry of the fixup loop: write the child's subtree, then patch
the recorded placeholder with the child's node position. An absent
child has no fixup entry. -/
def wChild (enc : V → List Nat) : Option (Node V) → Option Nat → WS →
    Except WErr WS
  | none, _, s => .ok s
  | some m, fx, s =>
    match write_node enc m s with
    | .error e => .error e
    | .ok (cp, s') => .ok (wWrite (Dp.write cp) ⟨s'.bytes, fx.getD 0⟩)

end

end Disk

namespace Disk

/-- The base-cell fixup loop of `writer.rs::DiskTreeWriter::write`:
each occupied root slot's node is written and the slot's placeholder
(at offset `fx`) patched with the node's position. -/
def writeBases (enc : V → List Nat) :
    List (Option (Node V)) → Nat → WS → Except WErr WS
  | [], _, s => .ok s
  | none :: rest, fx, s => writeBases enc rest (fx + 5) s
  | some n :: rest, fx, s =>
    match Dp.fromU64 fx with
    | none => .error .panic
    | some _ =>
      match write_node enc n s with
      | .error e => .error e
      | .ok (np, s') =>
        writeBases enc rest (fx + 5) (wWrite (Dp.write np) ⟨s'.bytes, fx⟩)

/-- `writer.rs::DiskTreeWriter::write` (via `to_disktree`): magic
string, version byte `0xFE - 0`, one 5-byte null placeholder per root
slot, then the fixup loop over the occupied slots. -/
def write (enc : V → List Nat) (t : HexTreeMap V) : Except WErr WS :=
  writeBases enc t.nodes HDR_SZ
    (wWrite (List.replicate (5 * t.nodes.length) 0)
      (wWrite (HDR_MAGIC ++ [0xFE]) ⟨[], 0⟩))

end Disk

namespace Disk

/-- Writing at the end of the stream appends. -/
theorem wWrite_append (data bs : List Nat) :
    wWrite data ⟨bs, bs.length⟩ = ⟨bs ++ data, bs.length + data.length⟩ := by
  simp only [wWrite]
  congr 1
  rw [List.take_length, List.drop_eq_nil_of_le (by omega), List.append_assoc,
    List.append_nil]

/-- Patching inside the stream preserves its length. -/
theorem wWrite_patch_length (data bs : List Nat) (p : Nat)
    (h : p + data.length ≤ bs.length) :
    (wWrite data ⟨bs, p⟩).bytes.length = bs.length := by
  simp only [wWrite]
  simp only [List.length_append, List.length_take, List.length_drop]
  omega

/-- The bytes of a patched stream, position by position. -/
theorem wWrite_patch_get (data bs : List Nat) (p i : Nat)
    (h : p + data.length ≤ bs.length) :
    (wWrite data ⟨bs, p⟩).bytes.get? i =
      if i < p then bs.get? i
      else if i < p + data.length then data.get? (i - p)
      else bs.get? i := by
  simp only [wWrite]
  simp only [List.get?_eq_getElem?]
  have hp : p ≤ bs.length := by omega
  have hlt : (bs.take p).length = p := by
    rw [List.length_take]
    omega
  have hlt2 : (bs.take p ++ data).length = p + data.length := by
    rw [List.length_append, hlt]
  split_ifs with h1 h2
  · rw [List.getElem?_append_left (by rw [hlt2]; omega),
      List.getElem?_append_left (by rw [hlt]; omega),
      List.getElem?_take, if_pos h1]
  · rw [List.getElem?_append_left (by rw [hlt2]; omega),
      List.getElem?_append_right (by rw [hlt]; omega), hlt]
  · rw [List.getElem?_append_right (by rw [hlt2]; omega), hlt2,
      List.getElem?_drop]
    congr 1
    omega

end Disk

namespace Disk

/-- A successful varint write emits `k` bytes that decode back to `v`
in front of any continuation, and the first byte has its top bit
clear. -/
theorem varint_emit (v : Nat) (vb : List Nat) (k : Nat)
    (h : Varint.write v = .ok (vb, k)) :
    vb.length = k ∧ k ≤ 4 ∧ (∀ rest, Varint.read (vb ++ rest) = .ok (v, k)) ∧
    ∃ b0 btl, vb = b0 :: btl ∧ b0 < 0x80 := by
  by_cases hb1 : v < 0x40
  · rw [Varint.write_band1 v hb1] at h
    simp only [Except.ok.injEq, Prod.mk.injEq] at h
    obtain ⟨h1, h2⟩ := h
    subst h1
    subst h2
    exact ⟨rfl, by omega, fun rest => Varint.read_band1 v rest hb1, _, _, rfl, by omega⟩
  · by_cases hb2 : v < 0x2000
    · rw [Varint.write_band2 v (by omega) hb2] at h
      simp only [Except.ok.injEq, Prod.mk.injEq] at h
      obtain ⟨h1, h2⟩ := h
      subst h1
      subst h2
      exact ⟨rfl, by omega, fun rest => Varint.read_band2 v rest (by omega) hb2,
        _, _, rfl, by omega⟩
    · by_cases hb3 : v < 0x100000
      · rw [Varint.write_band3 v (by omega) hb3] at h
        simp only [Except.ok.injEq, Prod.mk.injEq] at h
        obtain ⟨h1, h2⟩ := h
        subst h1
        subst h2
        exact ⟨rfl, by omega, fun rest => Varint.read_band3 v rest (by omega) hb3,
          _, _, rfl, by omega⟩
      · by_cases hb4 : v < 0x8000000
        · rw [Varint.write_band4 v (by omega) hb4] at h
          simp only [Except.ok.injEq, Prod.mk.injEq] at h
          obtain ⟨h1, h2⟩ := h
          subst h1
          subst h2
          exact ⟨rfl, by omega, fun rest => Varint.read_band4 v rest (by omega) hb4,
            _, _, rfl, by omega⟩
        · rw [Varint.write, if_neg (by omega), if_neg (by omega),
            if_neg (by omega), if_neg (by omega)] at h
          exact absurd h (by simp)

theorem dp_write_length (dp : Nat) : (Dp.write dp).length = 5 := rfl

/-- A 5-byte pointer round-trips in front of any continuation. -/
theorem dp_read_write (cp : Nat) (hcp : cp < 2 ^ 40) (rest : List Nat) :
    Dp.read (Dp.write cp ++ rest) = .ok cp := by
  have hw : Dp.write cp = [cp % 2 ^ 8, cp / 2 ^ 8 % 2 ^ 8, cp / 2 ^ 16 % 2 ^ 8,
      cp / 2 ^ 24 % 2 ^ 8, cp / 2 ^ 32 % 2 ^ 8] := rfl
  rw [hw]
  simp only [List.cons_append, List.nil_append, Dp.read]
  congr 1
  omega

/-- The tag byte's value as sentinel plus presence bitmap. -/
theorem tagByte_bits (b0 b1 b2 b3 b4 b5 b6 : Bool) :
    tagByte [b0, b1, b2, b3, b4, b5, b6] =
      0x80 + (if b0 then 1 else 0) + (if b1 then 2 else 0) +
        (if b2 then 4 else 0) + (if b3 then 8 else 0) + (if b4 then 16 else 0) +
        (if b5 then 32 else 0) + (if b6 then 64 else 0) := by
  cases b0 <;> cases b1 <;> cases b2 <;> cases b3 <;> cases b4 <;> cases b5 <;>
    cases b6 <;> rfl

/-- The reader's per-digit bit tests on the tag byte recover the
presence flags. -/
theorem tagByte_test (b0 b1 b2 b3 b4 b5 b6 : Bool) :
    ((tagByte [b0, b1, b2, b3, b4, b5, b6] &&& (1 <<< 0) != 0) = b0) ∧
    ((tagByte [b0, b1, b2, b3, b4, b5, b6] &&& (1 <<< 1) != 0) = b1) ∧
    ((tagByte [b0, b1, b2, b3, b4, b5, b6] &&& (1 <<< 2) != 0) = b2) ∧
    ((tagByte [b0, b1, b2, b3, b4, b5, b6] &&& (1 <<< 3) != 0) = b3) ∧
    ((tagByte [b0, b1, b2, b3, b4, b5, b6] &&& (1 <<< 4) != 0) = b4) ∧
    ((tagByte [b0, b1, b2, b3, b4, b5, b6] &&& (1 <<< 5) != 0) = b5) ∧
    ((tagByte [b0, b1, b2, b3, b4, b5, b6] &&& (1 <<< 6) != 0) = b6) := by
  cases b0 <;> cases b1 <;> cases b2 <;> cases b3 <;> cases b4 <;> cases b5 <;>
    cases b6 <;> exact ⟨rfl, rfl, rfl, rfl, rfl, rfl, rfl⟩

/-- Bit 7 of the tag byte is always set, and bits 0–6 are the presence
flags. -/
theorem tagByte_testBit (b0 b1 b2 b3 b4 b5 b6 : Bool) :
    (tagByte [b0, b1, b2, b3, b4, b5, b6]).testBit 7 = true ∧
    (tagByte [b0, b1, b2, b3, b4, b5, b6]).testBit 0 = b0 ∧
    (tagByte [b0, b1, b2, b3, b4, b5, b6]).testBit 1 = b1 ∧
    (tagByte [b0, b1, b2, b3, b4, b5, b6]).testBit 2 = b2 ∧
    (tagByte [b0, b1, b2, b3, b4, b5, b6]).testBit 3 = b3 ∧
    (tagByte [b0, b1, b2, b3, b4, b5, b6]).testBit 4 = b4 ∧
    (tagByte [b0, b1, b2, b3, b4, b5, b6]).testBit 5 = b5 ∧
    (tagByte [b0, b1, b2, b3, b4, b5, b6]).testBit 6 = b6 := by
  cases b0 <;> cases b1 <;> cases b2 <;> cases b3 <;> cases b4 <;> cases b5 <;>
    cases b6 <;> exact ⟨rfl, rfl, rfl, rfl, rfl, rfl, rfl, rfl⟩

/-- The tag's top bit survives the reader's discriminator test. -/
theorem tagByte_sentinel (b0 b1 b2 b3 b4 b5 b6 : Bool) :
    (tagByte [b0, b1, b2, b3, b4, b5, b6] &&& 0x80 == 0) = false := by
  cases b0 <;> cases b1 <;> cases b2 <;> cases b3 <;> cases b4 <;> cases b5 <;>
    cases b6 <;> rfl

/-- One step of the child-pointer parse against the writer's layout:
the pointer block of an absent child is empty, that of a present child
is its 5-byte position. -/
theorem rcf_step (tag d : Nat) (dsx : List Nat) (oc : Option Nat)
    (tail : List Nat) (hbit : (tag &&& (1 <<< d) != 0) = oc.isSome)
    (hcp : ∀ cp, oc = some cp → cp < 2 ^ 40) :
    readChildrenFrom tag (d :: dsx) ((oc.elim [] Dp.write) ++ tail) =
      (readChildrenFrom tag dsx tail).map (oc :: ·) := by
  cases oc with
  | none =>
    simp only [Option.isSome_none] at hbit
    rw [readChildrenFrom]
    simp only [Option.elim, List.nil_append, hbit, Bool.false_eq_true,
      if_false]
  | some cp =>
    simp only [Option.isSome_some] at hbit
    have hdrop : (Dp.write cp ++ tail).drop 5 = tail := by
      rw [show (5 : Nat) = (Dp.write cp).length from rfl, List.drop_left]
    rw [readChildrenFrom]
    simp only [Option.elim, hbit, if_true, dp_read_write cp (hcp cp rfl) tail,
      hdrop]

end Disk

namespace Disk

mutual

/-- The buffer `buf` holds, at `dp`, a faithful encoding of the
in-memory subtree `n` (all of it above position `lo`): a leaf record
decodes to the value range holding exactly the encoded value, a parent
record decodes to seven child slots whose presence and targets mirror
the in-memory children. -/
def Corresponds (enc : V → List Nat) (buf : List Nat) (lo : Nat) :
    Nat → Node V → Prop
  | dp, .leaf _ v =>
    lo ≤ dp ∧
    ∃ vb k, Varint.write (enc v).length = .ok (vb, k) ∧
      DNode.read buf dp = .ok (.leaf (dp + k) (dp + k + (enc v).length)) ∧
      (buf.drop (dp + k)).take (enc v).length = enc v ∧
      dp + k + (enc v).length ≤ buf.length
  | dp, .parent _ c0 c1 c2 c3 c4 c5 c6 =>
    lo ≤ dp ∧
    ∃ cs, DNode.read buf dp = .ok (.parent cs) ∧
      CorrespondsO enc buf lo (cs.get? 0) c0 ∧
      CorrespondsO enc buf lo (cs.get? 1) c1 ∧
      CorrespondsO enc buf lo (cs.get? 2) c2 ∧
      CorrespondsO enc buf lo (cs.get? 3) c3 ∧
      CorrespondsO enc buf lo (cs.get? 4) c4 ∧
      CorrespondsO enc buf lo (cs.get? 5) c5 ∧
      CorrespondsO enc buf lo (cs.get? 6) c6

/-- A decoded child slot mirrors an in-memory child: an absent child
decodes to an explicit empty slot, a present child to a pointer whose
target corresponds to it. -/
def CorrespondsO (enc : V → List Nat) (buf : List Nat) (lo : Nat)
    (o : Option (Option Nat)) : Option (Node V) → Prop
  | none => o = some none
  | some m => ∃ cp, o = some (some cp) ∧ Corresponds enc buf lo cp m

end

theorem fromU64_ok {x y : Nat} (h : Dp.fromU64 x = some y) :
    y = x ∧ x < 2 ^ 40 := by
  rw [Dp.fromU64] at h
  split_ifs at h with hx
  · rw [Option.some_inj] at h
    refine ⟨h.symm, ?_⟩
    rw [show Dp.MAX = 2 ^ 40 - 1 from rfl] at hx
    omega

theorem placeholder_none (s : WS) :
    placeholder (V := V) none s = .ok (none, s) := rfl

theorem placeholder_some (m : Node V) (bs : List Nat) (h : bs.length < 2 ^ 40) :
    placeholder (some m) ⟨bs, bs.length⟩ =
      .ok (some bs.length, ⟨bs ++ Dp.write 0, bs.length + 5⟩) := by
  rw [placeholder]
  have hf : Dp.fromU64 (WS.mk bs bs.length).pos = some bs.length := by
    rw [Dp.fromU64, if_pos]
    show bs.length ≤ Dp.MAX
    rw [show Dp.MAX = 2 ^ 40 - 1 from rfl]
    omega
  rw [hf, wWrite_append]
  rfl

end Disk

namespace Disk

/-- A successful varint parse only looks at the bytes it consumes. -/
theorem varint_read_append (l t : List Nat) (v k : Nat)
    (h : Varint.read l = .ok (v, k)) : Varint.read (l ++ t) = .ok (v, k) := by
  cases l with
  | nil => rw [Varint.read] at h; exact absurd h (by simp)
  | cons a rest =>
    rw [List.cons_append]
    rcases hL : Varint.leadingZeros8 a with _ | _ | _ | _ | _ | L
    · simp only [Varint.read, hL] at h
      exact absurd h (by simp)
    · simp only [Varint.read, hL] at h ⊢
      exact h
    · cases rest with
      | nil =>
        simp only [Varint.read, hL] at h
        exact absurd h (by simp)
      | cons b r2 =>
        simp only [Varint.read, hL, List.cons_append] at h ⊢
        exact h
    · cases rest with
      | nil =>
        simp only [Varint.read, hL] at h
        exact absurd h (by simp)
      | cons b r2 =>
        cases r2 with
        | nil =>
          simp only [Varint.read, hL] at h
          exact absurd h (by simp)
        | cons c r3 =>
          simp only [Varint.read, hL, List.cons_append] at h ⊢
          exact h
    · cases rest with
      | nil =>
        simp only [Varint.read, hL] at h
        exact absurd h (by simp)
      | cons b r2 =>
        cases r2 with
        | nil =>
          simp only [Varint.read, hL] at h
          exact absurd h (by simp)
        | cons c r3 =>
          cases r3 with
          | nil =>
            simp only [Varint.read, hL] at h
            exact absurd h (by simp)
          | cons d r4 =>
            simp only [Varint.read, hL, List.cons_append] at h ⊢
            exact h
    · simp only [Varint.read, hL] at h
      exact absurd h (by simp)

/-- A successful child-pointer parse only looks at the bytes it
consumes. -/
theorem rcf_append (tag : Nat) (ds : List Nat) :
    ∀ (bytes t : List Nat) (cs : List (Option Nat)),
      readChildrenFrom tag ds bytes = .ok cs →
      readChildrenFrom tag ds (bytes ++ t) = .ok cs := by
  induction ds with
  | nil =>
    intro bytes t cs h
    rw [readChildrenFrom] at h ⊢
    exact h
  | cons d dsx ih =>
    intro bytes t cs h
    rw [readChildrenFrom] at h ⊢
    by_cases hbit : (tag &&& (1 <<< d) != 0) = true
    · simp only [hbit, if_true] at h ⊢
      rcases hr : Dp.read bytes with e | dp
      · rw [hr] at h
        exact absurd h (by simp)
      · have hshape : ∃ b0 b1 b2 b3 b4 rb,
            bytes = b0 :: b1 :: b2 :: b3 :: b4 :: rb := by
          rcases bytes with _ | ⟨b0, _ | ⟨b1, _ | ⟨b2, _ | ⟨b3, _ | ⟨b4, rb⟩⟩⟩⟩⟩
          · simp [Dp.read] at hr
          · simp [Dp.read] at hr
          · simp [Dp.read] at hr
          · simp [Dp.read] at hr
          · simp [Dp.read] at hr
          · exact ⟨b0, b1, b2, b3, b4, rb, rfl⟩
        obtain ⟨b0, b1, b2, b3, b4, rb, rfl⟩ := hshape
        rw [hr] at h
        have hval : Dp.read (b0 :: b1 :: b2 :: b3 :: b4 :: rb) =
            .ok (b0 + b1 * 2 ^ 8 + b2 * 2 ^ 16 + b3 * 2 ^ 24 + b4 * 2 ^ 32) :=
          rfl
        have hr2 : Dp.read (b0 :: b1 :: b2 :: b3 :: b4 :: (rb ++ t)) =
            .ok dp := by
          rw [hval] at hr
          exact hr
        rw [show (b0 :: b1 :: b2 :: b3 :: b4 :: rb) ++ t =
          b0 :: b1 :: b2 :: b3 :: b4 :: (rb ++ t) from rfl, hr2]
        have hdrop1 : (b0 :: b1 :: b2 :: b3 :: b4 :: rb).drop 5 = rb := rfl
        have hdrop2 : (b0 :: b1 :: b2 :: b3 :: b4 :: (rb ++ t)).drop 5 =
          rb ++ t := rfl
        rw [hdrop1] at h
        rw [hdrop2]
        rcases hrec : readChildrenFrom tag dsx rb with e | cs0
        · rw [hrec] at h
          exact absurd h (by simp [Except.map])
        · rw [hrec] at h
          rw [ih rb t cs0 hrec]
          exact h
    · simp only [Bool.not_eq_true] at hbit
      simp only [hbit, Bool.false_eq_true, if_false] at h ⊢
      rcases hrec : readChildrenFrom tag dsx bytes with e | cs0
      · rw [hrec] at h
        exact absurd h (by simp [Except.map])
      · rw [hrec] at h
        rw [ih bytes t cs0 hrec]
        exact h

end Disk

namespace Disk

/-- Over a region-preserving extension of the buffer, a node's read
window extends an old window. -/
theorem chunk_prefix (buf buf2 : List Nat) (lo dp : Nat)
    (hag : ∀ i, lo ≤ i → i < buf.length → buf2.get? i = buf.get? i)
    (hlen : buf.length ≤ buf2.length) (hlo : lo ≤ dp) :
    ∃ t, (buf2.drop dp).take NODE_BUF_SZ =
      (buf.drop dp).take NODE_BUF_SZ ++ t := by
  set A := (buf.drop dp).take NODE_BUF_SZ with hA
  set B := (buf2.drop dp).take NODE_BUF_SZ with hB
  have hAl : A.length = min NODE_BUF_SZ (buf.length - dp) := by
    rw [hA, List.length_take, List.length_drop]
  have hBl : B.length = min NODE_BUF_SZ (buf2.length - dp) := by
    rw [hB, List.length_take, List.length_drop]
  refine ⟨B.drop A.length, ?_⟩
  apply List.ext_getElem?
  intro i
  by_cases hi : i < A.length
  · rw [List.getElem?_append_left hi]
    have hi36 : i < NODE_BUF_SZ := by omega
    have hibuf : dp + i < buf.length := by omega
    rw [hA, hB]
    simp only [List.getElem?_take, if_pos hi36, List.getElem?_drop]
    have := hag (dp + i) (by omega) hibuf
    rw [List.get?_eq_getElem?, List.get?_eq_getElem?] at this
    exact this
  · rw [List.getElem?_append_right (by omega), List.getElem?_drop]
    congr 1
    omega

/-- A successful node decode survives any extension of the buffer that
preserves the region above `lo`. -/
theorem dnode_read_stable (buf buf2 : List Nat) (lo dp : Nat) (nd : DNode)
    (h : DNode.read buf dp = .ok nd)
    (hag : ∀ i, lo ≤ i → i < buf.length → buf2.get? i = buf.get? i)
    (hlen : buf.length ≤ buf2.length) (hlo : lo ≤ dp) :
    DNode.read buf2 dp = .ok nd := by
  obtain ⟨t, ht⟩ := chunk_prefix buf buf2 lo dp hag hlen hlo
  rw [DNode.read] at h ⊢
  rcases hch : (buf.drop dp).take NODE_BUF_SZ with _ | ⟨tag, rest⟩
  · rw [hch] at h
    exact absurd h (by simp)
  · rw [hch] at h
    rw [ht, hch, List.cons_append]
    by_cases htag : (tag &&& 0x80 == 0) = true
    · simp only [htag, if_true] at h ⊢
      rcases hv : Varint.read (tag :: rest) with e | ⟨len, k⟩
      · rw [hv] at h
        exact absurd h (by simp)
      · rw [hv] at h
        rw [show tag :: (rest ++ t) = (tag :: rest) ++ t from rfl,
          varint_read_append (tag :: rest) t len k hv]
        exact h
    · simp only [Bool.not_eq_true] at htag
      simp only [htag, Bool.false_eq_true, if_false] at h ⊢
      rcases hc : readChildrenFrom tag [0, 1, 2, 3, 4, 5, 6] rest with e | cs
      · rw [hc] at h
        exact absurd h (by simp)
      · rw [hc] at h
        rw [rcf_append tag [0, 1, 2, 3, 4, 5, 6] rest t cs hc]
        exact h

/-- A fully in-buffer slice is unchanged by a region-preserving
extension. -/
theorem slice_stable (buf buf2 : List Nat) (lo a n : Nat)
    (hag : ∀ i, lo ≤ i → i < buf.length → buf2.get? i = buf.get? i)
    (hlen : buf.length ≤ buf2.length) (hlo : lo ≤ a)
    (hbound : a + n ≤ buf.length) :
    (buf2.drop a).take n = (buf.drop a).take n := by
  apply List.ext_getElem?
  intro i
  simp only [List.getElem?_take, List.getElem?_drop]
  by_cases hi : i < n
  · rw [if_pos hi, if_pos hi]
    have := hag (a + i) (by omega) (by omega)
    rw [List.get?_eq_getElem?, List.get?_eq_getElem?] at this
    exact this
  · rw [if_neg hi, if_neg hi]

end Disk

namespace Disk

theorem node_size_pos (n : Node V) : 1 ≤ n.size := by
  cases n with
  | leaf c v => simp [Node.size]
  | parent c c0 c1 c2 c3 c4 c5 c6 =>
    rw [Node.size_parent]
    omega

/-- `Corresponds` survives any buffer extension that preserves the
region above `lo`. -/
theorem corresponds_stable (enc : V → List Nat) (buf buf2 : List Nat)
    (lo : Nat)
    (hag : ∀ i, lo ≤ i → i < buf.length → buf2.get? i = buf.get? i)
    (hlen : buf.length ≤ buf2.length) :
    ∀ (k : Nat) (n : Node V) (dp : Nat), n.size ≤ k →
      Corresponds enc buf lo dp n → Corresponds enc buf2 lo dp n := by
  intro k
  induction k with
  | zero =>
    intro n dp hsz h
    have := node_size_pos n
    omega
  | succ k ih =>
    intro n dp hsz h
    cases n with
    | leaf c v =>
      rw [Corresponds] at h ⊢
      obtain ⟨hlo, vb, kk, hw, hread, hslice, hbound⟩ := h
      refine ⟨hlo, vb, kk, hw,
        dnode_read_stable buf buf2 lo dp _ hread hag hlen hlo, ?_, by omega⟩
      rw [slice_stable buf buf2 lo (dp + kk) (enc v).length hag hlen
        (by omega) hbound]
      exact hslice
    | parent c c0 c1 c2 c3 c4 c5 c6 =>
      rw [Corresponds] at h ⊢
      obtain ⟨hlo, cs, hread, h0, h1, h2, h3, h4, h5, h6⟩ := h
      refine ⟨hlo, cs,
        dnode_read_stable buf buf2 lo dp _ hread hag hlen hlo,
        ?_, ?_, ?_, ?_, ?_, ?_, ?_⟩
      · cases c0 with
        | none =>
          rw [CorrespondsO] at h0 ⊢
          exact h0
        | some m =>
          rw [CorrespondsO] at h0 ⊢
          obtain ⟨cp, heq, hcr⟩ := h0
          refine ⟨cp, heq, ih m cp ?_ hcr⟩
          have hlt : m.size <
              (Node.parent c (some m) c1 c2 c3 c4 c5 c6).size :=
            Node.size_childSel
              (show Node.childSel (some m) c1 c2 c3 c4 c5 c6 0 = some m from rfl)
          rw [Node.size_parent] at hsz hlt
          omega
      · cases c1 with
        | none =>
          rw [CorrespondsO] at h1 ⊢
          exact h1
        | some m =>
          rw [CorrespondsO] at h1 ⊢
          obtain ⟨cp, heq, hcr⟩ := h1
          refine ⟨cp, heq, ih m cp ?_ hcr⟩
          have hlt : m.size <
              (Node.parent c c0 (some m) c2 c3 c4 c5 c6).size :=
            Node.size_childSel
              (show Node.childSel c0 (some m) c2 c3 c4 c5 c6 1 = some m from rfl)
          rw [Node.size_parent] at hsz hlt
          omega
      · cases c2 with
        | none =>
          rw [CorrespondsO] at h2 ⊢
          exact h2
        | some m =>
          rw [CorrespondsO] at h2 ⊢
          obtain ⟨cp, heq, hcr⟩ := h2
          refine ⟨cp, heq, ih m cp ?_ hcr⟩
          have hlt : m.size <
              (Node.parent c c0 c1 (some m) c3 c4 c5 c6).size :=
            Node.size_childSel
              (show Node.childSel c0 c1 (some m) c3 c4 c5 c6 2 = some m from rfl)
          rw [Node.size_parent] at hsz hlt
          omega
      · cases c3 with
        | none =>
          rw [CorrespondsO] at h3 ⊢
          exact h3
        | some m =>
          rw [CorrespondsO] at h3 ⊢
          obtain ⟨cp, heq, hcr⟩ := h3
          refine ⟨cp, heq, ih m cp ?_ hcr⟩
          have hlt : m.size <
              (Node.parent c c0 c1 c2 (some m) c4 c5 c6).size :=
            Node.size_childSel
              (show Node.childSel c0 c1 c2 (some m) c4 c5 c6 3 = some m from rfl)
          rw [Node.size_parent] at hsz hlt
          omega
      · cases c4 with
        | none =>
          rw [CorrespondsO] at h4 ⊢
          exact h4
        | some m =>
          rw [CorrespondsO] at h4 ⊢
          obtain ⟨cp, heq, hcr⟩ := h4
          refine ⟨cp, heq, ih m cp ?_ hcr⟩
          have hlt : m.size <
              (Node.parent c c0 c1 c2 c3 (some m) c5 c6).size :=
            Node.size_childSel
              (show Node.childSel c0 c1 c2 c3 (some m) c5 c6 4 = some m from rfl)
          rw [Node.size_parent] at hsz hlt
          omega
      · cases c5 with
        | none =>
          rw [CorrespondsO] at h5 ⊢
          exact h5
        | some m =>
          rw [CorrespondsO] at h5 ⊢
          obtain ⟨cp, heq, hcr⟩ := h5
          refine ⟨cp, heq, ih m cp ?_ hcr⟩
          have hlt : m.size <
              (Node.parent c c0 c1 c2 c3 c4 (some m) c6).size :=
            Node.size_childSel
              (show Node.childSel c0 c1 c2 c3 c4 (some m) c6 5 = some m from rfl)
          rw [Node.size_parent] at hsz hlt
          omega
      · cases c6 with
        | none =>
          rw [CorrespondsO] at h6 ⊢
          exact h6
        | some m =>
          rw [CorrespondsO] at h6 ⊢
          obtain ⟨cp, heq, hcr⟩ := h6
          refine ⟨cp, heq, ih m cp ?_ hcr⟩
          have hlt : m.size <
              (Node.parent c c0 c1 c2 c3 c4 c5 (some m)).size :=
            Node.size_childSel
              (show Node.childSel c0 c1 c2 c3 c4 c5 (some m) 6 = some m from rfl)
          rw [Node.size_parent] at hsz hlt
          omega

end Disk

namespace Disk

/-- `Corresponds` is antitone in the protected lower bound. -/
theorem corresponds_mono (enc : V → List Nat) (buf : List Nat)
    (lo lo2 : Nat) (hlo2 : lo2 ≤ lo) :
    ∀ (k : Nat) (n : Node V) (dp : Nat), n.size ≤ k →
      Corresponds enc buf lo dp n → Corresponds enc buf lo2 dp n := by
  intro k
  induction k with
  | zero =>
    intro n dp hsz h
    have := node_size_pos n
    omega
  | succ k ih =>
    intro n dp hsz h
    cases n with
    | leaf c v =>
      rw [Corresponds] at h ⊢
      obtain ⟨hlo, vb, kk, hw, hread, hslice, hbound⟩ := h
      exact ⟨by omega, vb, kk, hw, hread, hslice, hbound⟩
    | parent c c0 c1 c2 c3 c4 c5 c6 =>
      rw [Corresponds] at h ⊢
      obtain ⟨hlo, cs, hread, h0, h1, h2, h3, h4, h5, h6⟩ := h
      refine ⟨by omega, cs, hread, ?_, ?_, ?_, ?_, ?_, ?_, ?_⟩
      · cases c0 with
        | none =>
          rw [CorrespondsO] at h0 ⊢
          exact h0
        | some m =>
          rw [CorrespondsO] at h0 ⊢
          obtain ⟨cp, heq, hcr⟩ := h0
          refine ⟨cp, heq, ih m cp ?_ hcr⟩
          have hlt : m.size <
              (Node.parent c (some m) c1 c2 c3 c4 c5 c6).size :=
            Node.size_childSel
              (show Node.childSel (some m) c1 c2 c3 c4 c5 c6 0 = some m from rfl)
          rw [Node.size_parent] at hsz hlt
          omega
      · cases c1 with
        | none =>
          rw [CorrespondsO] at h1 ⊢
          exact h1
        | some m =>
          rw [CorrespondsO] at h1 ⊢
          obtain ⟨cp, heq, hcr⟩ := h1
          refine ⟨cp, heq, ih m cp ?_ hcr⟩
          have hlt : m.size <
              (Node.parent c c0 (some m) c2 c3 c4 c5 c6).size :=
            Node.size_childSel
              (show Node.childSel c0 (some m) c2 c3 c4 c5 c6 1 = some m from rfl)
          rw [Node.size_parent] at hsz hlt
          omega
      · cases c2 with
        | none =>
          rw [CorrespondsO] at h2 ⊢
          exact h2
        | some m =>
          rw [CorrespondsO] at h2 ⊢
          obtain ⟨cp, heq, hcr⟩ := h2
          refine ⟨cp, heq, ih m cp ?_ hcr⟩
          have hlt : m.size <
              (Node.parent c c0 c1 (some m) c3 c4 c5 c6).size :=
            Node.size_childSel
              (show Node.childSel c0 c1 (some m) c3 c4 c5 c6 2 = some m from rfl)
          rw [Node.size_parent] at hsz hlt
          omega
      · cases c3 with
        | none =>
          rw [CorrespondsO] at h3 ⊢
          exact h3
        | some m =>
          rw [CorrespondsO] at h3 ⊢
          obtain ⟨cp, heq, hcr⟩ := h3
          refine ⟨cp, heq, ih m cp ?_ hcr⟩
          have hlt : m.size <
              (Node.parent c c0 c1 c2 (some m) c4 c5 c6).size :=
            Node.size_childSel
              (show Node.childSel c0 c1 c2 (some m) c4 c5 c6 3 = some m from rfl)
          rw [Node.size_parent] at hsz hlt
          omega
      · cases c4 with
        | none =>
          rw [CorrespondsO] at h4 ⊢
          exact h4
        | some m =>
          rw [CorrespondsO] at h4 ⊢
          obtain ⟨cp, heq, hcr⟩ := h4
          refine ⟨cp, heq, ih m cp ?_ hcr⟩
          have hlt : m.size <
              (Node.parent c c0 c1 c2 c3 (some m) c5 c6).size :=
            Node.size_childSel
              (show Node.childSel c0 c1 c2 c3 (some m) c5 c6 4 = some m from rfl)
          rw [Node.size_parent] at hsz hlt
          omega
      · cases c5 with
        | none =>
          rw [CorrespondsO] at h5 ⊢
          exact h5
        | some m =>
          rw [CorrespondsO] at h5 ⊢
          obtain ⟨cp, heq, hcr⟩ := h5
          refine ⟨cp, heq, ih m cp ?_ hcr⟩
          have hlt : m.size <
              (Node.parent c c0 c1 c2 c3 c4 (some m) c6).size :=
            Node.size_childSel
              (show Node.childSel c0 c1 c2 c3 c4 (some m) c6 5 = some m from rfl)
          rw [Node.size_parent] at hsz hlt
          omega
      · cases c6 with
        | none =>
          rw [CorrespondsO] at h6 ⊢
          exact h6
        | some m =>
          rw [CorrespondsO] at h6 ⊢
          obtain ⟨cp, heq, hcr⟩ := h6
          refine ⟨cp, heq, ih m cp ?_ hcr⟩
          have hlt : m.size <
              (Node.parent c c0 c1 c2 c3 c4 c5 (some m)).size :=
            Node.size_childSel
              (show Node.childSel c0 c1 c2 c3 c4 c5 (some m) 6 = some m from rfl)
          rw [Node.size_parent] at hsz hlt
          omega

end Disk

namespace Disk

/-- Patching a same-length block in the middle of the stream. -/
theorem wWrite_patch_exact (pre mid post data : List Nat)
    (hlen : mid.length = data.length) :
    wWrite data ⟨pre ++ mid ++ post, pre.length⟩ =
      ⟨pre ++ data ++ post, pre.length + data.length⟩ := by
  simp only [wWrite]
  congr 1
  have htake : (pre ++ mid ++ post).take pre.length = pre := by
    rw [List.append_assoc, List.take_left]
  have hdrop : (pre ++ mid ++ post).drop (pre.length + data.length) = post := by
    rw [show pre.length + data.length = (pre ++ mid).length from by
      rw [List.length_append, hlen], List.drop_left]
  rw [htake, hdrop]

/-- Replacing a same-length block and appending a tail leaves every
byte after the block unchanged. -/
theorem shape_agree (A Z W B T : List Nat) (hZW : W.length = Z.length)
    (p : Nat) (hp : A.length + Z.length ≤ p) :
    (A ++ W ++ B ++ T).get? p = (A ++ Z ++ B).get? p ∨
      (A ++ Z ++ B).length ≤ p := by
  by_cases hplen : p < (A ++ Z ++ B).length
  · left
    simp only [List.get?_eq_getElem?]
    have hAW : (A ++ W).length = A.length + Z.length := by
      rw [List.length_append, hZW]
    have hAZ : (A ++ Z).length = A.length + Z.length := by
      rw [List.length_append]
    have hlen1 : ((A ++ W) ++ B).length = (A ++ Z ++ B).length := by
      simp only [List.length_append, hZW]
    rw [List.getElem?_append_left (show p < ((A ++ W) ++ B).length by omega)]
    rw [List.getElem?_append_right (show (A ++ W).length ≤ p by omega)]
    rw [List.getElem?_append_right (show (A ++ Z).length ≤ p by omega)]
    rw [hAW, hAZ]
  · right
    omega

/-- A buffer extending another one with agreement below the old length
is that buffer plus its new tail. -/
theorem append_drop_of_agree (b1 b2 : List Nat)
    (hlen : b1.length ≤ b2.length)
    (hag : ∀ i, i < b1.length → b2.get? i = b1.get? i) :
    b2 = b1 ++ b2.drop b1.length := by
  apply List.ext_getElem?
  intro i
  by_cases hi : i < b1.length
  · rw [List.getElem?_append_left hi]
    have := hag i hi
    rw [List.get?_eq_getElem?, List.get?_eq_getElem?] at this
    exact this
  · rw [List.getElem?_append_right (by omega), List.getElem?_drop]
    congr 1
    omega

/-- Inversion of one placeholder step from an at-end state. -/
theorem placeholder_ok_end (oc : Option (Node V)) (bs : List Nat)
    (fx : Option Nat) (st : WS)
    (h : placeholder oc ⟨bs, bs.length⟩ = .ok (fx, st)) :
    fx = (if oc.isSome then some bs.length else none) ∧
    st = ⟨bs ++ (if oc.isSome then Dp.write 0 else []),
      (bs ++ (if oc.isSome then Dp.write 0 else [])).length⟩ := by
  cases oc with
  | none =>
    rw [placeholder] at h
    simp only [Except.ok.injEq, Prod.mk.injEq] at h
    simp only [Option.isSome_none, Bool.false_eq_true, if_false]
    exact ⟨h.1.symm, by rw [← h.2, List.append_nil]⟩
  | some m =>
    rw [placeholder] at h
    rcases hf : Dp.fromU64 (WS.mk bs bs.length).pos with _ | p
    · rw [hf] at h
      exact absurd h (by simp)
    · rw [hf] at h
      have hpm := fromU64_ok hf
      have hp2 : p = bs.length := hpm.1
      subst hp2
      simp only [Except.ok.injEq, Prod.mk.injEq] at h
      simp only [Option.isSome_some, if_true]
      refine ⟨h.1.symm, ?_⟩
      rw [← h.2, wWrite_append]
      congr 1
      rw [List.length_append]

end Disk

namespace Disk

/-- Inversion of one fixup-loop entry, uniform in the child's
presence: the placeholder block is replaced by the child's pointer (or
left empty), a tail of child records is appended, and a present child's
subtree corresponds at its pointer. -/
theorem wChild_spec_step (enc : V → List Nat) (oc : Option (Node V))
    (fx : Option Nat) (scur snext : WS)
    (hw : wChild enc oc fx scur = .ok snext)
    (SPEC : ∀ (m : Node V) (np1 : Nat) (s1' : WS), oc = some m →
      write_node enc m scur = .ok (np1, s1') →
      np1 = scur.bytes.length ∧ np1 < 2 ^ 40 ∧
      scur.bytes.length < s1'.bytes.length ∧
      (∀ i, i < scur.bytes.length → s1'.bytes.get? i = scur.bytes.get? i) ∧
      Corresponds enc s1'.bytes scur.bytes.length np1 m)
    (A Z B : List Nat) (hshape : scur.bytes = A ++ Z ++ B)
    (hZ : Z.length = if oc.isSome then 5 else 0)
    (hfx : fx = if oc.isSome then some A.length else none) :
    ∃ (o : Option Nat) (T : List Nat),
      o.isSome = oc.isSome ∧
      snext.bytes = A ++ (o.elim [] Dp.write) ++ B ++ T ∧
      (o.elim [] Dp.write).length = Z.length ∧
      (∀ m, oc = some m → ∃ cp, o = some cp ∧ cp < 2 ^ 40 ∧
        Corresponds enc snext.bytes scur.bytes.length cp m) := by
  cases oc with
  | none =>
    rw [wChild] at hw
    simp only [Except.ok.injEq] at hw
    have hZ0 : Z = [] := List.eq_nil_of_length_eq_zero (by simpa using hZ)
    refine ⟨none, [], rfl, ?_, ?_, ?_⟩
    · rw [← hw, hshape, hZ0]
      simp
    · rw [hZ0]
      rfl
    · intro m hm
      exact absurd hm (by simp)
  | some m =>
    rw [wChild] at hw
    rcases hww : write_node enc m scur with e | pr
    · rw [hww] at hw
      exact absurd hw (by simp)
    · obtain ⟨cp, sw⟩ := pr
      rw [hww] at hw
      simp only [Except.ok.injEq] at hw
      obtain ⟨hcp, hcpmax, hgrow, hpres, hcor⟩ := SPEC m cp sw rfl hww
      simp only [Option.isSome_some, if_true] at hfx hZ
      subst hfx
      rw [show (some A.length).getD 0 = A.length from rfl] at hw
      obtain ⟨T0, hsw⟩ : ∃ T0, sw.bytes = (A ++ Z ++ B) ++ T0 :=
        ⟨sw.bytes.drop scur.bytes.length, by
          rw [← hshape]
          exact append_drop_of_agree _ _ (by omega) hpres⟩
      have hAZle : A.length + 5 ≤ scur.bytes.length := by
        rw [hshape]
        simp only [List.length_append]
        omega
      have h5 := dp_write_length cp
      have hswlen : scur.bytes.length ≤ sw.bytes.length := by omega
      have hpatch : wWrite (Dp.write cp) ⟨sw.bytes, A.length⟩ =
          ⟨A ++ Dp.write cp ++ (B ++ T0), A.length + 5⟩ := by
        rw [hsw, show (A ++ Z ++ B) ++ T0 = A ++ Z ++ (B ++ T0) from by
          simp [List.append_assoc]]
        rw [wWrite_patch_exact A Z (B ++ T0) (Dp.write cp) (by rw [hZ, h5])]
        rw [h5]
      refine ⟨some cp, T0, rfl, ?_, ?_, ?_⟩
      · rw [← hw, hpatch]
        show A ++ Dp.write cp ++ (B ++ T0) =
          A ++ (some cp).elim [] Dp.write ++ B ++ T0
        simp [List.append_assoc]
      · show ((some cp).elim [] Dp.write).length = Z.length
        rw [hZ]
        exact h5
      · intro m2 hm2
        have hm3 : m2 = m := by
          injection hm2 with hv
          exact hv.symm
        subst hm3
        refine ⟨cp, rfl, hcpmax, ?_⟩
        rw [← hw]
        refine corresponds_stable enc sw.bytes _ scur.bytes.length ?_ ?_
          m2.size m2 cp le_rfl hcor
        · intro i hi1 hi2
          rw [wWrite_patch_get (Dp.write cp) sw.bytes A.length i (by omega)]
          rw [if_neg (by omega), if_neg (by omega)]
        · rw [show (wWrite (Dp.write cp) ⟨sw.bytes, A.length⟩).bytes.length =
            sw.bytes.length from wWrite_patch_length _ _ _ (by omega)]

end Disk

namespace Disk

/-- Writing at the end of the stream appends (at-end form). -/
theorem wWrite_append_end (data bs : List Nat) :
    wWrite data ⟨bs, bs.length⟩ = ⟨bs ++ data, (bs ++ data).length⟩ := by
  rw [wWrite_append]
  congr 1
  rw [List.length_append]

theorem take_append_big (l1 l2 : List Nat) (n : Nat) (h : l1.length ≤ n) :
    (l1 ++ l2).take n = l1 ++ l2.take (n - l1.length) := by
  rw [List.take_append_eq_append_take, List.take_of_length_le h]

/-- A byte below `0x80` fails the parent-tag discriminator. -/
theorem low_byte_tag (b : Nat) (hb : b < 0x80) : (b &&& 0x80 == 0) = true := by
  have hz : b &&& 0x80 = 0 := by
    apply Nat.eq_of_testBit_eq
    intro j
    rw [Nat.testBit_and, Nat.zero_testBit]
    by_cases hj : j = 7
    · subst hj
      rw [Nat.testBit_lt_two_pow hb]
      rfl
    · rw [show (0x80 : Nat) = 2 ^ 7 from rfl,
        Nat.testBit_two_pow_of_ne (Ne.symm hj), Bool.and_false]
  rw [hz]
  rfl

end Disk

namespace Disk

set_option maxHeartbeats 1000000 in
theorem write_node_spec (enc : V → List Nat)
    (henc : ∀ v, (enc v).length < 2 ^ 27) :
    ∀ (k : Nat) (n : Node V) (s : WS) (np : Nat) (s2 : WS), n.size ≤ k →
      write_node enc n s = .ok (np, s2) →
      np = s.bytes.length ∧ np < 2 ^ 40 ∧
      s.bytes.length < s2.bytes.length ∧
      (∀ i, i < s.bytes.length → s2.bytes.get? i = s.bytes.get? i) ∧
      Corresponds enc s2.bytes s.bytes.length np n := by
  intro k
  induction k with
  | zero =>
    intro n s np s2 hsz h
    have := node_size_pos n
    omega
  | succ k ih =>
    intro n s np s2 hsz h
    cases n with
    | leaf c v =>
      rw [write_node] at h
      rcases hf : Dp.fromU64 s.bytes.length with _ | np0
      · rw [hf] at h
        exact absurd h (by simp)
      · rw [hf] at h
        obtain ⟨hnp0, hmax⟩ := fromU64_ok hf
        subst hnp0
        rw [Nat.mod_eq_of_lt (show (enc v).length < 2 ^ 32 from by
          have := henc v
          omega)] at h
        rcases hv : Varint.write (enc v).length with e | pr
        · rw [hv] at h
          exact absurd h (by simp)
        · obtain ⟨vb, kk⟩ := pr
          rw [hv] at h
          simp only [Except.ok.injEq, Prod.mk.injEq] at h
          obtain ⟨hnp, hs2⟩ := h
          obtain ⟨hvlen, hk4, hread, b0, btl, hvb, hb0⟩ :=
            varint_emit _ vb kk hv
          have hbytes : s2.bytes = s.bytes ++ vb ++ enc v := by
            rw [← hs2, wWrite_append_end, wWrite_append_end]
          have hL : (s.bytes ++ vb).length = s.bytes.length + kk := by
            rw [List.length_append, hvlen]
          refine ⟨hnp.symm, by omega, ?_, ?_, ?_⟩
          · rw [hbytes]
            simp only [List.length_append]
            rw [hvb]
            simp only [List.length_cons]
            omega
          · intro i hi
            rw [hbytes, List.get?_eq_getElem?, List.get?_eq_getElem?,
              List.getElem?_append_left (by
                simp only [List.length_append]
                omega),
              List.getElem?_append_left hi]
          · subst hnp
            rw [Corresponds]
            refine ⟨le_rfl, vb, kk, hv, ?_, ?_, ?_⟩
            · rw [DNode.read]
              have hdrop : (s2.bytes.drop s.bytes.length) = vb ++ enc v := by
                rw [hbytes, show s.bytes ++ vb ++ enc v =
                  s.bytes ++ (vb ++ enc v) from by simp [List.append_assoc],
                  List.drop_left]
              rw [hdrop, take_append_big vb (enc v) NODE_BUF_SZ (by
                rw [hvlen, NODE_BUF_SZ]
                omega)]
              have hread2 : Varint.read
                  (vb ++ (enc v).take (NODE_BUF_SZ - vb.length)) =
                  .ok ((enc v).length, kk) := hread _
              rw [hvb] at hread2 ⊢
              rw [List.cons_append] at hread2 ⊢
              simp only [List.length_cons] at hread2
              simp [low_byte_tag b0 hb0, hread2]
            · rw [hbytes]
              rw [show s.bytes ++ vb ++ enc v = (s.bytes ++ vb) ++ enc v from
                rfl, ← hL, List.drop_left, List.take_length]
            · rw [hbytes]
              simp only [List.length_append]
              omega
    | parent c c0 c1 c2 c3 c4 c5 c6 =>
      rw [write_node] at h
      rcases hf : Dp.fromU64 s.bytes.length with _ | np0
      · rw [hf] at h
        exact absurd h (by simp)
      rw [hf] at h
      obtain ⟨hnp0, hmax⟩ := fromU64_ok hf
      subst hnp0
      dsimp only at h
      rw [wWrite_append_end] at h
      rcases hp0 : placeholder c0 ⟨(s.bytes ++ [0x80]), ((s.bytes ++ [0x80])).length⟩ with e | fs0
      · rw [hp0] at h
        exact absurd h (by simp)
      obtain ⟨fx0, st0⟩ := fs0
      rw [hp0] at h
      obtain ⟨hfx0, hst0⟩ := placeholder_ok_end c0 _ fx0 st0 hp0
      subst hst0
      dsimp only at h
      rcases hp1 : placeholder c1 ⟨((s.bytes ++ [0x80]) ++ (if c0.isSome then Dp.write 0 else ([] : List Nat))), (((s.bytes ++ [0x80]) ++ (if c0.isSome then Dp.write 0 else ([] : List Nat)))).length⟩ with e | fs1
      · rw [hp1] at h
        exact absurd h (by simp)
      obtain ⟨fx1, st1⟩ := fs1
      rw [hp1] at h
      obtain ⟨hfx1, hst1⟩ := placeholder_ok_end c1 _ fx1 st1 hp1
      subst hst1
      dsimp only at h
      rcases hp2 : placeholder c2 ⟨(((s.bytes ++ [0x80]) ++ (if c0.isSome then Dp.write 0 else ([] : List Nat))) ++ (if c1.isSome then Dp.write 0 else ([] : List Nat))), ((((s.bytes ++ [0x80]) ++ (if c0.isSome then Dp.write 0 else ([] : List Nat))) ++ (if c1.isSome then Dp.write 0 else ([] : List Nat)))).length⟩ with e | fs2
      · rw [hp2] at h
        exact absurd h (by simp)
      obtain ⟨fx2, st2⟩ := fs2
      rw [hp2] at h
      obtain ⟨hfx2, hst2⟩ := placeholder_ok_end c2 _ fx2 st2 hp2
      subst hst2
      dsimp only at h
      rcases hp3 : placeholder c3 ⟨((((s.bytes ++ [0x80]) ++ (if c0.isSome then Dp.write 0 else ([] : List Nat))) ++ (if c1.isSome then Dp.write 0 else ([] : List Nat))) ++ (if c2.isSome then Dp.write 0 else ([] : List Nat))), (((((s.bytes ++ [0x80]) ++ (if c0.isSome then Dp.write 0 else ([] : List Nat))) ++ (if c1.isSome then Dp.write 0 else ([] : List Nat))) ++ (if c2.isSome then Dp.write 0 else ([] : List Nat)))).length⟩ with e | fs3
      · rw [hp3] at h
        exact absurd h (by simp)
      obtain ⟨fx3, st3⟩ := fs3
      rw [hp3] at h
      obtain ⟨hfx3, hst3⟩ := placeholder_ok_end c3 _ fx3 st3 hp3
      subst hst3
      dsimp only at h
      rcases hp4 : placeholder c4 ⟨(((((s.bytes ++ [0x80]) ++ (if c0.isSome then Dp.write 0 else ([] : List Nat))) ++ (if c1.isSome then Dp.write 0 else ([] : List Nat))) ++ (if c2.isSome then Dp.write 0 else ([] : List Nat))) ++ (if c3.isSome then Dp.write 0 else ([] : List Nat))), ((((((s.bytes ++ [0x80]) ++ (if c0.isSome then Dp.write 0 else ([] : List Nat))) ++ (if c1.isSome then Dp.write 0 else ([] : List Nat))) ++ (if c2.isSome then Dp.write 0 else ([] : List Nat))) ++ (if c3.isSome then Dp.write 0 else ([] : List Nat)))).length⟩ with e | fs4
      · rw [hp4] at h
        exact absurd h (by simp)
      obtain ⟨fx4, st4⟩ := fs4
      rw [hp4] at h
      obtain ⟨hfx4, hst4⟩ := placeholder_ok_end c4 _ fx4 st4 hp4
      subst hst4
      dsimp only at h
      rcases hp5 : placeholder c5 ⟨((((((s.bytes ++ [0x80]) ++ (if c0.isSome then Dp.write 0 else ([] : List Nat))) ++ (if c1.isSome then Dp.write 0 else ([] : List Nat))) ++ (if c2.isSome then Dp.write 0 else ([] : List Nat))) ++ (if c3.isSome then Dp.write 0 else ([] : List Nat))) ++ (if c4.isSome then Dp.write 0 else ([] : List Nat))), (((((((s.bytes ++ [0x80]) ++ (if c0.isSome then Dp.write 0 else ([] : List Nat))) ++ (if c1.isSome then Dp.write 0 else ([] : List Nat))) ++ (if c2.isSome then Dp.write 0 else ([] : List Nat))) ++ (if c3.isSome then Dp.write 0 else ([] : List Nat))) ++ (if c4.isSome then Dp.write 0 else ([] : List Nat)))).length⟩ with e | fs5
      · rw [hp5] at h
        exact absurd h (by simp)
      obtain ⟨fx5, st5⟩ := fs5
      rw [hp5] at h
      obtain ⟨hfx5, hst5⟩ := placeholder_ok_end c5 _ fx5 st5 hp5
      subst hst5
      dsimp only at h
      rcases hp6 : placeholder c6 ⟨(((((((s.bytes ++ [0x80]) ++ (if c0.isSome then Dp.write 0 else ([] : List Nat))) ++ (if c1.isSome then Dp.write 0 else ([] : List Nat))) ++ (if c2.isSome then Dp.write 0 else ([] : List Nat))) ++ (if c3.isSome then Dp.write 0 else ([] : List Nat))) ++ (if c4.isSome then Dp.write 0 else ([] : List Nat))) ++ (if c5.isSome then Dp.write 0 else ([] : List Nat))), ((((((((s.bytes ++ [0x80]) ++ (if c0.isSome then Dp.write 0 else ([] : List Nat))) ++ (if c1.isSome then Dp.write 0 else ([] : List Nat))) ++ (if c2.isSome then Dp.write 0 else ([] : List Nat))) ++ (if c3.isSome then Dp.write 0 else ([] : List Nat))) ++ (if c4.isSome then Dp.write 0 else ([] : List Nat))) ++ (if c5.isSome then Dp.write 0 else ([] : List Nat)))).length⟩ with e | fs6
      · rw [hp6] at h
        exact absurd h (by simp)
      obtain ⟨fx6, st6⟩ := fs6
      rw [hp6] at h
      obtain ⟨hfx6, hst6⟩ := placeholder_ok_end c6 _ fx6 st6 hp6
      subst hst6
      dsimp only at h
      rw [show ((((((((s.bytes ++ [0x80]) ++ (if c0.isSome then Dp.write 0 else ([] : List Nat))) ++ (if c1.isSome then Dp.write 0 else ([] : List Nat))) ++ (if c2.isSome then Dp.write 0 else ([] : List Nat))) ++ (if c3.isSome then Dp.write 0 else ([] : List Nat))) ++ (if c4.isSome then Dp.write 0 else ([] : List Nat))) ++ (if c5.isSome then Dp.write 0 else ([] : List Nat))) ++ (if c6.isSome then Dp.write 0 else ([] : List Nat))) = s.bytes ++ [0x80] ++ ((if c0.isSome then Dp.write 0 else ([] : List Nat)) ++ ((if c1.isSome then Dp.write 0 else ([] : List Nat)) ++ ((if c2.isSome then Dp.write 0 else ([] : List Nat)) ++ ((if c3.isSome then Dp.write 0 else ([] : List Nat)) ++ ((if c4.isSome then Dp.write 0 else ([] : List Nat)) ++ ((if c5.isSome then Dp.write 0 else ([] : List Nat)) ++ (if c6.isSome then Dp.write 0 else ([] : List Nat)))))))) from by
        simp [List.append_assoc]] at h
      rw [wWrite_patch_exact s.bytes [0x80] ((if c0.isSome then Dp.write 0 else ([] : List Nat)) ++ ((if c1.isSome then Dp.write 0 else ([] : List Nat)) ++ ((if c2.isSome then Dp.write 0 else ([] : List Nat)) ++ ((if c3.isSome then Dp.write 0 else ([] : List Nat)) ++ ((if c4.isSome then Dp.write 0 else ([] : List Nat)) ++ ((if c5.isSome then Dp.write 0 else ([] : List Nat)) ++ (if c6.isSome then Dp.write 0 else ([] : List Nat)))))))) [tagByte [c0.isSome, c1.isSome, c2.isSome, c3.isSome, c4.isSome, c5.isSome, c6.isSome]] rfl] at h
      have hadj0 : ((⟨s.bytes ++ [tagByte [c0.isSome, c1.isSome, c2.isSome, c3.isSome, c4.isSome, c5.isSome, c6.isSome]] ++ ((if c0.isSome then Dp.write 0 else ([] : List Nat)) ++ ((if c1.isSome then Dp.write 0 else ([] : List Nat)) ++ ((if c2.isSome then Dp.write 0 else ([] : List Nat)) ++ ((if c3.isSome then Dp.write 0 else ([] : List Nat)) ++ ((if c4.isSome then Dp.write 0 else ([] : List Nat)) ++ ((if c5.isSome then Dp.write 0 else ([] : List Nat)) ++ (if c6.isSome then Dp.write 0 else ([] : List Nat)))))))), s.bytes.length + ([tagByte [c0.isSome, c1.isSome, c2.isSome, c3.isSome, c4.isSome, c5.isSome, c6.isSome]] : List Nat).length⟩ : WS)).bytes = (s.bytes ++ [tagByte [c0.isSome, c1.isSome, c2.isSome, c3.isSome, c4.isSome, c5.isSome, c6.isSome]]) ++ (if c0.isSome then Dp.write 0 else ([] : List Nat)) ++ ((if c1.isSome then Dp.write 0 else ([] : List Nat)) ++ ((if c2.isSome then Dp.write 0 else ([] : List Nat)) ++ ((if c3.isSome then Dp.write 0 else ([] : List Nat)) ++ ((if c4.isSome then Dp.write 0 else ([] : List Nat)) ++ ((if c5.isSome then Dp.write 0 else ([] : List Nat)) ++ (if c6.isSome then Dp.write 0 else ([] : List Nat))))))) := by
        simp [List.append_assoc]
      rcases hw0 : wChild enc c0 fx0 (⟨s.bytes ++ [tagByte [c0.isSome, c1.isSome, c2.isSome, c3.isSome, c4.isSome, c5.isSome, c6.isSome]] ++ ((if c0.isSome then Dp.write 0 else ([] : List Nat)) ++ ((if c1.isSome then Dp.write 0 else ([] : List Nat)) ++ ((if c2.isSome then Dp.write 0 else ([] : List Nat)) ++ ((if c3.isSome then Dp.write 0 else ([] : List Nat)) ++ ((if c4.isSome then Dp.write 0 else ([] : List Nat)) ++ ((if c5.isSome then Dp.write 0 else ([] : List Nat)) ++ (if c6.isSome then Dp.write 0 else ([] : List Nat)))))))), s.bytes.length + ([tagByte [c0.isSome, c1.isSome, c2.isSome, c3.isSome, c4.isSome, c5.isSome, c6.isSome]] : List Nat).length⟩ : WS) with e | snx0
      · rw [hw0] at h
        exact absurd h (by simp)
      rw [hw0] at h
      dsimp only at h
      obtain ⟨o0, T0, hos0, hsh0, holen0, hcors0⟩ :=
        wChild_spec_step enc c0 fx0 (⟨s.bytes ++ [tagByte [c0.isSome, c1.isSome, c2.isSome, c3.isSome, c4.isSome, c5.isSome, c6.isSome]] ++ ((if c0.isSome then Dp.write 0 else ([] : List Nat)) ++ ((if c1.isSome then Dp.write 0 else ([] : List Nat)) ++ ((if c2.isSome then Dp.write 0 else ([] : List Nat)) ++ ((if c3.isSome then Dp.write 0 else ([] : List Nat)) ++ ((if c4.isSome then Dp.write 0 else ([] : List Nat)) ++ ((if c5.isSome then Dp.write 0 else ([] : List Nat)) ++ (if c6.isSome then Dp.write 0 else ([] : List Nat)))))))), s.bytes.length + ([tagByte [c0.isSome, c1.isSome, c2.isSome, c3.isSome, c4.isSome, c5.isSome, c6.isSome]] : List Nat).length⟩ : WS) snx0 hw0
          (fun m np1 s1' hoc hww => ih m (⟨s.bytes ++ [tagByte [c0.isSome, c1.isSome, c2.isSome, c3.isSome, c4.isSome, c5.isSome, c6.isSome]] ++ ((if c0.isSome then Dp.write 0 else ([] : List Nat)) ++ ((if c1.isSome then Dp.write 0 else ([] : List Nat)) ++ ((if c2.isSome then Dp.write 0 else ([] : List Nat)) ++ ((if c3.isSome then Dp.write 0 else ([] : List Nat)) ++ ((if c4.isSome then Dp.write 0 else ([] : List Nat)) ++ ((if c5.isSome then Dp.write 0 else ([] : List Nat)) ++ (if c6.isSome then Dp.write 0 else ([] : List Nat)))))))), s.bytes.length + ([tagByte [c0.isSome, c1.isSome, c2.isSome, c3.isSome, c4.isSome, c5.isSome, c6.isSome]] : List Nat).length⟩ : WS) np1 s1'
            (by
              have hlt : m.size < (Node.parent c c0 c1 c2 c3 c4 c5 c6).size :=
                Node.size_childSel (show Node.childSel c0 c1 c2 c3 c4 c5 c6 0 = some m from by
                  rw [hoc]; rfl)
              rw [Node.size_parent] at hsz hlt
              omega) hww)
          (s.bytes ++ [tagByte [c0.isSome, c1.isSome, c2.isSome, c3.isSome, c4.isSome, c5.isSome, c6.isSome]]) (if c0.isSome then Dp.write 0 else ([] : List Nat)) ((if c1.isSome then Dp.write 0 else ([] : List Nat)) ++ ((if c2.isSome then Dp.write 0 else ([] : List Nat)) ++ ((if c3.isSome then Dp.write 0 else ([] : List Nat)) ++ ((if c4.isSome then Dp.write 0 else ([] : List Nat)) ++ ((if c5.isSome then Dp.write 0 else ([] : List Nat)) ++ (if c6.isSome then Dp.write 0 else ([] : List Nat)))))))
          hadj0
          (by cases c0 <;> rfl)
          (by
            rw [hfx0]
            have he : ((s.bytes ++ [0x80]) : List Nat).length = ((s.bytes ++ [tagByte [c0.isSome, c1.isSome, c2.isSome, c3.isSome, c4.isSome, c5.isSome, c6.isSome]]) : List Nat).length := by
              simp only [List.length_append, List.length_cons,
                List.length_nil] <;> omega
            rw [he])
      have hadj1 : (snx0).bytes = ((s.bytes ++ [tagByte [c0.isSome, c1.isSome, c2.isSome, c3.isSome, c4.isSome, c5.isSome, c6.isSome]]) ++ (o0.elim [] Dp.write)) ++ (if c1.isSome then Dp.write 0 else ([] : List Nat)) ++ ((if c2.isSome then Dp.write 0 else ([] : List Nat)) ++ ((if c3.isSome then Dp.write 0 else ([] : List Nat)) ++ ((if c4.isSome then Dp.write 0 else ([] : List Nat)) ++ ((if c5.isSome then Dp.write 0 else ([] : List Nat)) ++ ((if c6.isSome then Dp.write 0 else ([] : List Nat)) ++ T0))))) := by
        rw [hsh0]
        simp [List.append_assoc]
      rcases hw1 : wChild enc c1 fx1 snx0 with e | snx1
      · rw [hw1] at h
        exact absurd h (by simp)
      rw [hw1] at h
      dsimp only at h
      obtain ⟨o1, T1, hos1, hsh1, holen1, hcors1⟩ :=
        wChild_spec_step enc c1 fx1 snx0 snx1 hw1
          (fun m np1 s1' hoc hww => ih m snx0 np1 s1'
            (by
              have hlt : m.size < (Node.parent c c0 c1 c2 c3 c4 c5 c6).size :=
                Node.size_childSel (show Node.childSel c0 c1 c2 c3 c4 c5 c6 1 = some m from by
                  rw [hoc]; rfl)
              rw [Node.size_parent] at hsz hlt
              omega) hww)
          ((s.bytes ++ [tagByte [c0.isSome, c1.isSome, c2.isSome, c3.isSome, c4.isSome, c5.isSome, c6.isSome]]) ++ (o0.elim [] Dp.write)) (if c1.isSome then Dp.write 0 else ([] : List Nat)) ((if c2.isSome then Dp.write 0 else ([] : List Nat)) ++ ((if c3.isSome then Dp.write 0 else ([] : List Nat)) ++ ((if c4.isSome then Dp.write 0 else ([] : List Nat)) ++ ((if c5.isSome then Dp.write 0 else ([] : List Nat)) ++ ((if c6.isSome then Dp.write 0 else ([] : List Nat)) ++ T0)))))
          hadj1
          (by cases c1 <;> rfl)
          (by
            rw [hfx1]
            have he : (((s.bytes ++ [0x80]) ++ (if c0.isSome then Dp.write 0 else ([] : List Nat))) : List Nat).length = (((s.bytes ++ [tagByte [c0.isSome, c1.isSome, c2.isSome, c3.isSome, c4.isSome, c5.isSome, c6.isSome]]) ++ (o0.elim [] Dp.write)) : List Nat).length := by
              simp only [List.length_append, List.length_cons,
                List.length_nil] <;> omega
            rw [he])
      have hadj2 : (snx1).bytes = (((s.bytes ++ [tagByte [c0.isSome, c1.isSome, c2.isSome, c3.isSome, c4.isSome, c5.isSome, c6.isSome]]) ++ (o0.elim [] Dp.write)) ++ (o1.elim [] Dp.write)) ++ (if c2.isSome then Dp.write 0 else ([] : List Nat)) ++ ((if c3.isSome then Dp.write 0 else ([] : List Nat)) ++ ((if c4.isSome then Dp.write 0 else ([] : List Nat)) ++ ((if c5.isSome then Dp.write 0 else ([] : List Nat)) ++ ((if c6.isSome then Dp.write 0 else ([] : List Nat)) ++ (T0 ++ T1))))) := by
        rw [hsh1]
        simp [List.append_assoc]
      rcases hw2 : wChild enc c2 fx2 snx1 with e | snx2
      · rw [hw2] at h
        exact absurd h (by simp)
      rw [hw2] at h
      dsimp only at h
      obtain ⟨o2, T2, hos2, hsh2, holen2, hcors2⟩ :=
        wChild_spec_step enc c2 fx2 snx1 snx2 hw2
          (fun m np1 s1' hoc hww => ih m snx1 np1 s1'
            (by
              have hlt : m.size < (Node.parent c c0 c1 c2 c3 c4 c5 c6).size :=
                Node.size_childSel (show Node.childSel c0 c1 c2 c3 c4 c5 c6 2 = some m from by
                  rw [hoc]; rfl)
              rw [Node.size_parent] at hsz hlt
              omega) hww)
          (((s.bytes ++ [tagByte [c0.isSome, c1.isSome, c2.isSome, c3.isSome, c4.isSome, c5.isSome, c6.isSome]]) ++ (o0.elim [] Dp.write)) ++ (o1.elim [] Dp.write)) (if c2.isSome then Dp.write 0 else ([] : List Nat)) ((if c3.isSome then Dp.write 0 else ([] : List Nat)) ++ ((if c4.isSome then Dp.write 0 else ([] : List Nat)) ++ ((if c5.isSome then Dp.write 0 else ([] : List Nat)) ++ ((if c6.isSome then Dp.write 0 else ([] : List Nat)) ++ (T0 ++ T1)))))
          hadj2
          (by cases c2 <;> rfl)
          (by
            rw [hfx2]
            have he : ((((s.bytes ++ [0x80]) ++ (if c0.isSome then Dp.write 0 else ([] : List Nat))) ++ (if c1.isSome then Dp.write 0 else ([] : List Nat))) : List Nat).length = ((((s.bytes ++ [tagByte [c0.isSome, c1.isSome, c2.isSome, c3.isSome, c4.isSome, c5.isSome, c6.isSome]]) ++ (o0.elim [] Dp.write)) ++ (o1.elim [] Dp.write)) : List Nat).length := by
              simp only [List.length_append, List.length_cons,
                List.length_nil] <;> omega
            rw [he])
      have hadj3 : (snx2).bytes = ((((s.bytes ++ [tagByte [c0.isSome, c1.isSome, c2.isSome, c3.isSome, c4.isSome, c5.isSome, c6.isSome]]) ++ (o0.elim [] Dp.write)) ++ (o1.elim [] Dp.write)) ++ (o2.elim [] Dp.write)) ++ (if c3.isSome then Dp.write 0 else ([] : List Nat)) ++ ((if c4.isSome then Dp.write 0 else ([] : List Nat)) ++ ((if c5.isSome then Dp.write 0 else ([] : List Nat)) ++ ((if c6.isSome then Dp.write 0 else ([] : List Nat)) ++ (T0 ++ (T1 ++ T2))))) := by
        rw [hsh2]
        simp [List.append_assoc]
      rcases hw3 : wChild enc c3 fx3 snx2 with e | snx3
      · rw [hw3] at h
        exact absurd h (by simp)
      rw [hw3] at h
      dsimp only at h
      obtain ⟨o3, T3, hos3, hsh3, holen3, hcors3⟩ :=
        wChild_spec_step enc c3 fx3 snx2 snx3 hw3
          (fun m np1 s1' hoc hww => ih m snx2 np1 s1'
            (by
              have hlt : m.size < (Node.parent c c0 c1 c2 c3 c4 c5 c6).size :=
                Node.size_childSel (show Node.childSel c0 c1 c2 c3 c4 c5 c6 3 = some m from by
                  rw [hoc]; rfl)
              rw [Node.size_parent] at hsz hlt
              omega) hww)
          ((((s.bytes ++ [tagByte [c0.isSome, c1.isSome, c2.isSome, c3.isSome, c4.isSome, c5.isSome, c6.isSome]]) ++ (o0.elim [] Dp.write)) ++ (o1.elim [] Dp.write)) ++ (o2.elim [] Dp.write)) (if c3.isSome then Dp.write 0 else ([] : List Nat)) ((if c4.isSome then Dp.write 0 else ([] : List Nat)) ++ ((if c5.isSome then Dp.write 0 else ([] : List Nat)) ++ ((if c6.isSome then Dp.write 0 else ([] : List Nat)) ++ (T0 ++ (T1 ++ T2)))))
          hadj3
          (by cases c3 <;> rfl)
          (by
            rw [hfx3]
            have he : (((((s.bytes ++ [0x80]) ++ (if c0.isSome then Dp.write 0 else ([] : List Nat))) ++ (if c1.isSome then Dp.write 0 else ([] : List Nat))) ++ (if c2.isSome then Dp.write 0 else ([] : List Nat))) : List Nat).length = (((((s.bytes ++ [tagByte [c0.isSome, c1.isSome, c2.isSome, c3.isSome, c4.isSome, c5.isSome, c6.isSome]]) ++ (o0.elim [] Dp.write)) ++ (o1.elim [] Dp.write)) ++ (o2.elim [] Dp.write)) : List Nat).length := by
              simp only [List.length_append, List.length_cons,
                List.length_nil] <;> omega
            rw [he])
      have hadj4 : (snx3).bytes = (((((s.bytes ++ [tagByte [c0.isSome, c1.isSome, c2.isSome, c3.isSome, c4.isSome, c5.isSome, c6.isSome]]) ++ (o0.elim [] Dp.write)) ++ (o1.elim [] Dp.write)) ++ (o2.elim [] Dp.write)) ++ (o3.elim [] Dp.write)) ++ (if c4.isSome then Dp.write 0 else ([] : List Nat)) ++ ((if c5.isSome then Dp.write 0 else ([] : List Nat)) ++ ((if c6.isSome then Dp.write 0 else ([] : List Nat)) ++ (T0 ++ (T1 ++ (T2 ++ T3))))) := by
        rw [hsh3]
        simp [List.append_assoc]
      rcases hw4 : wChild enc c4 fx4 snx3 with e | snx4
      · rw [hw4] at h
        exact absurd h (by simp)
      rw [hw4] at h
      dsimp only at h
      obtain ⟨o4, T4, hos4, hsh4, holen4, hcors4⟩ :=
        wChild_spec_step enc c4 fx4 snx3 snx4 hw4
          (fun m np1 s1' hoc hww => ih m snx3 np1 s1'
            (by
              have hlt : m.size < (Node.parent c c0 c1 c2 c3 c4 c5 c6).size :=
                Node.size_childSel (show Node.childSel c0 c1 c2 c3 c4 c5 c6 4 = some m from by
                  rw [hoc]; rfl)
              rw [Node.size_parent] at hsz hlt
              omega) hww)
          (((((s.bytes ++ [tagByte [c0.isSome, c1.isSome, c2.isSome, c3.isSome, c4.isSome, c5.isSome, c6.isSome]]) ++ (o0.elim [] Dp.write)) ++ (o1.elim [] Dp.write)) ++ (o2.elim [] Dp.write)) ++ (o3.elim [] Dp.write)) (if c4.isSome then Dp.write 0 else ([] : List Nat)) ((if c5.isSome then Dp.write 0 else ([] : List Nat)) ++ ((if c6.isSome then Dp.write 0 else ([] : List Nat)) ++ (T0 ++ (T1 ++ (T2 ++ T3)))))
          hadj4
          (by cases c4 <;> rfl)
          (by
            rw [hfx4]
            have he : ((((((s.bytes ++ [0x80]) ++ (if c0.isSome then Dp.write 0 else ([] : List Nat))) ++ (if c1.isSome then Dp.write 0 else ([] : List Nat))) ++ (if c2.isSome then Dp.write 0 else ([] : List Nat))) ++ (if c3.isSome then Dp.write 0 else ([] : List Nat))) : List Nat).length = ((((((s.bytes ++ [tagByte [c0.isSome, c1.isSome, c2.isSome, c3.isSome, c4.isSome, c5.isSome, c6.isSome]]) ++ (o0.elim [] Dp.write)) ++ (o1.elim [] Dp.write)) ++ (o2.elim [] Dp.write)) ++ (o3.elim [] Dp.write)) : List Nat).length := by
              simp only [List.length_append, List.length_cons,
                List.length_nil] <;> omega
            rw [he])
      have hadj5 : (snx4).bytes = ((((((s.bytes ++ [tagByte [c0.isSome, c1.isSome, c2.isSome, c3.isSome, c4.isSome, c5.isSome, c6.isSome]]) ++ (o0.elim [] Dp.write)) ++ (o1.elim [] Dp.write)) ++ (o2.elim [] Dp.write)) ++ (o3.elim [] Dp.write)) ++ (o4.elim [] Dp.write)) ++ (if c5.isSome then Dp.write 0 else ([] : List Nat)) ++ ((if c6.isSome then Dp.write 0 else ([] : List Nat)) ++ (T0 ++ (T1 ++ (T2 ++ (T3 ++ T4))))) := by
        rw [hsh4]
        simp [List.append_assoc]
      rcases hw5 : wChild enc c5 fx5 snx4 with e | snx5
      · rw [hw5] at h
        exact absurd h (by simp)
      rw [hw5] at h
      dsimp only at h
      obtain ⟨o5, T5, hos5, hsh5, holen5, hcors5⟩ :=
        wChild_spec_step enc c5 fx5 snx4 snx5 hw5
          (fun m np1 s1' hoc hww => ih m snx4 np1 s1'
            (by
              have hlt : m.size < (Node.parent c c0 c1 c2 c3 c4 c5 c6).size :=
                Node.size_childSel (show Node.childSel c0 c1 c2 c3 c4 c5 c6 5 = some m from by
                  rw [hoc]; rfl)
              rw [Node.size_parent] at hsz hlt
              omega) hww)
          ((((((s.bytes ++ [tagByte [c0.isSome, c1.isSome, c2.isSome, c3.isSome, c4.isSome, c5.isSome, c6.isSome]]) ++ (o0.elim [] Dp.write)) ++ (o1.elim [] Dp.write)) ++ (o2.elim [] Dp.write)) ++ (o3.elim [] Dp.write)) ++ (o4.elim [] Dp.write)) (if c5.isSome then Dp.write 0 else ([] : List Nat)) ((if c6.isSome then Dp.write 0 else ([] : List Nat)) ++ (T0 ++ (T1 ++ (T2 ++ (T3 ++ T4)))))
          hadj5
          (by cases c5 <;> rfl)
          (by
            rw [hfx5]
            have he : (((((((s.bytes ++ [0x80]) ++ (if c0.isSome then Dp.write 0 else ([] : List Nat))) ++ (if c1.isSome then Dp.write 0 else ([] : List Nat))) ++ (if c2.isSome then Dp.write 0 else ([] : List Nat))) ++ (if c3.isSome then Dp.write 0 else ([] : List Nat))) ++ (if c4.isSome then Dp.write 0 else ([] : List Nat))) : List Nat).length = (((((((s.bytes ++ [tagByte [c0.isSome, c1.isSome, c2.isSome, c3.isSome, c4.isSome, c5.isSome, c6.isSome]]) ++ (o0.elim [] Dp.write)) ++ (o1.elim [] Dp.write)) ++ (o2.elim [] Dp.write)) ++ (o3.elim [] Dp.write)) ++ (o4.elim [] Dp.write)) : List Nat).length := by
              simp only [List.length_append, List.length_cons,
                List.length_nil] <;> omega
            rw [he])
      have hadj6 : (snx5).bytes = (((((((s.bytes ++ [tagByte [c0.isSome, c1.isSome, c2.isSome, c3.isSome, c4.isSome, c5.isSome, c6.isSome]]) ++ (o0.elim [] Dp.write)) ++ (o1.elim [] Dp.write)) ++ (o2.elim [] Dp.write)) ++ (o3.elim [] Dp.write)) ++ (o4.elim [] Dp.write)) ++ (o5.elim [] Dp.write)) ++ (if c6.isSome then Dp.write 0 else ([] : List Nat)) ++ (T0 ++ (T1 ++ (T2 ++ (T3 ++ (T4 ++ T5))))) := by
        rw [hsh5]
        simp [List.append_assoc]
      rcases hw6 : wChild enc c6 fx6 snx5 with e | snx6
      · rw [hw6] at h
        exact absurd h (by simp)
      rw [hw6] at h
      dsimp only at h
      obtain ⟨o6, T6, hos6, hsh6, holen6, hcors6⟩ :=
        wChild_spec_step enc c6 fx6 snx5 snx6 hw6
          (fun m np1 s1' hoc hww => ih m snx5 np1 s1'
            (by
              have hlt : m.size < (Node.parent c c0 c1 c2 c3 c4 c5 c6).size :=
                Node.size_childSel (show Node.childSel c0 c1 c2 c3 c4 c5 c6 6 = some m from by
                  rw [hoc]; rfl)
              rw [Node.size_parent] at hsz hlt
              omega) hww)
          (((((((s.bytes ++ [tagByte [c0.isSome, c1.isSome, c2.isSome, c3.isSome, c4.isSome, c5.isSome, c6.isSome]]) ++ (o0.elim [] Dp.write)) ++ (o1.elim [] Dp.write)) ++ (o2.elim [] Dp.write)) ++ (o3.elim [] Dp.write)) ++ (o4.elim [] Dp.write)) ++ (o5.elim [] Dp.write)) (if c6.isSome then Dp.write 0 else ([] : List Nat)) (T0 ++ (T1 ++ (T2 ++ (T3 ++ (T4 ++ T5)))))
          hadj6
          (by cases c6 <;> rfl)
          (by
            rw [hfx6]
            have he : ((((((((s.bytes ++ [0x80]) ++ (if c0.isSome then Dp.write 0 else ([] : List Nat))) ++ (if c1.isSome then Dp.write 0 else ([] : List Nat))) ++ (if c2.isSome then Dp.write 0 else ([] : List Nat))) ++ (if c3.isSome then Dp.write 0 else ([] : List Nat))) ++ (if c4.isSome then Dp.write 0 else ([] : List Nat))) ++ (if c5.isSome then Dp.write 0 else ([] : List Nat))) : List Nat).length = ((((((((s.bytes ++ [tagByte [c0.isSome, c1.isSome, c2.isSome, c3.isSome, c4.isSome, c5.isSome, c6.isSome]]) ++ (o0.elim [] Dp.write)) ++ (o1.elim [] Dp.write)) ++ (o2.elim [] Dp.write)) ++ (o3.elim [] Dp.write)) ++ (o4.elim [] Dp.write)) ++ (o5.elim [] Dp.write)) : List Nat).length := by
              simp only [List.length_append, List.length_cons,
                List.length_nil] <;> omega
            rw [he])
      simp only [Except.ok.injEq, Prod.mk.injEq] at h
      obtain ⟨hnp, hs2eq⟩ := h
      subst hs2eq
      have hfin : snx6.bytes = s.bytes ++ (tagByte [c0.isSome, c1.isSome, c2.isSome, c3.isSome, c4.isSome, c5.isSome, c6.isSome] :: ((o0.elim [] Dp.write) ++ ((o1.elim [] Dp.write) ++ ((o2.elim [] Dp.write) ++ ((o3.elim [] Dp.write) ++ ((o4.elim [] Dp.write) ++ ((o5.elim [] Dp.write) ++ ((o6.elim [] Dp.write) ++ (T0 ++ (T1 ++ (T2 ++ (T3 ++ (T4 ++ (T5 ++ T6)))))))))))))) := by
        rw [hsh6]
        simp [List.append_assoc]
      refine ⟨hnp.symm, by omega, ?_, ?_, ?_⟩
      · rw [hfin]
        simp only [List.length_append, List.length_cons]
        omega
      · intro i hi
        rw [hfin, List.get?_eq_getElem?, List.get?_eq_getElem?,
          List.getElem?_append_left hi]
      · rw [← hnp]
        rw [Corresponds]
        refine ⟨le_rfl, [o0, o1, o2, o3, o4, o5, o6], ?_, ?_, ?_, ?_, ?_, ?_, ?_, ?_⟩
        · rw [DNode.read]
          have hdrop : snx6.bytes.drop s.bytes.length = tagByte [c0.isSome, c1.isSome, c2.isSome, c3.isSome, c4.isSome, c5.isSome, c6.isSome] :: ((o0.elim [] Dp.write) ++ ((o1.elim [] Dp.write) ++ ((o2.elim [] Dp.write) ++ ((o3.elim [] Dp.write) ++ ((o4.elim [] Dp.write) ++ ((o5.elim [] Dp.write) ++ ((o6.elim [] Dp.write) ++ (T0 ++ (T1 ++ (T2 ++ (T3 ++ (T4 ++ (T5 ++ T6))))))))))))) := by
            rw [hfin, List.drop_left]
          rw [hdrop]
          rw [show (tagByte [c0.isSome, c1.isSome, c2.isSome, c3.isSome, c4.isSome, c5.isSome, c6.isSome] :: ((o0.elim [] Dp.write) ++ ((o1.elim [] Dp.write) ++ ((o2.elim [] Dp.write) ++ ((o3.elim [] Dp.write) ++ ((o4.elim [] Dp.write) ++ ((o5.elim [] Dp.write) ++ ((o6.elim [] Dp.write) ++ (T0 ++ (T1 ++ (T2 ++ (T3 ++ (T4 ++ (T5 ++ T6)))))))))))))).take NODE_BUF_SZ =
            tagByte [c0.isSome, c1.isSome, c2.isSome, c3.isSome, c4.isSome, c5.isSome, c6.isSome] :: (((o0.elim [] Dp.write) ++ ((o1.elim [] Dp.write) ++ ((o2.elim [] Dp.write) ++ ((o3.elim [] Dp.write) ++ ((o4.elim [] Dp.write) ++ ((o5.elim [] Dp.write) ++ ((o6.elim [] Dp.write) ++ (T0 ++ (T1 ++ (T2 ++ (T3 ++ (T4 ++ (T5 ++ T6)))))))))))))).take 35 from rfl]
          dsimp only
          rw [if_neg (by
            rw [tagByte_sentinel c0.isSome c1.isSome c2.isSome c3.isSome
              c4.isSome c5.isSome c6.isSome]
            exact Bool.false_ne_true)]
          have hwlen0 : ((o0.elim [] Dp.write) : List Nat).length ≤ 5 := by
            rw [holen0]
            cases c0 <;> simp [dp_write_length]
          have hwlen1 : ((o1.elim [] Dp.write) : List Nat).length ≤ 5 := by
            rw [holen1]
            cases c1 <;> simp [dp_write_length]
          have hwlen2 : ((o2.elim [] Dp.write) : List Nat).length ≤ 5 := by
            rw [holen2]
            cases c2 <;> simp [dp_write_length]
          have hwlen3 : ((o3.elim [] Dp.write) : List Nat).length ≤ 5 := by
            rw [holen3]
            cases c3 <;> simp [dp_write_length]
          have hwlen4 : ((o4.elim [] Dp.write) : List Nat).length ≤ 5 := by
            rw [holen4]
            cases c4 <;> simp [dp_write_length]
          have hwlen5 : ((o5.elim [] Dp.write) : List Nat).length ≤ 5 := by
            rw [holen5]
            cases c5 <;> simp [dp_write_length]
          have hwlen6 : ((o6.elim [] Dp.write) : List Nat).length ≤ 5 := by
            rw [holen6]
            cases c6 <;> simp [dp_write_length]
          rw [take_append_big (o0.elim [] Dp.write) _ (35) (by omega)]
          rw [take_append_big (o1.elim [] Dp.write) _ (35 - ((o0.elim [] Dp.write)).length) (by omega)]
          rw [take_append_big (o2.elim [] Dp.write) _ (35 - ((o0.elim [] Dp.write)).length - ((o1.elim [] Dp.write)).length) (by omega)]
          rw [take_append_big (o3.elim [] Dp.write) _ (35 - ((o0.elim [] Dp.write)).length - ((o1.elim [] Dp.write)).length - ((o2.elim [] Dp.write)).length) (by omega)]
          rw [take_append_big (o4.elim [] Dp.write) _ (35 - ((o0.elim [] Dp.write)).length - ((o1.elim [] Dp.write)).length - ((o2.elim [] Dp.write)).length - ((o3.elim [] Dp.write)).length) (by omega)]
          rw [take_append_big (o5.elim [] Dp.write) _ (35 - ((o0.elim [] Dp.write)).length - ((o1.elim [] Dp.write)).length - ((o2.elim [] Dp.write)).length - ((o3.elim [] Dp.write)).length - ((o4.elim [] Dp.write)).length) (by omega)]
          rw [take_append_big (o6.elim [] Dp.write) _ (35 - ((o0.elim [] Dp.write)).length - ((o1.elim [] Dp.write)).length - ((o2.elim [] Dp.write)).length - ((o3.elim [] Dp.write)).length - ((o4.elim [] Dp.write)).length - ((o5.elim [] Dp.write)).length) (by omega)]
          have hbit0 : (tagByte [c0.isSome, c1.isSome, c2.isSome, c3.isSome, c4.isSome, c5.isSome, c6.isSome] &&& (1 <<< 0) != 0) = o0.isSome := by
            rw [hos0]
            exact (tagByte_test c0.isSome c1.isSome c2.isSome c3.isSome
              c4.isSome c5.isSome c6.isSome).1
          have hcp0 : ∀ cp, o0 = some cp → cp < 2 ^ 40 := by
            intro cp hcpx
            have hsome : c0.isSome = true := by rw [← hos0, hcpx]; rfl
            obtain ⟨m, hm⟩ := Option.isSome_iff_exists.mp hsome
            obtain ⟨cp2, hcp2, hmax2, hcw2⟩ := hcors0 m hm
            rw [hcpx] at hcp2
            injection hcp2 with he
            rw [he]
            exact hmax2
          have hbit1 : (tagByte [c0.isSome, c1.isSome, c2.isSome, c3.isSome, c4.isSome, c5.isSome, c6.isSome] &&& (1 <<< 1) != 0) = o1.isSome := by
            rw [hos1]
            exact (tagByte_test c0.isSome c1.isSome c2.isSome c3.isSome
              c4.isSome c5.isSome c6.isSome).2.1
          have hcp1 : ∀ cp, o1 = some cp → cp < 2 ^ 40 := by
            intro cp hcpx
            have hsome : c1.isSome = true := by rw [← hos1, hcpx]; rfl
            obtain ⟨m, hm⟩ := Option.isSome_iff_exists.mp hsome
            obtain ⟨cp2, hcp2, hmax2, hcw2⟩ := hcors1 m hm
            rw [hcpx] at hcp2
            injection hcp2 with he
            rw [he]
            exact hmax2
          have hbit2 : (tagByte [c0.isSome, c1.isSome, c2.isSome, c3.isSome, c4.isSome, c5.isSome, c6.isSome] &&& (1 <<< 2) != 0) = o2.isSome := by
            rw [hos2]
            exact (tagByte_test c0.isSome c1.isSome c2.isSome c3.isSome
              c4.isSome c5.isSome c6.isSome).2.2.1
          have hcp2 : ∀ cp, o2 = some cp → cp < 2 ^ 40 := by
            intro cp hcpx
            have hsome : c2.isSome = true := by rw [← hos2, hcpx]; rfl
            obtain ⟨m, hm⟩ := Option.isSome_iff_exists.mp hsome
            obtain ⟨cp2, hcp2, hmax2, hcw2⟩ := hcors2 m hm
            rw [hcpx] at hcp2
            injection hcp2 with he
            rw [he]
            exact hmax2
          have hbit3 : (tagByte [c0.isSome, c1.isSome, c2.isSome, c3.isSome, c4.isSome, c5.isSome, c6.isSome] &&& (1 <<< 3) != 0) = o3.isSome := by
            rw [hos3]
            exact (tagByte_test c0.isSome c1.isSome c2.isSome c3.isSome
              c4.isSome c5.isSome c6.isSome).2.2.2.1
          have hcp3 : ∀ cp, o3 = some cp → cp < 2 ^ 40 := by
            intro cp hcpx
            have hsome : c3.isSome = true := by rw [← hos3, hcpx]; rfl
            obtain ⟨m, hm⟩ := Option.isSome_iff_exists.mp hsome
            obtain ⟨cp2, hcp2, hmax2, hcw2⟩ := hcors3 m hm
            rw [hcpx] at hcp2
            injection hcp2 with he
            rw [he]
            exact hmax2
          have hbit4 : (tagByte [c0.isSome, c1.isSome, c2.isSome, c3.isSome, c4.isSome, c5.isSome, c6.isSome] &&& (1 <<< 4) != 0) = o4.isSome := by
            rw [hos4]
            exact (tagByte_test c0.isSome c1.isSome c2.isSome c3.isSome
              c4.isSome c5.isSome c6.isSome).2.2.2.2.1
          have hcp4 : ∀ cp, o4 = some cp → cp < 2 ^ 40 := by
            intro cp hcpx
            have hsome : c4.isSome = true := by rw [← hos4, hcpx]; rfl
            obtain ⟨m, hm⟩ := Option.isSome_iff_exists.mp hsome
            obtain ⟨cp2, hcp2, hmax2, hcw2⟩ := hcors4 m hm
            rw [hcpx] at hcp2
            injection hcp2 with he
            rw [he]
            exact hmax2
          have hbit5 : (tagByte [c0.isSome, c1.isSome, c2.isSome, c3.isSome, c4.isSome, c5.isSome, c6.isSome] &&& (1 <<< 5) != 0) = o5.isSome := by
            rw [hos5]
            exact (tagByte_test c0.isSome c1.isSome c2.isSome c3.isSome
              c4.isSome c5.isSome c6.isSome).2.2.2.2.2.1
          have hcp5 : ∀ cp, o5 = some cp → cp < 2 ^ 40 := by
            intro cp hcpx
            have hsome : c5.isSome = true := by rw [← hos5, hcpx]; rfl
            obtain ⟨m, hm⟩ := Option.isSome_iff_exists.mp hsome
            obtain ⟨cp2, hcp2, hmax2, hcw2⟩ := hcors5 m hm
            rw [hcpx] at hcp2
            injection hcp2 with he
            rw [he]
            exact hmax2
          have hbit6 : (tagByte [c0.isSome, c1.isSome, c2.isSome, c3.isSome, c4.isSome, c5.isSome, c6.isSome] &&& (1 <<< 6) != 0) = o6.isSome := by
            rw [hos6]
            exact (tagByte_test c0.isSome c1.isSome c2.isSome c3.isSome
              c4.isSome c5.isSome c6.isSome).2.2.2.2.2.2
          have hcp6 : ∀ cp, o6 = some cp → cp < 2 ^ 40 := by
            intro cp hcpx
            have hsome : c6.isSome = true := by rw [← hos6, hcpx]; rfl
            obtain ⟨m, hm⟩ := Option.isSome_iff_exists.mp hsome
            obtain ⟨cp2, hcp2, hmax2, hcw2⟩ := hcors6 m hm
            rw [hcpx] at hcp2
            injection hcp2 with he
            rw [he]
            exact hmax2
          rw [rcf_step (tagByte [c0.isSome, c1.isSome, c2.isSome, c3.isSome, c4.isSome, c5.isSome, c6.isSome]) 0 [1, 2, 3, 4, 5, 6] o0 _ hbit0 hcp0]
          rw [rcf_step (tagByte [c0.isSome, c1.isSome, c2.isSome, c3.isSome, c4.isSome, c5.isSome, c6.isSome]) 1 [2, 3, 4, 5, 6] o1 _ hbit1 hcp1]
          rw [rcf_step (tagByte [c0.isSome, c1.isSome, c2.isSome, c3.isSome, c4.isSome, c5.isSome, c6.isSome]) 2 [3, 4, 5, 6] o2 _ hbit2 hcp2]
          rw [rcf_step (tagByte [c0.isSome, c1.isSome, c2.isSome, c3.isSome, c4.isSome, c5.isSome, c6.isSome]) 3 [4, 5, 6] o3 _ hbit3 hcp3]
          rw [rcf_step (tagByte [c0.isSome, c1.isSome, c2.isSome, c3.isSome, c4.isSome, c5.isSome, c6.isSome]) 4 [5, 6] o4 _ hbit4 hcp4]
          rw [rcf_step (tagByte [c0.isSome, c1.isSome, c2.isSome, c3.isSome, c4.isSome, c5.isSome, c6.isSome]) 5 [6] o5 _ hbit5 hcp5]
          rw [rcf_step (tagByte [c0.isSome, c1.isSome, c2.isSome, c3.isSome, c4.isSome, c5.isSome, c6.isSome]) 6 ([] : List Nat) o6 _ hbit6 hcp6]
          rw [show readChildrenFrom (tagByte [c0.isSome, c1.isSome, c2.isSome, c3.isSome, c4.isSome, c5.isSome, c6.isSome]) ([] : List Nat)
            (((T0 ++ (T1 ++ (T2 ++ (T3 ++ (T4 ++ (T5 ++ T6))))))).take (35 - ((o0.elim [] Dp.write)).length - ((o1.elim [] Dp.write)).length - ((o2.elim [] Dp.write)).length - ((o3.elim [] Dp.write)).length - ((o4.elim [] Dp.write)).length - ((o5.elim [] Dp.write)).length - ((o6.elim [] Dp.write)).length)) = Except.ok ([] : List (Option Nat)) from rfl]
          simp only [Except.map]
        · rw [show (([o0, o1, o2, o3, o4, o5, o6] : List (Option Nat)).get? 0) = some o0 from rfl]
          cases hcd : c0 with
          | none =>
            rw [CorrespondsO]
            have h1 : o0.isSome = false := by simp [hos0, hcd]
            have hnone : o0 = none :=
              Option.not_isSome_iff_eq_none.mp (by simp [h1])
            rw [hnone]
          | some m =>
            rw [CorrespondsO]
            obtain ⟨cp, hcp2, hmax2, hcorr⟩ := hcors0 m hcd
            refine ⟨cp, by rw [hcp2], ?_⟩
            have hcw := hcorr
            have harith1 : (((s.bytes ++ [tagByte [c0.isSome, c1.isSome, c2.isSome, c3.isSome, c4.isSome, c5.isSome, c6.isSome]]) ++ (o0.elim [] Dp.write)) : List Nat).length +
                ((if c1.isSome then Dp.write 0 else ([] : List Nat)) : List Nat).length ≤ ((⟨s.bytes ++ [tagByte [c0.isSome, c1.isSome, c2.isSome, c3.isSome, c4.isSome, c5.isSome, c6.isSome]] ++ ((if c0.isSome then Dp.write 0 else ([] : List Nat)) ++ ((if c1.isSome then Dp.write 0 else ([] : List Nat)) ++ ((if c2.isSome then Dp.write 0 else ([] : List Nat)) ++ ((if c3.isSome then Dp.write 0 else ([] : List Nat)) ++ ((if c4.isSome then Dp.write 0 else ([] : List Nat)) ++ ((if c5.isSome then Dp.write 0 else ([] : List Nat)) ++ (if c6.isSome then Dp.write 0 else ([] : List Nat)))))))), s.bytes.length + ([tagByte [c0.isSome, c1.isSome, c2.isSome, c3.isSome, c4.isSome, c5.isSome, c6.isSome]] : List Nat).length⟩ : WS)).bytes.length := by
              rw [hadj0]
              simp only [List.length_append, List.length_cons,
                List.length_nil] <;> omega
            have hga1 : ∀ p, ((⟨s.bytes ++ [tagByte [c0.isSome, c1.isSome, c2.isSome, c3.isSome, c4.isSome, c5.isSome, c6.isSome]] ++ ((if c0.isSome then Dp.write 0 else ([] : List Nat)) ++ ((if c1.isSome then Dp.write 0 else ([] : List Nat)) ++ ((if c2.isSome then Dp.write 0 else ([] : List Nat)) ++ ((if c3.isSome then Dp.write 0 else ([] : List Nat)) ++ ((if c4.isSome then Dp.write 0 else ([] : List Nat)) ++ ((if c5.isSome then Dp.write 0 else ([] : List Nat)) ++ (if c6.isSome then Dp.write 0 else ([] : List Nat)))))))), s.bytes.length + ([tagByte [c0.isSome, c1.isSome, c2.isSome, c3.isSome, c4.isSome, c5.isSome, c6.isSome]] : List Nat).length⟩ : WS)).bytes.length ≤ p →
                p < snx0.bytes.length →
                snx1.bytes.get? p = snx0.bytes.get? p := by
              intro p hp1 hp2
              have hx := shape_agree ((s.bytes ++ [tagByte [c0.isSome, c1.isSome, c2.isSome, c3.isSome, c4.isSome, c5.isSome, c6.isSome]]) ++ (o0.elim [] Dp.write)) (if c1.isSome then Dp.write 0 else ([] : List Nat)) (o1.elim [] Dp.write) ((if c2.isSome then Dp.write 0 else ([] : List Nat)) ++ ((if c3.isSome then Dp.write 0 else ([] : List Nat)) ++ ((if c4.isSome then Dp.write 0 else ([] : List Nat)) ++ ((if c5.isSome then Dp.write 0 else ([] : List Nat)) ++ ((if c6.isSome then Dp.write 0 else ([] : List Nat)) ++ T0))))) T1
                holen1 p (by omega)
              rcases hx with hx | hx
              · rw [← hsh1, ← hadj1] at hx
                exact hx
              · rw [← hadj1] at hx
                omega
            have hgl1 : snx0.bytes.length ≤ snx1.bytes.length := by
              rw [hsh1, hadj1]
              simp only [List.length_append, List.length_cons,
                List.length_nil] <;> omega
            replace hcw := corresponds_stable enc snx0.bytes snx1.bytes
              (((⟨s.bytes ++ [tagByte [c0.isSome, c1.isSome, c2.isSome, c3.isSome, c4.isSome, c5.isSome, c6.isSome]] ++ ((if c0.isSome then Dp.write 0 else ([] : List Nat)) ++ ((if c1.isSome then Dp.write 0 else ([] : List Nat)) ++ ((if c2.isSome then Dp.write 0 else ([] : List Nat)) ++ ((if c3.isSome then Dp.write 0 else ([] : List Nat)) ++ ((if c4.isSome then Dp.write 0 else ([] : List Nat)) ++ ((if c5.isSome then Dp.write 0 else ([] : List Nat)) ++ (if c6.isSome then Dp.write 0 else ([] : List Nat)))))))), s.bytes.length + ([tagByte [c0.isSome, c1.isSome, c2.isSome, c3.isSome, c4.isSome, c5.isSome, c6.isSome]] : List Nat).length⟩ : WS)).bytes.length) hga1 hgl1 m.size m cp le_rfl hcw
            have harith2 : ((((s.bytes ++ [tagByte [c0.isSome, c1.isSome, c2.isSome, c3.isSome, c4.isSome, c5.isSome, c6.isSome]]) ++ (o0.elim [] Dp.write)) ++ (o1.elim [] Dp.write)) : List Nat).length +
                ((if c2.isSome then Dp.write 0 else ([] : List Nat)) : List Nat).length ≤ ((⟨s.bytes ++ [tagByte [c0.isSome, c1.isSome, c2.isSome, c3.isSome, c4.isSome, c5.isSome, c6.isSome]] ++ ((if c0.isSome then Dp.write 0 else ([] : List Nat)) ++ ((if c1.isSome then Dp.write 0 else ([] : List Nat)) ++ ((if c2.isSome then Dp.write 0 else ([] : List Nat)) ++ ((if c3.isSome then Dp.write 0 else ([] : List Nat)) ++ ((if c4.isSome then Dp.write 0 else ([] : List Nat)) ++ ((if c5.isSome then Dp.write 0 else ([] : List Nat)) ++ (if c6.isSome then Dp.write 0 else ([] : List Nat)))))))), s.bytes.length + ([tagByte [c0.isSome, c1.isSome, c2.isSome, c3.isSome, c4.isSome, c5.isSome, c6.isSome]] : List Nat).length⟩ : WS)).bytes.length := by
              rw [hadj0]
              simp only [List.length_append, List.length_cons,
                List.length_nil] <;> omega
            have hga2 : ∀ p, ((⟨s.bytes ++ [tagByte [c0.isSome, c1.isSome, c2.isSome, c3.isSome, c4.isSome, c5.isSome, c6.isSome]] ++ ((if c0.isSome then Dp.write 0 else ([] : List Nat)) ++ ((if c1.isSome then Dp.write 0 else ([] : List Nat)) ++ ((if c2.isSome then Dp.write 0 else ([] : List Nat)) ++ ((if c3.isSome then Dp.write 0 else ([] : List Nat)) ++ ((if c4.isSome then Dp.write 0 else ([] : List Nat)) ++ ((if c5.isSome then Dp.write 0 else ([] : List Nat)) ++ (if c6.isSome then Dp.write 0 else ([] : List Nat)))))))), s.bytes.length + ([tagByte [c0.isSome, c1.isSome, c2.isSome, c3.isSome, c4.isSome, c5.isSome, c6.isSome]] : List Nat).length⟩ : WS)).bytes.length ≤ p →
                p < snx1.bytes.length →
                snx2.bytes.get? p = snx1.bytes.get? p := by
              intro p hp1 hp2
              have hx := shape_agree (((s.bytes ++ [tagByte [c0.isSome, c1.isSome, c2.isSome, c3.isSome, c4.isSome, c5.isSome, c6.isSome]]) ++ (o0.elim [] Dp.write)) ++ (o1.elim [] Dp.write)) (if c2.isSome then Dp.write 0 else ([] : List Nat)) (o2.elim [] Dp.write) ((if c3.isSome then Dp.write 0 else ([] : List Nat)) ++ ((if c4.isSome then Dp.write 0 else ([] : List Nat)) ++ ((if c5.isSome then Dp.write 0 else ([] : List Nat)) ++ ((if c6.isSome then Dp.write 0 else ([] : List Nat)) ++ (T0 ++ T1))))) T2
                holen2 p (by omega)
              rcases hx with hx | hx
              · rw [← hsh2, ← hadj2] at hx
                exact hx
              · rw [← hadj2] at hx
                omega
            have hgl2 : snx1.bytes.length ≤ snx2.bytes.length := by
              rw [hsh2, hadj2]
              simp only [List.length_append, List.length_cons,
                List.length_nil] <;> omega
            replace hcw := corresponds_stable enc snx1.bytes snx2.bytes
              (((⟨s.bytes ++ [tagByte [c0.isSome, c1.isSome, c2.isSome, c3.isSome, c4.isSome, c5.isSome, c6.isSome]] ++ ((if c0.isSome then Dp.write 0 else ([] : List Nat)) ++ ((if c1.isSome then Dp.write 0 else ([] : List Nat)) ++ ((if c2.isSome then Dp.write 0 else ([] : List Nat)) ++ ((if c3.isSome then Dp.write 0 else ([] : List Nat)) ++ ((if c4.isSome then Dp.write 0 else ([] : List Nat)) ++ ((if c5.isSome then Dp.write 0 else ([] : List Nat)) ++ (if c6.isSome then Dp.write 0 else ([] : List Nat)))))))), s.bytes.length + ([tagByte [c0.isSome, c1.isSome, c2.isSome, c3.isSome, c4.isSome, c5.isSome, c6.isSome]] : List Nat).length⟩ : WS)).bytes.length) hga2 hgl2 m.size m cp le_rfl hcw
            have harith3 : (((((s.bytes ++ [tagByte [c0.isSome, c1.isSome, c2.isSome, c3.isSome, c4.isSome, c5.isSome, c6.isSome]]) ++ (o0.elim [] Dp.write)) ++ (o1.elim [] Dp.write)) ++ (o2.elim [] Dp.write)) : List Nat).length +
                ((if c3.isSome then Dp.write 0 else ([] : List Nat)) : List Nat).length ≤ ((⟨s.bytes ++ [tagByte [c0.isSome, c1.isSome, c2.isSome, c3.isSome, c4.isSome, c5.isSome, c6.isSome]] ++ ((if c0.isSome then Dp.write 0 else ([] : List Nat)) ++ ((if c1.isSome then Dp.write 0 else ([] : List Nat)) ++ ((if c2.isSome then Dp.write 0 else ([] : List Nat)) ++ ((if c3.isSome then Dp.write 0 else ([] : List Nat)) ++ ((if c4.isSome then Dp.write 0 else ([] : List Nat)) ++ ((if c5.isSome then Dp.write 0 else ([] : List Nat)) ++ (if c6.isSome then Dp.write 0 else ([] : List Nat)))))))), s.bytes.length + ([tagByte [c0.isSome, c1.isSome, c2.isSome, c3.isSome, c4.isSome, c5.isSome, c6.isSome]] : List Nat).length⟩ : WS)).bytes.length := by
              rw [hadj0]
              simp only [List.length_append, List.length_cons,
                List.length_nil] <;> omega
            have hga3 : ∀ p, ((⟨s.bytes ++ [tagByte [c0.isSome, c1.isSome, c2.isSome, c3.isSome, c4.isSome, c5.isSome, c6.isSome]] ++ ((if c0.isSome then Dp.write 0 else ([] : List Nat)) ++ ((if c1.isSome then Dp.write 0 else ([] : List Nat)) ++ ((if c2.isSome then Dp.write 0 else ([] : List Nat)) ++ ((if c3.isSome then Dp.write 0 else ([] : List Nat)) ++ ((if c4.isSome then Dp.write 0 else ([] : List Nat)) ++ ((if c5.isSome then Dp.write 0 else ([] : List Nat)) ++ (if c6.isSome then Dp.write 0 else ([] : List Nat)))))))), s.bytes.length + ([tagByte [c0.isSome, c1.isSome, c2.isSome, c3.isSome, c4.isSome, c5.isSome, c6.isSome]] : List Nat).length⟩ : WS)).bytes.length ≤ p →
                p < snx2.bytes.length →
                snx3.bytes.get? p = snx2.bytes.get? p := by
              intro p hp1 hp2
              have hx := shape_agree ((((s.bytes ++ [tagByte [c0.isSome, c1.isSome, c2.isSome, c3.isSome, c4.isSome, c5.isSome, c6.isSome]]) ++ (o0.elim [] Dp.write)) ++ (o1.elim [] Dp.write)) ++ (o2.elim [] Dp.write)) (if c3.isSome then Dp.write 0 else ([] : List Nat)) (o3.elim [] Dp.write) ((if c4.isSome then Dp.write 0 else ([] : List Nat)) ++ ((if c5.isSome then Dp.write 0 else ([] : List Nat)) ++ ((if c6.isSome then Dp.write 0 else ([] : List Nat)) ++ (T0 ++ (T1 ++ T2))))) T3
                holen3 p (by omega)
              rcases hx with hx | hx
              · rw [← hsh3, ← hadj3] at hx
                exact hx
              · rw [← hadj3] at hx
                omega
            have hgl3 : snx2.bytes.length ≤ snx3.bytes.length := by
              rw [hsh3, hadj3]
              simp only [List.length_append, List.length_cons,
                List.length_nil] <;> omega
            replace hcw := corresponds_stable enc snx2.bytes snx3.bytes
              (((⟨s.bytes ++ [tagByte [c0.isSome, c1.isSome, c2.isSome, c3.isSome, c4.isSome, c5.isSome, c6.isSome]] ++ ((if c0.isSome then Dp.write 0 else ([] : List Nat)) ++ ((if c1.isSome then Dp.write 0 else ([] : List Nat)) ++ ((if c2.isSome then Dp.write 0 else ([] : List Nat)) ++ ((if c3.isSome then Dp.write 0 else ([] : List Nat)) ++ ((if c4.isSome then Dp.write 0 else ([] : List Nat)) ++ ((if c5.isSome then Dp.write 0 else ([] : List Nat)) ++ (if c6.isSome then Dp.write 0 else ([] : List Nat)))))))), s.bytes.length + ([tagByte [c0.isSome, c1.isSome, c2.isSome, c3.isSome, c4.isSome, c5.isSome, c6.isSome]] : List Nat).length⟩ : WS)).bytes.length) hga3 hgl3 m.size m cp le_rfl hcw
            have harith4 : ((((((s.bytes ++ [tagByte [c0.isSome, c1.isSome, c2.isSome, c3.isSome, c4.isSome, c5.isSome, c6.isSome]]) ++ (o0.elim [] Dp.write)) ++ (o1.elim [] Dp.write)) ++ (o2.elim [] Dp.write)) ++ (o3.elim [] Dp.write)) : List Nat).length +
                ((if c4.isSome then Dp.write 0 else ([] : List Nat)) : List Nat).length ≤ ((⟨s.bytes ++ [tagByte [c0.isSome, c1.isSome, c2.isSome, c3.isSome, c4.isSome, c5.isSome, c6.isSome]] ++ ((if c0.isSome then Dp.write 0 else ([] : List Nat)) ++ ((if c1.isSome then Dp.write 0 else ([] : List Nat)) ++ ((if c2.isSome then Dp.write 0 else ([] : List Nat)) ++ ((if c3.isSome then Dp.write 0 else ([] : List Nat)) ++ ((if c4.isSome then Dp.write 0 else ([] : List Nat)) ++ ((if c5.isSome then Dp.write 0 else ([] : List Nat)) ++ (if c6.isSome then Dp.write 0 else ([] : List Nat)))))))), s.bytes.length + ([tagByte [c0.isSome, c1.isSome, c2.isSome, c3.isSome, c4.isSome, c5.isSome, c6.isSome]] : List Nat).length⟩ : WS)).bytes.length := by
              rw [hadj0]
              simp only [List.length_append, List.length_cons,
                List.length_nil] <;> omega
            have hga4 : ∀ p, ((⟨s.bytes ++ [tagByte [c0.isSome, c1.isSome, c2.isSome, c3.isSome, c4.isSome, c5.isSome, c6.isSome]] ++ ((if c0.isSome then Dp.write 0 else ([] : List Nat)) ++ ((if c1.isSome then Dp.write 0 else ([] : List Nat)) ++ ((if c2.isSome then Dp.write 0 else ([] : List Nat)) ++ ((if c3.isSome then Dp.write 0 else ([] : List Nat)) ++ ((if c4.isSome then Dp.write 0 else ([] : List Nat)) ++ ((if c5.isSome then Dp.write 0 else ([] : List Nat)) ++ (if c6.isSome then Dp.write 0 else ([] : List Nat)))))))), s.bytes.length + ([tagByte [c0.isSome, c1.isSome, c2.isSome, c3.isSome, c4.isSome, c5.isSome, c6.isSome]] : List Nat).length⟩ : WS)).bytes.length ≤ p →
                p < snx3.bytes.length →
                snx4.bytes.get? p = snx3.bytes.get? p := by
              intro p hp1 hp2
              have hx := shape_agree (((((s.bytes ++ [tagByte [c0.isSome, c1.isSome, c2.isSome, c3.isSome, c4.isSome, c5.isSome, c6.isSome]]) ++ (o0.elim [] Dp.write)) ++ (o1.elim [] Dp.write)) ++ (o2.elim [] Dp.write)) ++ (o3.elim [] Dp.write)) (if c4.isSome then Dp.write 0 else ([] : List Nat)) (o4.elim [] Dp.write) ((if c5.isSome then Dp.write 0 else ([] : List Nat)) ++ ((if c6.isSome then Dp.write 0 else ([] : List Nat)) ++ (T0 ++ (T1 ++ (T2 ++ T3))))) T4
                holen4 p (by omega)
              rcases hx with hx | hx
              · rw [← hsh4, ← hadj4] at hx
                exact hx
              · rw [← hadj4] at hx
                omega
            have hgl4 : snx3.bytes.length ≤ snx4.bytes.length := by
              rw [hsh4, hadj4]
              simp only [List.length_append, List.length_cons,
                List.length_nil] <;> omega
            replace hcw := corresponds_stable enc snx3.bytes snx4.bytes
              (((⟨s.bytes ++ [tagByte [c0.isSome, c1.isSome, c2.isSome, c3.isSome, c4.isSome, c5.isSome, c6.isSome]] ++ ((if c0.isSome then Dp.write 0 else ([] : List Nat)) ++ ((if c1.isSome then Dp.write 0 else ([] : List Nat)) ++ ((if c2.isSome then Dp.write 0 else ([] : List Nat)) ++ ((if c3.isSome then Dp.write 0 else ([] : List Nat)) ++ ((if c4.isSome then Dp.write 0 else ([] : List Nat)) ++ ((if c5.isSome then Dp.write 0 else ([] : List Nat)) ++ (if c6.isSome then Dp.write 0 else ([] : List Nat)))))))), s.bytes.length + ([tagByte [c0.isSome, c1.isSome, c2.isSome, c3.isSome, c4.isSome, c5.isSome, c6.isSome]] : List Nat).length⟩ : WS)).bytes.length) hga4 hgl4 m.size m cp le_rfl hcw
            have harith5 : (((((((s.bytes ++ [tagByte [c0.isSome, c1.isSome, c2.isSome, c3.isSome, c4.isSome, c5.isSome, c6.isSome]]) ++ (o0.elim [] Dp.write)) ++ (o1.elim [] Dp.write)) ++ (o2.elim [] Dp.write)) ++ (o3.elim [] Dp.write)) ++ (o4.elim [] Dp.write)) : List Nat).length +
                ((if c5.isSome then Dp.write 0 else ([] : List Nat)) : List Nat).length ≤ ((⟨s.bytes ++ [tagByte [c0.isSome, c1.isSome, c2.isSome, c3.isSome, c4.isSome, c5.isSome, c6.isSome]] ++ ((if c0.isSome then Dp.write 0 else ([] : List Nat)) ++ ((if c1.isSome then Dp.write 0 else ([] : List Nat)) ++ ((if c2.isSome then Dp.write 0 else ([] : List Nat)) ++ ((if c3.isSome then Dp.write 0 else ([] : List Nat)) ++ ((if c4.isSome then Dp.write 0 else ([] : List Nat)) ++ ((if c5.isSome then Dp.write 0 else ([] : List Nat)) ++ (if c6.isSome then Dp.write 0 else ([] : List Nat)))))))), s.bytes.length + ([tagByte [c0.isSome, c1.isSome, c2.isSome, c3.isSome, c4.isSome, c5.isSome, c6.isSome]] : List Nat).length⟩ : WS)).bytes.length := by
              rw [hadj0]
              simp only [List.length_append, List.length_cons,
                List.length_nil] <;> omega
            have hga5 : ∀ p, ((⟨s.bytes ++ [tagByte [c0.isSome, c1.isSome, c2.isSome, c3.isSome, c4.isSome, c5.isSome, c6.isSome]] ++ ((if c0.isSome then Dp.write 0 else ([] : List Nat)) ++ ((if c1.isSome then Dp.write 0 else ([] : List Nat)) ++ ((if c2.isSome then Dp.write 0 else ([] : List Nat)) ++ ((if c3.isSome then Dp.write 0 else ([] : List Nat)) ++ ((if c4.isSome then Dp.write 0 else ([] : List Nat)) ++ ((if c5.isSome then Dp.write 0 else ([] : List Nat)) ++ (if c6.isSome then Dp.write 0 else ([] : List Nat)))))))), s.bytes.length + ([tagByte [c0.isSome, c1.isSome, c2.isSome, c3.isSome, c4.isSome, c5.isSome, c6.isSome]] : List Nat).length⟩ : WS)).bytes.length ≤ p →
                p < snx4.bytes.length →
                snx5.bytes.get? p = snx4.bytes.get? p := by
              intro p hp1 hp2
              have hx := shape_agree ((((((s.bytes ++ [tagByte [c0.isSome, c1.isSome, c2.isSome, c3.isSome, c4.isSome, c5.isSome, c6.isSome]]) ++ (o0.elim [] Dp.write)) ++ (o1.elim [] Dp.write)) ++ (o2.elim [] Dp.write)) ++ (o3.elim [] Dp.write)) ++ (o4.elim [] Dp.write)) (if c5.isSome then Dp.write 0 else ([] : List Nat)) (o5.elim [] Dp.write) ((if c6.isSome then Dp.write 0 else ([] : List Nat)) ++ (T0 ++ (T1 ++ (T2 ++ (T3 ++ T4))))) T5
                holen5 p (by omega)
              rcases hx with hx | hx
              · rw [← hsh5, ← hadj5] at hx
                exact hx
              · rw [← hadj5] at hx
                omega
            have hgl5 : snx4.bytes.length ≤ snx5.bytes.length := by
              rw [hsh5, hadj5]
              simp only [List.length_append, List.length_cons,
                List.length_nil] <;> omega
            replace hcw := corresponds_stable enc snx4.bytes snx5.bytes
              (((⟨s.bytes ++ [tagByte [c0.isSome, c1.isSome, c2.isSome, c3.isSome, c4.isSome, c5.isSome, c6.isSome]] ++ ((if c0.isSome then Dp.write 0 else ([] : List Nat)) ++ ((if c1.isSome then Dp.write 0 else ([] : List Nat)) ++ ((if c2.isSome then Dp.write 0 else ([] : List Nat)) ++ ((if c3.isSome then Dp.write 0 else ([] : List Nat)) ++ ((if c4.isSome then Dp.write 0 else ([] : List Nat)) ++ ((if c5.isSome then Dp.write 0 else ([] : List Nat)) ++ (if c6.isSome then Dp.write 0 else ([] : List Nat)))))))), s.bytes.length + ([tagByte [c0.isSome, c1.isSome, c2.isSome, c3.isSome, c4.isSome, c5.isSome, c6.isSome]] : List Nat).length⟩ : WS)).bytes.length) hga5 hgl5 m.size m cp le_rfl hcw
            have harith6 : ((((((((s.bytes ++ [tagByte [c0.isSome, c1.isSome, c2.isSome, c3.isSome, c4.isSome, c5.isSome, c6.isSome]]) ++ (o0.elim [] Dp.write)) ++ (o1.elim [] Dp.write)) ++ (o2.elim [] Dp.write)) ++ (o3.elim [] Dp.write)) ++ (o4.elim [] Dp.write)) ++ (o5.elim [] Dp.write)) : List Nat).length +
                ((if c6.isSome then Dp.write 0 else ([] : List Nat)) : List Nat).length ≤ ((⟨s.bytes ++ [tagByte [c0.isSome, c1.isSome, c2.isSome, c3.isSome, c4.isSome, c5.isSome, c6.isSome]] ++ ((if c0.isSome then Dp.write 0 else ([] : List Nat)) ++ ((if c1.isSome then Dp.write 0 else ([] : List Nat)) ++ ((if c2.isSome then Dp.write 0 else ([] : List Nat)) ++ ((if c3.isSome then Dp.write 0 else ([] : List Nat)) ++ ((if c4.isSome then Dp.write 0 else ([] : List Nat)) ++ ((if c5.isSome then Dp.write 0 else ([] : List Nat)) ++ (if c6.isSome then Dp.write 0 else ([] : List Nat)))))))), s.bytes.length + ([tagByte [c0.isSome, c1.isSome, c2.isSome, c3.isSome, c4.isSome, c5.isSome, c6.isSome]] : List Nat).length⟩ : WS)).bytes.length := by
              rw [hadj0]
              simp only [List.length_append, List.length_cons,
                List.length_nil] <;> omega
            have hga6 : ∀ p, ((⟨s.bytes ++ [tagByte [c0.isSome, c1.isSome, c2.isSome, c3.isSome, c4.isSome, c5.isSome, c6.isSome]] ++ ((if c0.isSome then Dp.write 0 else ([] : List Nat)) ++ ((if c1.isSome then Dp.write 0 else ([] : List Nat)) ++ ((if c2.isSome then Dp.write 0 else ([] : List Nat)) ++ ((if c3.isSome then Dp.write 0 else ([] : List Nat)) ++ ((if c4.isSome then Dp.write 0 else ([] : List Nat)) ++ ((if c5.isSome then Dp.write 0 else ([] : List Nat)) ++ (if c6.isSome then Dp.write 0 else ([] : List Nat)))))))), s.bytes.length + ([tagByte [c0.isSome, c1.isSome, c2.isSome, c3.isSome, c4.isSome, c5.isSome, c6.isSome]] : List Nat).length⟩ : WS)).bytes.length ≤ p →
                p < snx5.bytes.length →
                snx6.bytes.get? p = snx5.bytes.get? p := by
              intro p hp1 hp2
              have hx := shape_agree (((((((s.bytes ++ [tagByte [c0.isSome, c1.isSome, c2.isSome, c3.isSome, c4.isSome, c5.isSome, c6.isSome]]) ++ (o0.elim [] Dp.write)) ++ (o1.elim [] Dp.write)) ++ (o2.elim [] Dp.write)) ++ (o3.elim [] Dp.write)) ++ (o4.elim [] Dp.write)) ++ (o5.elim [] Dp.write)) (if c6.isSome then Dp.write 0 else ([] : List Nat)) (o6.elim [] Dp.write) (T0 ++ (T1 ++ (T2 ++ (T3 ++ (T4 ++ T5))))) T6
                holen6 p (by omega)
              rcases hx with hx | hx
              · rw [← hsh6, ← hadj6] at hx
                exact hx
              · rw [← hadj6] at hx
                omega
            have hgl6 : snx5.bytes.length ≤ snx6.bytes.length := by
              rw [hsh6, hadj6]
              simp only [List.length_append, List.length_cons,
                List.length_nil] <;> omega
            replace hcw := corresponds_stable enc snx5.bytes snx6.bytes
              (((⟨s.bytes ++ [tagByte [c0.isSome, c1.isSome, c2.isSome, c3.isSome, c4.isSome, c5.isSome, c6.isSome]] ++ ((if c0.isSome then Dp.write 0 else ([] : List Nat)) ++ ((if c1.isSome then Dp.write 0 else ([] : List Nat)) ++ ((if c2.isSome then Dp.write 0 else ([] : List Nat)) ++ ((if c3.isSome then Dp.write 0 else ([] : List Nat)) ++ ((if c4.isSome then Dp.write 0 else ([] : List Nat)) ++ ((if c5.isSome then Dp.write 0 else ([] : List Nat)) ++ (if c6.isSome then Dp.write 0 else ([] : List Nat)))))))), s.bytes.length + ([tagByte [c0.isSome, c1.isSome, c2.isSome, c3.isSome, c4.isSome, c5.isSome, c6.isSome]] : List Nat).length⟩ : WS)).bytes.length) hga6 hgl6 m.size m cp le_rfl hcw
            refine corresponds_mono enc snx6.bytes (((⟨s.bytes ++ [tagByte [c0.isSome, c1.isSome, c2.isSome, c3.isSome, c4.isSome, c5.isSome, c6.isSome]] ++ ((if c0.isSome then Dp.write 0 else ([] : List Nat)) ++ ((if c1.isSome then Dp.write 0 else ([] : List Nat)) ++ ((if c2.isSome then Dp.write 0 else ([] : List Nat)) ++ ((if c3.isSome then Dp.write 0 else ([] : List Nat)) ++ ((if c4.isSome then Dp.write 0 else ([] : List Nat)) ++ ((if c5.isSome then Dp.write 0 else ([] : List Nat)) ++ (if c6.isSome then Dp.write 0 else ([] : List Nat)))))))), s.bytes.length + ([tagByte [c0.isSome, c1.isSome, c2.isSome, c3.isSome, c4.isSome, c5.isSome, c6.isSome]] : List Nat).length⟩ : WS)).bytes.length)
              s.bytes.length ?_ m.size m cp le_rfl hcw
            rw [hadj0]
            simp only [List.length_append, List.length_cons,
              List.length_nil] <;> omega
        · rw [show (([o0, o1, o2, o3, o4, o5, o6] : List (Option Nat)).get? 1) = some o1 from rfl]
          cases hcd : c1 with
          | none =>
            rw [CorrespondsO]
            have h1 : o1.isSome = false := by simp [hos1, hcd]
            have hnone : o1 = none :=
              Option.not_isSome_iff_eq_none.mp (by simp [h1])
            rw [hnone]
          | some m =>
            rw [CorrespondsO]
            obtain ⟨cp, hcp2, hmax2, hcorr⟩ := hcors1 m hcd
            refine ⟨cp, by rw [hcp2], ?_⟩
            have hcw := hcorr
            have harith2 : ((((s.bytes ++ [tagByte [c0.isSome, c1.isSome, c2.isSome, c3.isSome, c4.isSome, c5.isSome, c6.isSome]]) ++ (o0.elim [] Dp.write)) ++ (o1.elim [] Dp.write)) : List Nat).length +
                ((if c2.isSome then Dp.write 0 else ([] : List Nat)) : List Nat).length ≤ (snx0).bytes.length := by
              rw [hadj1]
              simp only [List.length_append, List.length_cons,
                List.length_nil] <;> omega
            have hga2 : ∀ p, (snx0).bytes.length ≤ p →
                p < snx1.bytes.length →
                snx2.bytes.get? p = snx1.bytes.get? p := by
              intro p hp1 hp2
              have hx := shape_agree (((s.bytes ++ [tagByte [c0.isSome, c1.isSome, c2.isSome, c3.isSome, c4.isSome, c5.isSome, c6.isSome]]) ++ (o0.elim [] Dp.write)) ++ (o1.elim [] Dp.write)) (if c2.isSome then Dp.write 0 else ([] : List Nat)) (o2.elim [] Dp.write) ((if c3.isSome then Dp.write 0 else ([] : List Nat)) ++ ((if c4.isSome then Dp.write 0 else ([] : List Nat)) ++ ((if c5.isSome then Dp.write 0 else ([] : List Nat)) ++ ((if c6.isSome then Dp.write 0 else ([] : List Nat)) ++ (T0 ++ T1))))) T2
                holen2 p (by omega)
              rcases hx with hx | hx
              · rw [← hsh2, ← hadj2] at hx
                exact hx
              · rw [← hadj2] at hx
                omega
            have hgl2 : snx1.bytes.length ≤ snx2.bytes.length := by
              rw [hsh2, hadj2]
              simp only [List.length_append, List.length_cons,
                List.length_nil] <;> omega
            replace hcw := corresponds_stable enc snx1.bytes snx2.bytes
              ((snx0).bytes.length) hga2 hgl2 m.size m cp le_rfl hcw
            have harith3 : (((((s.bytes ++ [tagByte [c0.isSome, c1.isSome, c2.isSome, c3.isSome, c4.isSome, c5.isSome, c6.isSome]]) ++ (o0.elim [] Dp.write)) ++ (o1.elim [] Dp.write)) ++ (o2.elim [] Dp.write)) : List Nat).length +
                ((if c3.isSome then Dp.write 0 else ([] : List Nat)) : List Nat).length ≤ (snx0).bytes.length := by
              rw [hadj1]
              simp only [List.length_append, List.length_cons,
                List.length_nil] <;> omega
            have hga3 : ∀ p, (snx0).bytes.length ≤ p →
                p < snx2.bytes.length →
                snx3.bytes.get? p = snx2.bytes.get? p := by
              intro p hp1 hp2
              have hx := shape_agree ((((s.bytes ++ [tagByte [c0.isSome, c1.isSome, c2.isSome, c3.isSome, c4.isSome, c5.isSome, c6.isSome]]) ++ (o0.elim [] Dp.write)) ++ (o1.elim [] Dp.write)) ++ (o2.elim [] Dp.write)) (if c3.isSome then Dp.write 0 else ([] : List Nat)) (o3.elim [] Dp.write) ((if c4.isSome then Dp.write 0 else ([] : List Nat)) ++ ((if c5.isSome then Dp.write 0 else ([] : List Nat)) ++ ((if c6.isSome then Dp.write 0 else ([] : List Nat)) ++ (T0 ++ (T1 ++ T2))))) T3
                holen3 p (by omega)
              rcases hx with hx | hx
              · rw [← hsh3, ← hadj3] at hx
                exact hx
              · rw [← hadj3] at hx
                omega
            have hgl3 : snx2.bytes.length ≤ snx3.bytes.length := by
              rw [hsh3, hadj3]
              simp only [List.length_append, List.length_cons,
                List.length_nil] <;> omega
            replace hcw := corresponds_stable enc snx2.bytes snx3.bytes
              ((snx0).bytes.length) hga3 hgl3 m.size m cp le_rfl hcw
            have harith4 : ((((((s.bytes ++ [tagByte [c0.isSome, c1.isSome, c2.isSome, c3.isSome, c4.isSome, c5.isSome, c6.isSome]]) ++ (o0.elim [] Dp.write)) ++ (o1.elim [] Dp.write)) ++ (o2.elim [] Dp.write)) ++ (o3.elim [] Dp.write)) : List Nat).length +
                ((if c4.isSome then Dp.write 0 else ([] : List Nat)) : List Nat).length ≤ (snx0).bytes.length := by
              rw [hadj1]
              simp only [List.length_append, List.length_cons,
                List.length_nil] <;> omega
            have hga4 : ∀ p, (snx0).bytes.length ≤ p →
                p < snx3.bytes.length →
                snx4.bytes.get? p = snx3.bytes.get? p := by
              intro p hp1 hp2
              have hx := shape_agree (((((s.bytes ++ [tagByte [c0.isSome, c1.isSome, c2.isSome, c3.isSome, c4.isSome, c5.isSome, c6.isSome]]) ++ (o0.elim [] Dp.write)) ++ (o1.elim [] Dp.write)) ++ (o2.elim [] Dp.write)) ++ (o3.elim [] Dp.write)) (if c4.isSome then Dp.write 0 else ([] : List Nat)) (o4.elim [] Dp.write) ((if c5.isSome then Dp.write 0 else ([] : List Nat)) ++ ((if c6.isSome then Dp.write 0 else ([] : List Nat)) ++ (T0 ++ (T1 ++ (T2 ++ T3))))) T4
                holen4 p (by omega)
              rcases hx with hx | hx
              · rw [← hsh4, ← hadj4] at hx
                exact hx
              · rw [← hadj4] at hx
                omega
            have hgl4 : snx3.bytes.length ≤ snx4.bytes.length := by
              rw [hsh4, hadj4]
              simp only [List.length_append, List.length_cons,
                List.length_nil] <;> omega
            replace hcw := corresponds_stable enc snx3.bytes snx4.bytes
              ((snx0).bytes.length) hga4 hgl4 m.size m cp le_rfl hcw
            have harith5 : (((((((s.bytes ++ [tagByte [c0.isSome, c1.isSome, c2.isSome, c3.isSome, c4.isSome, c5.isSome, c6.isSome]]) ++ (o0.elim [] Dp.write)) ++ (o1.elim [] Dp.write)) ++ (o2.elim [] Dp.write)) ++ (o3.elim [] Dp.write)) ++ (o4.elim [] Dp.write)) : List Nat).length +
                ((if c5.isSome then Dp.write 0 else ([] : List Nat)) : List Nat).length ≤ (snx0).bytes.length := by
              rw [hadj1]
              simp only [List.length_append, List.length_cons,
                List.length_nil] <;> omega
            have hga5 : ∀ p, (snx0).bytes.length ≤ p →
                p < snx4.bytes.length →
                snx5.bytes.get? p = snx4.bytes.get? p := by
              intro p hp1 hp2
              have hx := shape_agree ((((((s.bytes ++ [tagByte [c0.isSome, c1.isSome, c2.isSome, c3.isSome, c4.isSome, c5.isSome, c6.isSome]]) ++ (o0.elim [] Dp.write)) ++ (o1.elim [] Dp.write)) ++ (o2.elim [] Dp.write)) ++ (o3.elim [] Dp.write)) ++ (o4.elim [] Dp.write)) (if c5.isSome then Dp.write 0 else ([] : List Nat)) (o5.elim [] Dp.write) ((if c6.isSome then Dp.write 0 else ([] : List Nat)) ++ (T0 ++ (T1 ++ (T2 ++ (T3 ++ T4))))) T5
                holen5 p (by omega)
              rcases hx with hx | hx
              · rw [← hsh5, ← hadj5] at hx
                exact hx
              · rw [← hadj5] at hx
                omega
            have hgl5 : snx4.bytes.length ≤ snx5.bytes.length := by
              rw [hsh5, hadj5]
              simp only [List.length_append, List.length_cons,
                List.length_nil] <;> omega
            replace hcw := corresponds_stable enc snx4.bytes snx5.bytes
              ((snx0).bytes.length) hga5 hgl5 m.size m cp le_rfl hcw
            have harith6 : ((((((((s.bytes ++ [tagByte [c0.isSome, c1.isSome, c2.isSome, c3.isSome, c4.isSome, c5.isSome, c6.isSome]]) ++ (o0.elim [] Dp.write)) ++ (o1.elim [] Dp.write)) ++ (o2.elim [] Dp.write)) ++ (o3.elim [] Dp.write)) ++ (o4.elim [] Dp.write)) ++ (o5.elim [] Dp.write)) : List Nat).length +
                ((if c6.isSome then Dp.write 0 else ([] : List Nat)) : List Nat).length ≤ (snx0).bytes.length := by
              rw [hadj1]
              simp only [List.length_append, List.length_cons,
                List.length_nil] <;> omega
            have hga6 : ∀ p, (snx0).bytes.length ≤ p →
                p < snx5.bytes.length →
                snx6.bytes.get? p = snx5.bytes.get? p := by
              intro p hp1 hp2
              have hx := shape_agree (((((((s.bytes ++ [tagByte [c0.isSome, c1.isSome, c2.isSome, c3.isSome, c4.isSome, c5.isSome, c6.isSome]]) ++ (o0.elim [] Dp.write)) ++ (o1.elim [] Dp.write)) ++ (o2.elim [] Dp.write)) ++ (o3.elim [] Dp.write)) ++ (o4.elim [] Dp.write)) ++ (o5.elim [] Dp.write)) (if c6.isSome then Dp.write 0 else ([] : List Nat)) (o6.elim [] Dp.write) (T0 ++ (T1 ++ (T2 ++ (T3 ++ (T4 ++ T5))))) T6
                holen6 p (by omega)
              rcases hx with hx | hx
              · rw [← hsh6, ← hadj6] at hx
                exact hx
              · rw [← hadj6] at hx
                omega
            have hgl6 : snx5.bytes.length ≤ snx6.bytes.length := by
              rw [hsh6, hadj6]
              simp only [List.length_append, List.length_cons,
                List.length_nil] <;> omega
            replace hcw := corresponds_stable enc snx5.bytes snx6.bytes
              ((snx0).bytes.length) hga6 hgl6 m.size m cp le_rfl hcw
            refine corresponds_mono enc snx6.bytes ((snx0).bytes.length)
              s.bytes.length ?_ m.size m cp le_rfl hcw
            rw [hadj1]
            simp only [List.length_append, List.length_cons,
              List.length_nil] <;> omega
        · rw [show (([o0, o1, o2, o3, o4, o5, o6] : List (Option Nat)).get? 2) = some o2 from rfl]
          cases hcd : c2 with
          | none =>
            rw [CorrespondsO]
            have h1 : o2.isSome = false := by simp [hos2, hcd]
            have hnone : o2 = none :=
              Option.not_isSome_iff_eq_none.mp (by simp [h1])
            rw [hnone]
          | some m =>
            rw [CorrespondsO]
            obtain ⟨cp, hcp2, hmax2, hcorr⟩ := hcors2 m hcd
            refine ⟨cp, by rw [hcp2], ?_⟩
            have hcw := hcorr
            have harith3 : (((((s.bytes ++ [tagByte [c0.isSome, c1.isSome, c2.isSome, c3.isSome, c4.isSome, c5.isSome, c6.isSome]]) ++ (o0.elim [] Dp.write)) ++ (o1.elim [] Dp.write)) ++ (o2.elim [] Dp.write)) : List Nat).length +
                ((if c3.isSome then Dp.write 0 else ([] : List Nat)) : List Nat).length ≤ (snx1).bytes.length := by
              rw [hadj2]
              simp only [List.length_append, List.length_cons,
                List.length_nil] <;> omega
            have hga3 : ∀ p, (snx1).bytes.length ≤ p →
                p < snx2.bytes.length →
                snx3.bytes.get? p = snx2.bytes.get? p := by
              intro p hp1 hp2
              have hx := shape_agree ((((s.bytes ++ [tagByte [c0.isSome, c1.isSome, c2.isSome, c3.isSome, c4.isSome, c5.isSome, c6.isSome]]) ++ (o0.elim [] Dp.write)) ++ (o1.elim [] Dp.write)) ++ (o2.elim [] Dp.write)) (if c3.isSome then Dp.write 0 else ([] : List Nat)) (o3.elim [] Dp.write) ((if c4.isSome then Dp.write 0 else ([] : List Nat)) ++ ((if c5.isSome then Dp.write 0 else ([] : List Nat)) ++ ((if c6.isSome then Dp.write 0 else ([] : List Nat)) ++ (T0 ++ (T1 ++ T2))))) T3
                holen3 p (by omega)
              rcases hx with hx | hx
              · rw [← hsh3, ← hadj3] at hx
                exact hx
              · rw [← hadj3] at hx
                omega
            have hgl3 : snx2.bytes.length ≤ snx3.bytes.length := by
              rw [hsh3, hadj3]
              simp only [List.length_append, List.length_cons,
                List.length_nil] <;> omega
            replace hcw := corresponds_stable enc snx2.bytes snx3.bytes
              ((snx1).bytes.length) hga3 hgl3 m.size m cp le_rfl hcw
            have harith4 : ((((((s.bytes ++ [tagByte [c0.isSome, c1.isSome, c2.isSome, c3.isSome, c4.isSome, c5.isSome, c6.isSome]]) ++ (o0.elim [] Dp.write)) ++ (o1.elim [] Dp.write)) ++ (o2.elim [] Dp.write)) ++ (o3.elim [] Dp.write)) : List Nat).length +
                ((if c4.isSome then Dp.write 0 else ([] : List Nat)) : List Nat).length ≤ (snx1).bytes.length := by
              rw [hadj2]
              simp only [List.length_append, List.length_cons,
                List.length_nil] <;> omega
            have hga4 : ∀ p, (snx1).bytes.length ≤ p →
                p < snx3.bytes.length →
                snx4.bytes.get? p = snx3.bytes.get? p := by
              intro p hp1 hp2
              have hx := shape_agree (((((s.bytes ++ [tagByte [c0.isSome, c1.isSome, c2.isSome, c3.isSome, c4.isSome, c5.isSome, c6.isSome]]) ++ (o0.elim [] Dp.write)) ++ (o1.elim [] Dp.write)) ++ (o2.elim [] Dp.write)) ++ (o3.elim [] Dp.write)) (if c4.isSome then Dp.write 0 else ([] : List Nat)) (o4.elim [] Dp.write) ((if c5.isSome then Dp.write 0 else ([] : List Nat)) ++ ((if c6.isSome then Dp.write 0 else ([] : List Nat)) ++ (T0 ++ (T1 ++ (T2 ++ T3))))) T4
                holen4 p (by omega)
              rcases hx with hx | hx
              · rw [← hsh4, ← hadj4] at hx
                exact hx
              · rw [← hadj4] at hx
                omega
            have hgl4 : snx3.bytes.length ≤ snx4.bytes.length := by
              rw [hsh4, hadj4]
              simp only [List.length_append, List.length_cons,
                List.length_nil] <;> omega
            replace hcw := corresponds_stable enc snx3.bytes snx4.bytes
              ((snx1).bytes.length) hga4 hgl4 m.size m cp le_rfl hcw
            have harith5 : (((((((s.bytes ++ [tagByte [c0.isSome, c1.isSome, c2.isSome, c3.isSome, c4.isSome, c5.isSome, c6.isSome]]) ++ (o0.elim [] Dp.write)) ++ (o1.elim [] Dp.write)) ++ (o2.elim [] Dp.write)) ++ (o3.elim [] Dp.write)) ++ (o4.elim [] Dp.write)) : List Nat).length +
                ((if c5.isSome then Dp.write 0 else ([] : List Nat)) : List Nat).length ≤ (snx1).bytes.length := by
              rw [hadj2]
              simp only [List.length_append, List.length_cons,
                List.length_nil] <;> omega
            have hga5 : ∀ p, (snx1).bytes.length ≤ p →
                p < snx4.bytes.length →
                snx5.bytes.get? p = snx4.bytes.get? p := by
              intro p hp1 hp2
              have hx := shape_agree ((((((s.bytes ++ [tagByte [c0.isSome, c1.isSome, c2.isSome, c3.isSome, c4.isSome, c5.isSome, c6.isSome]]) ++ (o0.elim [] Dp.write)) ++ (o1.elim [] Dp.write)) ++ (o2.elim [] Dp.write)) ++ (o3.elim [] Dp.write)) ++ (o4.elim [] Dp.write)) (if c5.isSome then Dp.write 0 else ([] : List Nat)) (o5.elim [] Dp.write) ((if c6.isSome then Dp.write 0 else ([] : List Nat)) ++ (T0 ++ (T1 ++ (T2 ++ (T3 ++ T4))))) T5
                holen5 p (by omega)
              rcases hx with hx | hx
              · rw [← hsh5, ← hadj5] at hx
                exact hx
              · rw [← hadj5] at hx
                omega
            have hgl5 : snx4.bytes.length ≤ snx5.bytes.length := by
              rw [hsh5, hadj5]
              simp only [List.length_append, List.length_cons,
                List.length_nil] <;> omega
            replace hcw := corresponds_stable enc snx4.bytes snx5.bytes
              ((snx1).bytes.length) hga5 hgl5 m.size m cp le_rfl hcw
            have harith6 : ((((((((s.bytes ++ [tagByte [c0.isSome, c1.isSome, c2.isSome, c3.isSome, c4.isSome, c5.isSome, c6.isSome]]) ++ (o0.elim [] Dp.write)) ++ (o1.elim [] Dp.write)) ++ (o2.elim [] Dp.write)) ++ (o3.elim [] Dp.write)) ++ (o4.elim [] Dp.write)) ++ (o5.elim [] Dp.write)) : List Nat).length +
                ((if c6.isSome then Dp.write 0 else ([] : List Nat)) : List Nat).length ≤ (snx1).bytes.length := by
              rw [hadj2]
              simp only [List.length_append, List.length_cons,
                List.length_nil] <;> omega
            have hga6 : ∀ p, (snx1).bytes.length ≤ p →
                p < snx5.bytes.length →
                snx6.bytes.get? p = snx5.bytes.get? p := by
              intro p hp1 hp2
              have hx := shape_agree (((((((s.bytes ++ [tagByte [c0.isSome, c1.isSome, c2.isSome, c3.isSome, c4.isSome, c5.isSome, c6.isSome]]) ++ (o0.elim [] Dp.write)) ++ (o1.elim [] Dp.write)) ++ (o2.elim [] Dp.write)) ++ (o3.elim [] Dp.write)) ++ (o4.elim [] Dp.write)) ++ (o5.elim [] Dp.write)) (if c6.isSome then Dp.write 0 else ([] : List Nat)) (o6.elim [] Dp.write) (T0 ++ (T1 ++ (T2 ++ (T3 ++ (T4 ++ T5))))) T6
                holen6 p (by omega)
              rcases hx with hx | hx
              · rw [← hsh6, ← hadj6] at hx
                exact hx
              · rw [← hadj6] at hx
                omega
            have hgl6 : snx5.bytes.length ≤ snx6.bytes.length := by
              rw [hsh6, hadj6]
              simp only [List.length_append, List.length_cons,
                List.length_nil] <;> omega
            replace hcw := corresponds_stable enc snx5.bytes snx6.bytes
              ((snx1).bytes.length) hga6 hgl6 m.size m cp le_rfl hcw
            refine corresponds_mono enc snx6.bytes ((snx1).bytes.length)
              s.bytes.length ?_ m.size m cp le_rfl hcw
            rw [hadj2]
            simp only [List.length_append, List.length_cons,
              List.length_nil] <;> omega
        · rw [show (([o0, o1, o2, o3, o4, o5, o6] : List (Option Nat)).get? 3) = some o3 from rfl]
          cases hcd : c3 with
          | none =>
            rw [CorrespondsO]
            have h1 : o3.isSome = false := by simp [hos3, hcd]
            have hnone : o3 = none :=
              Option.not_isSome_iff_eq_none.mp (by simp [h1])
            rw [hnone]
          | some m =>
            rw [CorrespondsO]
            obtain ⟨cp, hcp2, hmax2, hcorr⟩ := hcors3 m hcd
            refine ⟨cp, by rw [hcp2], ?_⟩
            have hcw := hcorr
            have harith4 : ((((((s.bytes ++ [tagByte [c0.isSome, c1.isSome, c2.isSome, c3.isSome, c4.isSome, c5.isSome, c6.isSome]]) ++ (o0.elim [] Dp.write)) ++ (o1.elim [] Dp.write)) ++ (o2.elim [] Dp.write)) ++ (o3.elim [] Dp.write)) : List Nat).length +
                ((if c4.isSome then Dp.write 0 else ([] : List Nat)) : List Nat).length ≤ (snx2).bytes.length := by
              rw [hadj3]
              simp only [List.length_append, List.length_cons,
                List.length_nil] <;> omega
            have hga4 : ∀ p, (snx2).bytes.length ≤ p →
                p < snx3.bytes.length →
                snx4.bytes.get? p = snx3.bytes.get? p := by
              intro p hp1 hp2
              have hx := shape_agree (((((s.bytes ++ [tagByte [c0.isSome, c1.isSome, c2.isSome, c3.isSome, c4.isSome, c5.isSome, c6.isSome]]) ++ (o0.elim [] Dp.write)) ++ (o1.elim [] Dp.write)) ++ (o2.elim [] Dp.write)) ++ (o3.elim [] Dp.write)) (if c4.isSome then Dp.write 0 else ([] : List Nat)) (o4.elim [] Dp.write) ((if c5.isSome then Dp.write 0 else ([] : List Nat)) ++ ((if c6.isSome then Dp.write 0 else ([] : List Nat)) ++ (T0 ++ (T1 ++ (T2 ++ T3))))) T4
                holen4 p (by omega)
              rcases hx with hx | hx
              · rw [← hsh4, ← hadj4] at hx
                exact hx
              · rw [← hadj4] at hx
                omega
            have hgl4 : snx3.bytes.length ≤ snx4.bytes.length := by
              rw [hsh4, hadj4]
              simp only [List.length_append, List.length_cons,
                List.length_nil] <;> omega
            replace hcw := corresponds_stable enc snx3.bytes snx4.bytes
              ((snx2).bytes.length) hga4 hgl4 m.size m cp le_rfl hcw
            have harith5 : (((((((s.bytes ++ [tagByte [c0.isSome, c1.isSome, c2.isSome, c3.isSome, c4.isSome, c5.isSome, c6.isSome]]) ++ (o0.elim [] Dp.write)) ++ (o1.elim [] Dp.write)) ++ (o2.elim [] Dp.write)) ++ (o3.elim [] Dp.write)) ++ (o4.elim [] Dp.write)) : List Nat).length +
                ((if c5.isSome then Dp.write 0 else ([] : List Nat)) : List Nat).length ≤ (snx2).bytes.length := by
              rw [hadj3]
              simp only [List.length_append, List.length_cons,
                List.length_nil] <;> omega
            have hga5 : ∀ p, (snx2).bytes.length ≤ p →
                p < snx4.bytes.length →
                snx5.bytes.get? p = snx4.bytes.get? p := by
              intro p hp1 hp2
              have hx := shape_agree ((((((s.bytes ++ [tagByte [c0.isSome, c1.isSome, c2.isSome, c3.isSome, c4.isSome, c5.isSome, c6.isSome]]) ++ (o0.elim [] Dp.write)) ++ (o1.elim [] Dp.write)) ++ (o2.elim [] Dp.write)) ++ (o3.elim [] Dp.write)) ++ (o4.elim [] Dp.write)) (if c5.isSome then Dp.write 0 else ([] : List Nat)) (o5.elim [] Dp.write) ((if c6.isSome then Dp.write 0 else ([] : List Nat)) ++ (T0 ++ (T1 ++ (T2 ++ (T3 ++ T4))))) T5
                holen5 p (by omega)
              rcases hx with hx | hx
              · rw [← hsh5, ← hadj5] at hx
                exact hx
              · rw [← hadj5] at hx
                omega
            have hgl5 : snx4.bytes.length ≤ snx5.bytes.length := by
              rw [hsh5, hadj5]
              simp only [List.length_append, List.length_cons,
                List.length_nil] <;> omega
            replace hcw := corresponds_stable enc snx4.bytes snx5.bytes
              ((snx2).bytes.length) hga5 hgl5 m.size m cp le_rfl hcw
            have harith6 : ((((((((s.bytes ++ [tagByte [c0.isSome, c1.isSome, c2.isSome, c3.isSome, c4.isSome, c5.isSome, c6.isSome]]) ++ (o0.elim [] Dp.write)) ++ (o1.elim [] Dp.write)) ++ (o2.elim [] Dp.write)) ++ (o3.elim [] Dp.write)) ++ (o4.elim [] Dp.write)) ++ (o5.elim [] Dp.write)) : List Nat).length +
                ((if c6.isSome then Dp.write 0 else ([] : List Nat)) : List Nat).length ≤ (snx2).bytes.length := by
              rw [hadj3]
              simp only [List.length_append, List.length_cons,
                List.length_nil] <;> omega
            have hga6 : ∀ p, (snx2).bytes.length ≤ p →
                p < snx5.bytes.length →
                snx6.bytes.get? p = snx5.bytes.get? p := by
              intro p hp1 hp2
              have hx := shape_agree (((((((s.bytes ++ [tagByte [c0.isSome, c1.isSome, c2.isSome, c3.isSome, c4.isSome, c5.isSome, c6.isSome]]) ++ (o0.elim [] Dp.write)) ++ (o1.elim [] Dp.write)) ++ (o2.elim [] Dp.write)) ++ (o3.elim [] Dp.write)) ++ (o4.elim [] Dp.write)) ++ (o5.elim [] Dp.write)) (if c6.isSome then Dp.write 0 else ([] : List Nat)) (o6.elim [] Dp.write) (T0 ++ (T1 ++ (T2 ++ (T3 ++ (T4 ++ T5))))) T6
                holen6 p (by omega)
              rcases hx with hx | hx
              · rw [← hsh6, ← hadj6] at hx
                exact hx
              · rw [← hadj6] at hx
                omega
            have hgl6 : snx5.bytes.length ≤ snx6.bytes.length := by
              rw [hsh6, hadj6]
              simp only [List.length_append, List.length_cons,
                List.length_nil] <;> omega
            replace hcw := corresponds_stable enc snx5.bytes snx6.bytes
              ((snx2).bytes.length) hga6 hgl6 m.size m cp le_rfl hcw
            refine corresponds_mono enc snx6.bytes ((snx2).bytes.length)
              s.bytes.length ?_ m.size m cp le_rfl hcw
            rw [hadj3]
            simp only [List.length_append, List.length_cons,
              List.length_nil] <;> omega
        · rw [show (([o0, o1, o2, o3, o4, o5, o6] : List (Option Nat)).get? 4) = some o4 from rfl]
          cases hcd : c4 with
          | none =>
            rw [CorrespondsO]
            have h1 : o4.isSome = false := by simp [hos4, hcd]
            have hnone : o4 = none :=
              Option.not_isSome_iff_eq_none.mp (by simp [h1])
            rw [hnone]
          | some m =>
            rw [CorrespondsO]
            obtain ⟨cp, hcp2, hmax2, hcorr⟩ := hcors4 m hcd
            refine ⟨cp, by rw [hcp2], ?_⟩
            have hcw := hcorr
            have harith5 : (((((((s.bytes ++ [tagByte [c0.isSome, c1.isSome, c2.isSome, c3.isSome, c4.isSome, c5.isSome, c6.isSome]]) ++ (o0.elim [] Dp.write)) ++ (o1.elim [] Dp.write)) ++ (o2.elim [] Dp.write)) ++ (o3.elim [] Dp.write)) ++ (o4.elim [] Dp.write)) : List Nat).length +
                ((if c5.isSome then Dp.write 0 else ([] : List Nat)) : List Nat).length ≤ (snx3).bytes.length := by
              rw [hadj4]
              simp only [List.length_append, List.length_cons,
                List.length_nil] <;> omega
            have hga5 : ∀ p, (snx3).bytes.length ≤ p →
                p < snx4.bytes.length →
                snx5.bytes.get? p = snx4.bytes.get? p := by
              intro p hp1 hp2
              have hx := shape_agree ((((((s.bytes ++ [tagByte [c0.isSome, c1.isSome, c2.isSome, c3.isSome, c4.isSome, c5.isSome, c6.isSome]]) ++ (o0.elim [] Dp.write)) ++ (o1.elim [] Dp.write)) ++ (o2.elim [] Dp.write)) ++ (o3.elim [] Dp.write)) ++ (o4.elim [] Dp.write)) (if c5.isSome then Dp.write 0 else ([] : List Nat)) (o5.elim [] Dp.write) ((if c6.isSome then Dp.write 0 else ([] : List Nat)) ++ (T0 ++ (T1 ++ (T2 ++ (T3 ++ T4))))) T5
                holen5 p (by omega)
              rcases hx with hx | hx
              · rw [← hsh5, ← hadj5] at hx
                exact hx
              · rw [← hadj5] at hx
                omega
            have hgl5 : snx4.bytes.length ≤ snx5.bytes.length := by
              rw [hsh5, hadj5]
              simp only [List.length_append, List.length_cons,
                List.length_nil] <;> omega
            replace hcw := corresponds_stable enc snx4.bytes snx5.bytes
              ((snx3).bytes.length) hga5 hgl5 m.size m cp le_rfl hcw
            have harith6 : ((((((((s.bytes ++ [tagByte [c0.isSome, c1.isSome, c2.isSome, c3.isSome, c4.isSome, c5.isSome, c6.isSome]]) ++ (o0.elim [] Dp.write)) ++ (o1.elim [] Dp.write)) ++ (o2.elim [] Dp.write)) ++ (o3.elim [] Dp.write)) ++ (o4.elim [] Dp.write)) ++ (o5.elim [] Dp.write)) : List Nat).length +
                ((if c6.isSome then Dp.write 0 else ([] : List Nat)) : List Nat).length ≤ (snx3).bytes.length := by
              rw [hadj4]
              simp only [List.length_append, List.length_cons,
                List.length_nil] <;> omega
            have hga6 : ∀ p, (snx3).bytes.length ≤ p →
                p < snx5.bytes.length →
                snx6.bytes.get? p = snx5.bytes.get? p := by
              intro p hp1 hp2
              have hx := shape_agree (((((((s.bytes ++ [tagByte [c0.isSome, c1.isSome, c2.isSome, c3.isSome, c4.isSome, c5.isSome, c6.isSome]]) ++ (o0.elim [] Dp.write)) ++ (o1.elim [] Dp.write)) ++ (o2.elim [] Dp.write)) ++ (o3.elim [] Dp.write)) ++ (o4.elim [] Dp.write)) ++ (o5.elim [] Dp.write)) (if c6.isSome then Dp.write 0 else ([] : List Nat)) (o6.elim [] Dp.write) (T0 ++ (T1 ++ (T2 ++ (T3 ++ (T4 ++ T5))))) T6
                holen6 p (by omega)
              rcases hx with hx | hx
              · rw [← hsh6, ← hadj6] at hx
                exact hx
              · rw [← hadj6] at hx
                omega
            have hgl6 : snx5.bytes.length ≤ snx6.bytes.length := by
              rw [hsh6, hadj6]
              simp only [List.length_append, List.length_cons,
                List.length_nil] <;> omega
            replace hcw := corresponds_stable enc snx5.bytes snx6.bytes
              ((snx3).bytes.length) hga6 hgl6 m.size m cp le_rfl hcw
            refine corresponds_mono enc snx6.bytes ((snx3).bytes.length)
              s.bytes.length ?_ m.size m cp le_rfl hcw
            rw [hadj4]
            simp only [List.length_append, List.length_cons,
              List.length_nil] <;> omega
        · rw [show (([o0, o1, o2, o3, o4, o5, o6] : List (Option Nat)).get? 5) = some o5 from rfl]
          cases hcd : c5 with
          | none =>
            rw [CorrespondsO]
            have h1 : o5.isSome = false := by simp [hos5, hcd]
            have hnone : o5 = none :=
              Option.not_isSome_iff_eq_none.mp (by simp [h1])
            rw [hnone]
          | some m =>
            rw [CorrespondsO]
            obtain ⟨cp, hcp2, hmax2, hcorr⟩ := hcors5 m hcd
            refine ⟨cp, by rw [hcp2], ?_⟩
            have hcw := hcorr
            have harith6 : ((((((((s.bytes ++ [tagByte [c0.isSome, c1.isSome, c2.isSome, c3.isSome, c4.isSome, c5.isSome, c6.isSome]]) ++ (o0.elim [] Dp.write)) ++ (o1.elim [] Dp.write)) ++ (o2.elim [] Dp.write)) ++ (o3.elim [] Dp.write)) ++ (o4.elim [] Dp.write)) ++ (o5.elim [] Dp.write)) : List Nat).length +
                ((if c6.isSome then Dp.write 0 else ([] : List Nat)) : List Nat).length ≤ (snx4).bytes.length := by
              rw [hadj5]
              simp only [List.length_append, List.length_cons,
                List.length_nil] <;> omega
            have hga6 : ∀ p, (snx4).bytes.length ≤ p →
                p < snx5.bytes.length →
                snx6.bytes.get? p = snx5.bytes.get? p := by
              intro p hp1 hp2
              have hx := shape_agree (((((((s.bytes ++ [tagByte [c0.isSome, c1.isSome, c2.isSome, c3.isSome, c4.isSome, c5.isSome, c6.isSome]]) ++ (o0.elim [] Dp.write)) ++ (o1.elim [] Dp.write)) ++ (o2.elim [] Dp.write)) ++ (o3.elim [] Dp.write)) ++ (o4.elim [] Dp.write)) ++ (o5.elim [] Dp.write)) (if c6.isSome then Dp.write 0 else ([] : List Nat)) (o6.elim [] Dp.write) (T0 ++ (T1 ++ (T2 ++ (T3 ++ (T4 ++ T5))))) T6
                holen6 p (by omega)
              rcases hx with hx | hx
              · rw [← hsh6, ← hadj6] at hx
                exact hx
              · rw [← hadj6] at hx
                omega
            have hgl6 : snx5.bytes.length ≤ snx6.bytes.length := by
              rw [hsh6, hadj6]
              simp only [List.length_append, List.length_cons,
                List.length_nil] <;> omega
            replace hcw := corresponds_stable enc snx5.bytes snx6.bytes
              ((snx4).bytes.length) hga6 hgl6 m.size m cp le_rfl hcw
            refine corresponds_mono enc snx6.bytes ((snx4).bytes.length)
              s.bytes.length ?_ m.size m cp le_rfl hcw
            rw [hadj5]
            simp only [List.length_append, List.length_cons,
              List.length_nil] <;> omega
        · rw [show (([o0, o1, o2, o3, o4, o5, o6] : List (Option Nat)).get? 6) = some o6 from rfl]
          cases hcd : c6 with
          | none =>
            rw [CorrespondsO]
            have h1 : o6.isSome = false := by simp [hos6, hcd]
            have hnone : o6 = none :=
              Option.not_isSome_iff_eq_none.mp (by simp [h1])
            rw [hnone]
          | some m =>
            rw [CorrespondsO]
            obtain ⟨cp, hcp2, hmax2, hcorr⟩ := hcors6 m hcd
            refine ⟨cp, by rw [hcp2], ?_⟩
            have hcw := hcorr
            refine corresponds_mono enc snx6.bytes ((snx5).bytes.length)
              s.bytes.length ?_ m.size m cp le_rfl hcw
            rw [hadj6]
            simp only [List.length_append, List.length_cons,
              List.length_nil] <;> omega

end Disk
namespace Disk

/-- The pointer block of a child slot has length 5 when the child is
present and 0 when it is absent. -/
theorem elim_write_length (oc : Option Nat) (b : Bool) (h : oc.isSome = b) :
    (oc.elim ([] : List Nat) Dp.write).length = if b then 5 else 0 := by
  cases oc <;> cases b <;> simp_all [Option.elim, dp_write_length]

/-- Seven presence-sized blocks amount to five bytes per present child. -/
theorem count_blocks (b0 b1 b2 b3 b4 b5 b6 : Bool) :
    (if b0 then 5 else 0) + (if b1 then 5 else 0) + (if b2 then 5 else 0) +
    (if b3 then 5 else 0) + (if b4 then 5 else 0) + (if b5 then 5 else 0) +
    (if b6 then 5 else 0) =
    5 * ([b0, b1, b2, b3, b4, b5, b6].count true) := by
  cases b0 <;> cases b1 <;> cases b2 <;> cases b3 <;> cases b4 <;> cases b5 <;>
    cases b6 <;> rfl

set_option maxHeartbeats 1000000 in
/-- C7: every record emitted by `write_node` is discriminated by bit 7 of
its first byte. A leaf record starts with the first byte of the varint
of the encoded value's length (top bit 0) and consists of that varint
followed by the encoded value. A parent record's first byte is the tag
(top bit 1, low bit `d` set iff the child at digit `d` is present),
followed by one 5-byte pointer per present child — and nothing for the
absent ones — in ascending digit order, i.e. exactly
`popcount (tag &&& 0x7F)` pointers. -/
theorem claim7_record_format (enc : V → List Nat)
    (henc : ∀ v, (enc v).length < 2 ^ 27)
    (n : Node V) (s : WS) (np : Nat) (s2 : WS)
    (h : write_node enc n s = .ok (np, s2)) :
    ∃ b0, s2.bytes.get? np = some b0 ∧
      (∀ c v, n = .leaf c v →
        (b0 &&& 0x80 == 0) = true ∧ b0.testBit 7 = false ∧
        ∃ vb k, Varint.write (enc v).length = .ok (vb, k) ∧
          s2.bytes.drop np = vb ++ enc v ∧ vb.get? 0 = some b0) ∧
      (∀ c c0 c1 c2 c3 c4 c5 c6, n = .parent c c0 c1 c2 c3 c4 c5 c6 →
        b0 = tagByte [c0.isSome, c1.isSome, c2.isSome, c3.isSome,
          c4.isSome, c5.isSome, c6.isSome] ∧
        (b0 &&& 0x80 == 0) = false ∧ b0.testBit 7 = true ∧
        (∀ d : Fin 7, b0.testBit d.val =
          (Node.childSel c0 c1 c2 c3 c4 c5 c6 d).isSome) ∧
        ∃ (o0 o1 o2 o3 o4 o5 o6 : Option Nat) (tail : List Nat),
          o0.isSome = c0.isSome ∧ o1.isSome = c1.isSome ∧
          o2.isSome = c2.isSome ∧ o3.isSome = c3.isSome ∧
          o4.isSome = c4.isSome ∧ o5.isSome = c5.isSome ∧
          o6.isSome = c6.isSome ∧
          s2.bytes.drop (np + 1) =
            (o0.elim [] Dp.write) ++ (o1.elim [] Dp.write) ++ (o2.elim [] Dp.write) ++ (o3.elim [] Dp.write) ++ (o4.elim [] Dp.write) ++ (o5.elim [] Dp.write) ++ (o6.elim [] Dp.write) ++ tail ∧
          ((o0.elim [] Dp.write) ++ (o1.elim [] Dp.write) ++ (o2.elim [] Dp.write) ++ (o3.elim [] Dp.write) ++ (o4.elim [] Dp.write) ++ (o5.elim [] Dp.write) ++ (o6.elim [] Dp.write)).length =
            5 * ([c0.isSome, c1.isSome, c2.isSome, c3.isSome, c4.isSome,
              c5.isSome, c6.isSome].count true)) := by
  cases n with
  | leaf c v =>
    rw [write_node] at h
    rcases hf : Dp.fromU64 s.bytes.length with _ | np0
    · rw [hf] at h
      exact absurd h (by simp)
    rw [hf] at h
    obtain ⟨hnp0, hmax⟩ := fromU64_ok hf
    subst hnp0
    rw [Nat.mod_eq_of_lt (show (enc v).length < 2 ^ 32 from by
      have := henc v
      omega)] at h
    rcases hv : Varint.write (enc v).length with e | pr
    · rw [hv] at h
      exact absurd h (by simp)
    obtain ⟨vb, kk⟩ := pr
    rw [hv] at h
    simp only [Except.ok.injEq, Prod.mk.injEq] at h
    obtain ⟨hnp, hs2⟩ := h
    obtain ⟨hvlen, hk4, hread, b0, btl, hvb, hb0⟩ := varint_emit _ vb kk hv
    have hbytes : s2.bytes = s.bytes ++ (vb ++ enc v) := by
      rw [← hs2, wWrite_append_end, wWrite_append_end]
      simp [List.append_assoc]
    subst hnp
    refine ⟨b0, ?_, ?_, ?_⟩
    · rw [hbytes, List.get?_eq_getElem?,
        List.getElem?_append_right (Nat.le_refl _), Nat.sub_self, hvb]
      simp
    · intro c2 v2 heq
      injection heq with hc2 hv2
      subst hc2
      subst hv2
      refine ⟨low_byte_tag b0 hb0, Nat.testBit_lt_two_pow hb0, vb, kk, hv, ?_, ?_⟩
      · rw [hbytes, List.drop_left]
      · rw [hvb]
        rfl
    · intro c2 c02 c12 c22 c32 c42 c52 c62 heq
      exact absurd heq (by simp)
  | parent c c0 c1 c2 c3 c4 c5 c6 =>
    rw [write_node] at h
    rcases hf : Dp.fromU64 s.bytes.length with _ | np0
    · rw [hf] at h
      exact absurd h (by simp)
    rw [hf] at h
    obtain ⟨hnp0, hmax⟩ := fromU64_ok hf
    subst hnp0
    dsimp only at h
    rw [wWrite_append_end] at h
    rcases hp0 : placeholder c0 ⟨(s.bytes ++ [0x80]), ((s.bytes ++ [0x80])).length⟩ with e | fs0
    · rw [hp0] at h
      exact absurd h (by simp)
    obtain ⟨fx0, st0⟩ := fs0
    rw [hp0] at h
    obtain ⟨hfx0, hst0⟩ := placeholder_ok_end c0 _ fx0 st0 hp0
    subst hst0
    dsimp only at h
    rcases hp1 : placeholder c1 ⟨((s.bytes ++ [0x80]) ++ (if c0.isSome then Dp.write 0 else ([] : List Nat))), (((s.bytes ++ [0x80]) ++ (if c0.isSome then Dp.write 0 else ([] : List Nat)))).length⟩ with e | fs1
    · rw [hp1] at h
      exact absurd h (by simp)
    obtain ⟨fx1, st1⟩ := fs1
    rw [hp1] at h
    obtain ⟨hfx1, hst1⟩ := placeholder_ok_end c1 _ fx1 st1 hp1
    subst hst1
    dsimp only at h
    rcases hp2 : placeholder c2 ⟨(((s.bytes ++ [0x80]) ++ (if c0.isSome then Dp.write 0 else ([] : List Nat))) ++ (if c1.isSome then Dp.write 0 else ([] : List Nat))), ((((s.bytes ++ [0x80]) ++ (if c0.isSome then Dp.write 0 else ([] : List Nat))) ++ (if c1.isSome then Dp.write 0 else ([] : List Nat)))).length⟩ with e | fs2
    · rw [hp2] at h
      exact absurd h (by simp)
    obtain ⟨fx2, st2⟩ := fs2
    rw [hp2] at h
    obtain ⟨hfx2, hst2⟩ := placeholder_ok_end c2 _ fx2 st2 hp2
    subst hst2
    dsimp only at h
    rcases hp3 : placeholder c3 ⟨((((s.bytes ++ [0x80]) ++ (if c0.isSome then Dp.write 0 else ([] : List Nat))) ++ (if c1.isSome then Dp.write 0 else ([] : List Nat))) ++ (if c2.isSome then Dp.write 0 else ([] : List Nat))), (((((s.bytes ++ [0x80]) ++ (if c0.isSome then Dp.write 0 else ([] : List Nat))) ++ (if c1.isSome then Dp.write 0 else ([] : List Nat))) ++ (if c2.isSome then Dp.write 0 else ([] : List Nat)))).length⟩ with e | fs3
    · rw [hp3] at h
      exact absurd h (by simp)
    obtain ⟨fx3, st3⟩ := fs3
    rw [hp3] at h
    obtain ⟨hfx3, hst3⟩ := placeholder_ok_end c3 _ fx3 st3 hp3
    subst hst3
    dsimp only at h
    rcases hp4 : placeholder c4 ⟨(((((s.bytes ++ [0x80]) ++ (if c0.isSome then Dp.write 0 else ([] : List Nat))) ++ (if c1.isSome then Dp.write 0 else ([] : List Nat))) ++ (if c2.isSome then Dp.write 0 else ([] : List Nat))) ++ (if c3.isSome then Dp.write 0 else ([] : List Nat))), ((((((s.bytes ++ [0x80]) ++ (if c0.isSome then Dp.write 0 else ([] : List Nat))) ++ (if c1.isSome then Dp.write 0 else ([] : List Nat))) ++ (if c2.isSome then Dp.write 0 else ([] : List Nat))) ++ (if c3.isSome then Dp.write 0 else ([] : List Nat)))).length⟩ with e | fs4
    · rw [hp4] at h
      exact absurd h (by simp)
    obtain ⟨fx4, st4⟩ := fs4
    rw [hp4] at h
    obtain ⟨hfx4, hst4⟩ := placeholder_ok_end c4 _ fx4 st4 hp4
    subst hst4
    dsimp only at h
    rcases hp5 : placeholder c5 ⟨((((((s.bytes ++ [0x80]) ++ (if c0.isSome then Dp.write 0 else ([] : List Nat))) ++ (if c1.isSome then Dp.write 0 else ([] : List Nat))) ++ (if c2.isSome then Dp.write 0 else ([] : List Nat))) ++ (if c3.isSome then Dp.write 0 else ([] : List Nat))) ++ (if c4.isSome then Dp.write 0 else ([] : List Nat))), (((((((s.bytes ++ [0x80]) ++ (if c0.isSome then Dp.write 0 else ([] : List Nat))) ++ (if c1.isSome then Dp.write 0 else ([] : List Nat))) ++ (if c2.isSome then Dp.write 0 else ([] : List Nat))) ++ (if c3.isSome then Dp.write 0 else ([] : List Nat))) ++ (if c4.isSome then Dp.write 0 else ([] : List Nat)))).length⟩ with e | fs5
    · rw [hp5] at h
      exact absurd h (by simp)
    obtain ⟨fx5, st5⟩ := fs5
    rw [hp5] at h
    obtain ⟨hfx5, hst5⟩ := placeholder_ok_end c5 _ fx5 st5 hp5
    subst hst5
    dsimp only at h
    rcases hp6 : placeholder c6 ⟨(((((((s.bytes ++ [0x80]) ++ (if c0.isSome then Dp.write 0 else ([] : List Nat))) ++ (if c1.isSome then Dp.write 0 else ([] : List Nat))) ++ (if c2.isSome then Dp.write 0 else ([] : List Nat))) ++ (if c3.isSome then Dp.write 0 else ([] : List Nat))) ++ (if c4.isSome then Dp.write 0 else ([] : List Nat))) ++ (if c5.isSome then Dp.write 0 else ([] : List Nat))), ((((((((s.bytes ++ [0x80]) ++ (if c0.isSome then Dp.write 0 else ([] : List Nat))) ++ (if c1.isSome then Dp.write 0 else ([] : List Nat))) ++ (if c2.isSome then Dp.write 0 else ([] : List Nat))) ++ (if c3.isSome then Dp.write 0 else ([] : List Nat))) ++ (if c4.isSome then Dp.write 0 else ([] : List Nat))) ++ (if c5.isSome then Dp.write 0 else ([] : List Nat)))).length⟩ with e | fs6
    · rw [hp6] at h
      exact absurd h (by simp)
    obtain ⟨fx6, st6⟩ := fs6
    rw [hp6] at h
    obtain ⟨hfx6, hst6⟩ := placeholder_ok_end c6 _ fx6 st6 hp6
    subst hst6
    dsimp only at h
    rw [show ((((((((s.bytes ++ [0x80]) ++ (if c0.isSome then Dp.write 0 else ([] : List Nat))) ++ (if c1.isSome then Dp.write 0 else ([] : List Nat))) ++ (if c2.isSome then Dp.write 0 else ([] : List Nat))) ++ (if c3.isSome then Dp.write 0 else ([] : List Nat))) ++ (if c4.isSome then Dp.write 0 else ([] : List Nat))) ++ (if c5.isSome then Dp.write 0 else ([] : List Nat))) ++ (if c6.isSome then Dp.write 0 else ([] : List Nat))) = s.bytes ++ [0x80] ++ ((if c0.isSome then Dp.write 0 else ([] : List Nat)) ++ ((if c1.isSome then Dp.write 0 else ([] : List Nat)) ++ ((if c2.isSome then Dp.write 0 else ([] : List Nat)) ++ ((if c3.isSome then Dp.write 0 else ([] : List Nat)) ++ ((if c4.isSome then Dp.write 0 else ([] : List Nat)) ++ ((if c5.isSome then Dp.write 0 else ([] : List Nat)) ++ (if c6.isSome then Dp.write 0 else ([] : List Nat)))))))) from by
      simp [List.append_assoc]] at h
    rw [wWrite_patch_exact s.bytes [0x80] ((if c0.isSome then Dp.write 0 else ([] : List Nat)) ++ ((if c1.isSome then Dp.write 0 else ([] : List Nat)) ++ ((if c2.isSome then Dp.write 0 else ([] : List Nat)) ++ ((if c3.isSome then Dp.write 0 else ([] : List Nat)) ++ ((if c4.isSome then Dp.write 0 else ([] : List Nat)) ++ ((if c5.isSome then Dp.write 0 else ([] : List Nat)) ++ (if c6.isSome then Dp.write 0 else ([] : List Nat)))))))) [tagByte [c0.isSome, c1.isSome, c2.isSome, c3.isSome, c4.isSome, c5.isSome, c6.isSome]] rfl] at h
    have hadj0 : ((⟨s.bytes ++ [tagByte [c0.isSome, c1.isSome, c2.isSome, c3.isSome, c4.isSome, c5.isSome, c6.isSome]] ++ ((if c0.isSome then Dp.write 0 else ([] : List Nat)) ++ ((if c1.isSome then Dp.write 0 else ([] : List Nat)) ++ ((if c2.isSome then Dp.write 0 else ([] : List Nat)) ++ ((if c3.isSome then Dp.write 0 else ([] : List Nat)) ++ ((if c4.isSome then Dp.write 0 else ([] : List Nat)) ++ ((if c5.isSome then Dp.write 0 else ([] : List Nat)) ++ (if c6.isSome then Dp.write 0 else ([] : List Nat)))))))), s.bytes.length + ([tagByte [c0.isSome, c1.isSome, c2.isSome, c3.isSome, c4.isSome, c5.isSome, c6.isSome]] : List Nat).length⟩ : WS)).bytes = (s.bytes ++ [tagByte [c0.isSome, c1.isSome, c2.isSome, c3.isSome, c4.isSome, c5.isSome, c6.isSome]]) ++ (if c0.isSome then Dp.write 0 else ([] : List Nat)) ++ ((if c1.isSome then Dp.write 0 else ([] : List Nat)) ++ ((if c2.isSome then Dp.write 0 else ([] : List Nat)) ++ ((if c3.isSome then Dp.write 0 else ([] : List Nat)) ++ ((if c4.isSome then Dp.write 0 else ([] : List Nat)) ++ ((if c5.isSome then Dp.write 0 else ([] : List Nat)) ++ (if c6.isSome then Dp.write 0 else ([] : List Nat))))))) := by
      simp [List.append_assoc]
    rcases hw0 : wChild enc c0 fx0 (⟨s.bytes ++ [tagByte [c0.isSome, c1.isSome, c2.isSome, c3.isSome, c4.isSome, c5.isSome, c6.isSome]] ++ ((if c0.isSome then Dp.write 0 else ([] : List Nat)) ++ ((if c1.isSome then Dp.write 0 else ([] : List Nat)) ++ ((if c2.isSome then Dp.write 0 else ([] : List Nat)) ++ ((if c3.isSome then Dp.write 0 else ([] : List Nat)) ++ ((if c4.isSome then Dp.write 0 else ([] : List Nat)) ++ ((if c5.isSome then Dp.write 0 else ([] : List Nat)) ++ (if c6.isSome then Dp.write 0 else ([] : List Nat)))))))), s.bytes.length + ([tagByte [c0.isSome, c1.isSome, c2.isSome, c3.isSome, c4.isSome, c5.isSome, c6.isSome]] : List Nat).length⟩ : WS) with e | snx0
    · rw [hw0] at h
      exact absurd h (by simp)
    rw [hw0] at h
    dsimp only at h
    obtain ⟨o0, T0, hos0, hsh0, holen0, hcors0⟩ :=
      wChild_spec_step enc c0 fx0 (⟨s.bytes ++ [tagByte [c0.isSome, c1.isSome, c2.isSome, c3.isSome, c4.isSome, c5.isSome, c6.isSome]] ++ ((if c0.isSome then Dp.write 0 else ([] : List Nat)) ++ ((if c1.isSome then Dp.write 0 else ([] : List Nat)) ++ ((if c2.isSome then Dp.write 0 else ([] : List Nat)) ++ ((if c3.isSome then Dp.write 0 else ([] : List Nat)) ++ ((if c4.isSome then Dp.write 0 else ([] : List Nat)) ++ ((if c5.isSome then Dp.write 0 else ([] : List Nat)) ++ (if c6.isSome then Dp.write 0 else ([] : List Nat)))))))), s.bytes.length + ([tagByte [c0.isSome, c1.isSome, c2.isSome, c3.isSome, c4.isSome, c5.isSome, c6.isSome]] : List Nat).length⟩ : WS) snx0 hw0
        (fun m np1 s1' hoc hww => write_node_spec enc henc m.size m (⟨s.bytes ++ [tagByte [c0.isSome, c1.isSome, c2.isSome, c3.isSome, c4.isSome, c5.isSome, c6.isSome]] ++ ((if c0.isSome then Dp.write 0 else ([] : List Nat)) ++ ((if c1.isSome then Dp.write 0 else ([] : List Nat)) ++ ((if c2.isSome then Dp.write 0 else ([] : List Nat)) ++ ((if c3.isSome then Dp.write 0 else ([] : List Nat)) ++ ((if c4.isSome then Dp.write 0 else ([] : List Nat)) ++ ((if c5.isSome then Dp.write 0 else ([] : List Nat)) ++ (if c6.isSome then Dp.write 0 else ([] : List Nat)))))))), s.bytes.length + ([tagByte [c0.isSome, c1.isSome, c2.isSome, c3.isSome, c4.isSome, c5.isSome, c6.isSome]] : List Nat).length⟩ : WS) np1 s1'
          le_rfl hww)
        (s.bytes ++ [tagByte [c0.isSome, c1.isSome, c2.isSome, c3.isSome, c4.isSome, c5.isSome, c6.isSome]]) (if c0.isSome then Dp.write 0 else ([] : List Nat)) ((if c1.isSome then Dp.write 0 else ([] : List Nat)) ++ ((if c2.isSome then Dp.write 0 else ([] : List Nat)) ++ ((if c3.isSome then Dp.write 0 else ([] : List Nat)) ++ ((if c4.isSome then Dp.write 0 else ([] : List Nat)) ++ ((if c5.isSome then Dp.write 0 else ([] : List Nat)) ++ (if c6.isSome then Dp.write 0 else ([] : List Nat)))))))
        hadj0
        (by cases c0 <;> rfl)
        (by
          rw [hfx0]
          have he : ((s.bytes ++ [0x80]) : List Nat).length = ((s.bytes ++ [tagByte [c0.isSome, c1.isSome, c2.isSome, c3.isSome, c4.isSome, c5.isSome, c6.isSome]]) : List Nat).length := by
            simp only [List.length_append, List.length_cons,
              List.length_nil] <;> omega
          rw [he])
    have hadj1 : (snx0).bytes = ((s.bytes ++ [tagByte [c0.isSome, c1.isSome, c2.isSome, c3.isSome, c4.isSome, c5.isSome, c6.isSome]]) ++ (o0.elim [] Dp.write)) ++ (if c1.isSome then Dp.write 0 else ([] : List Nat)) ++ ((if c2.isSome then Dp.write 0 else ([] : List Nat)) ++ ((if c3.isSome then Dp.write 0 else ([] : List Nat)) ++ ((if c4.isSome then Dp.write 0 else ([] : List Nat)) ++ ((if c5.isSome then Dp.write 0 else ([] : List Nat)) ++ ((if c6.isSome then Dp.write 0 else ([] : List Nat)) ++ T0))))) := by
      rw [hsh0]
      simp [List.append_assoc]
    rcases hw1 : wChild enc c1 fx1 snx0 with e | snx1
    · rw [hw1] at h
      exact absurd h (by simp)
    rw [hw1] at h
    dsimp only at h
    obtain ⟨o1, T1, hos1, hsh1, holen1, hcors1⟩ :=
      wChild_spec_step enc c1 fx1 snx0 snx1 hw1
        (fun m np1 s1' hoc hww => write_node_spec enc henc m.size m snx0 np1 s1'
          le_rfl hww)
        ((s.bytes ++ [tagByte [c0.isSome, c1.isSome, c2.isSome, c3.isSome, c4.isSome, c5.isSome, c6.isSome]]) ++ (o0.elim [] Dp.write)) (if c1.isSome then Dp.write 0 else ([] : List Nat)) ((if c2.isSome then Dp.write 0 else ([] : List Nat)) ++ ((if c3.isSome then Dp.write 0 else ([] : List Nat)) ++ ((if c4.isSome then Dp.write 0 else ([] : List Nat)) ++ ((if c5.isSome then Dp.write 0 else ([] : List Nat)) ++ ((if c6.isSome then Dp.write 0 else ([] : List Nat)) ++ T0)))))
        hadj1
        (by cases c1 <;> rfl)
        (by
          rw [hfx1]
          have he : (((s.bytes ++ [0x80]) ++ (if c0.isSome then Dp.write 0 else ([] : List Nat))) : List Nat).length = (((s.bytes ++ [tagByte [c0.isSome, c1.isSome, c2.isSome, c3.isSome, c4.isSome, c5.isSome, c6.isSome]]) ++ (o0.elim [] Dp.write)) : List Nat).length := by
            simp only [List.length_append, List.length_cons,
              List.length_nil] <;> omega
          rw [he])
    have hadj2 : (snx1).bytes = (((s.bytes ++ [tagByte [c0.isSome, c1.isSome, c2.isSome, c3.isSome, c4.isSome, c5.isSome, c6.isSome]]) ++ (o0.elim [] Dp.write)) ++ (o1.elim [] Dp.write)) ++ (if c2.isSome then Dp.write 0 else ([] : List Nat)) ++ ((if c3.isSome then Dp.write 0 else ([] : List Nat)) ++ ((if c4.isSome then Dp.write 0 else ([] : List Nat)) ++ ((if c5.isSome then Dp.write 0 else ([] : List Nat)) ++ ((if c6.isSome then Dp.write 0 else ([] : List Nat)) ++ (T0 ++ T1))))) := by
      rw [hsh1]
      simp [List.append_assoc]
    rcases hw2 : wChild enc c2 fx2 snx1 with e | snx2
    · rw [hw2] at h
      exact absurd h (by simp)
    rw [hw2] at h
    dsimp only at h
    obtain ⟨o2, T2, hos2, hsh2, holen2, hcors2⟩ :=
      wChild_spec_step enc c2 fx2 snx1 snx2 hw2
        (fun m np1 s1' hoc hww => write_node_spec enc henc m.size m snx1 np1 s1'
          le_rfl hww)
        (((s.bytes ++ [tagByte [c0.isSome, c1.isSome, c2.isSome, c3.isSome, c4.isSome, c5.isSome, c6.isSome]]) ++ (o0.elim [] Dp.write)) ++ (o1.elim [] Dp.write)) (if c2.isSome then Dp.write 0 else ([] : List Nat)) ((if c3.isSome then Dp.write 0 else ([] : List Nat)) ++ ((if c4.isSome then Dp.write 0 else ([] : List Nat)) ++ ((if c5.isSome then Dp.write 0 else ([] : List Nat)) ++ ((if c6.isSome then Dp.write 0 else ([] : List Nat)) ++ (T0 ++ T1)))))
        hadj2
        (by cases c2 <;> rfl)
        (by
          rw [hfx2]
          have he : ((((s.bytes ++ [0x80]) ++ (if c0.isSome then Dp.write 0 else ([] : List Nat))) ++ (if c1.isSome then Dp.write 0 else ([] : List Nat))) : List Nat).length = ((((s.bytes ++ [tagByte [c0.isSome, c1.isSome, c2.isSome, c3.isSome, c4.isSome, c5.isSome, c6.isSome]]) ++ (o0.elim [] Dp.write)) ++ (o1.elim [] Dp.write)) : List Nat).length := by
            simp only [List.length_append, List.length_cons,
              List.length_nil] <;> omega
          rw [he])
    have hadj3 : (snx2).bytes = ((((s.bytes ++ [tagByte [c0.isSome, c1.isSome, c2.isSome, c3.isSome, c4.isSome, c5.isSome, c6.isSome]]) ++ (o0.elim [] Dp.write)) ++ (o1.elim [] Dp.write)) ++ (o2.elim [] Dp.write)) ++ (if c3.isSome then Dp.write 0 else ([] : List Nat)) ++ ((if c4.isSome then Dp.write 0 else ([] : List Nat)) ++ ((if c5.isSome then Dp.write 0 else ([] : List Nat)) ++ ((if c6.isSome then Dp.write 0 else ([] : List Nat)) ++ (T0 ++ (T1 ++ T2))))) := by
      rw [hsh2]
      simp [List.append_assoc]
    rcases hw3 : wChild enc c3 fx3 snx2 with e | snx3
    · rw [hw3] at h
      exact absurd h (by simp)
    rw [hw3] at h
    dsimp only at h
    obtain ⟨o3, T3, hos3, hsh3, holen3, hcors3⟩ :=
      wChild_spec_step enc c3 fx3 snx2 snx3 hw3
        (fun m np1 s1' hoc hww => write_node_spec enc henc m.size m snx2 np1 s1'
          le_rfl hww)
        ((((s.bytes ++ [tagByte [c0.isSome, c1.isSome, c2.isSome, c3.isSome, c4.isSome, c5.isSome, c6.isSome]]) ++ (o0.elim [] Dp.write)) ++ (o1.elim [] Dp.write)) ++ (o2.elim [] Dp.write)) (if c3.isSome then Dp.write 0 else ([] : List Nat)) ((if c4.isSome then Dp.write 0 else ([] : List Nat)) ++ ((if c5.isSome then Dp.write 0 else ([] : List Nat)) ++ ((if c6.isSome then Dp.write 0 else ([] : List Nat)) ++ (T0 ++ (T1 ++ T2)))))
        hadj3
        (by cases c3 <;> rfl)
        (by
          rw [hfx3]
          have he : (((((s.bytes ++ [0x80]) ++ (if c0.isSome then Dp.write 0 else ([] : List Nat))) ++ (if c1.isSome then Dp.write 0 else ([] : List Nat))) ++ (if c2.isSome then Dp.write 0 else ([] : List Nat))) : List Nat).length = (((((s.bytes ++ [tagByte [c0.isSome, c1.isSome, c2.isSome, c3.isSome, c4.isSome, c5.isSome, c6.isSome]]) ++ (o0.elim [] Dp.write)) ++ (o1.elim [] Dp.write)) ++ (o2.elim [] Dp.write)) : List Nat).length := by
            simp only [List.length_append, List.length_cons,
              List.length_nil] <;> omega
          rw [he])
    have hadj4 : (snx3).bytes = (((((s.bytes ++ [tagByte [c0.isSome, c1.isSome, c2.isSome, c3.isSome, c4.isSome, c5.isSome, c6.isSome]]) ++ (o0.elim [] Dp.write)) ++ (o1.elim [] Dp.write)) ++ (o2.elim [] Dp.write)) ++ (o3.elim [] Dp.write)) ++ (if c4.isSome then Dp.write 0 else ([] : List Nat)) ++ ((if c5.isSome then Dp.write 0 else ([] : List Nat)) ++ ((if c6.isSome then Dp.write 0 else ([] : List Nat)) ++ (T0 ++ (T1 ++ (T2 ++ T3))))) := by
      rw [hsh3]
      simp [List.append_assoc]
    rcases hw4 : wChild enc c4 fx4 snx3 with e | snx4
    · rw [hw4] at h
      exact absurd h (by simp)
    rw [hw4] at h
    dsimp only at h
    obtain ⟨o4, T4, hos4, hsh4, holen4, hcors4⟩ :=
      wChild_spec_step enc c4 fx4 snx3 snx4 hw4
        (fun m np1 s1' hoc hww => write_node_spec enc henc m.size m snx3 np1 s1'
          le_rfl hww)
        (((((s.bytes ++ [tagByte [c0.isSome, c1.isSome, c2.isSome, c3.isSome, c4.isSome, c5.isSome, c6.isSome]]) ++ (o0.elim [] Dp.write)) ++ (o1.elim [] Dp.write)) ++ (o2.elim [] Dp.write)) ++ (o3.elim [] Dp.write)) (if c4.isSome then Dp.write 0 else ([] : List Nat)) ((if c5.isSome then Dp.write 0 else ([] : List Nat)) ++ ((if c6.isSome then Dp.write 0 else ([] : List Nat)) ++ (T0 ++ (T1 ++ (T2 ++ T3)))))
        hadj4
        (by cases c4 <;> rfl)
        (by
          rw [hfx4]
          have he : ((((((s.bytes ++ [0x80]) ++ (if c0.isSome then Dp.write 0 else ([] : List Nat))) ++ (if c1.isSome then Dp.write 0 else ([] : List Nat))) ++ (if c2.isSome then Dp.write 0 else ([] : List Nat))) ++ (if c3.isSome then Dp.write 0 else ([] : List Nat))) : List Nat).length = ((((((s.bytes ++ [tagByte [c0.isSome, c1.isSome, c2.isSome, c3.isSome, c4.isSome, c5.isSome, c6.isSome]]) ++ (o0.elim [] Dp.write)) ++ (o1.elim [] Dp.write)) ++ (o2.elim [] Dp.write)) ++ (o3.elim [] Dp.write)) : List Nat).length := by
            simp only [List.length_append, List.length_cons,
              List.length_nil] <;> omega
          rw [he])
    have hadj5 : (snx4).bytes = ((((((s.bytes ++ [tagByte [c0.isSome, c1.isSome, c2.isSome, c3.isSome, c4.isSome, c5.isSome, c6.isSome]]) ++ (o0.elim [] Dp.write)) ++ (o1.elim [] Dp.write)) ++ (o2.elim [] Dp.write)) ++ (o3.elim [] Dp.write)) ++ (o4.elim [] Dp.write)) ++ (if c5.isSome then Dp.write 0 else ([] : List Nat)) ++ ((if c6.isSome then Dp.write 0 else ([] : List Nat)) ++ (T0 ++ (T1 ++ (T2 ++ (T3 ++ T4))))) := by
      rw [hsh4]
      simp [List.append_assoc]
    rcases hw5 : wChild enc c5 fx5 snx4 with e | snx5
    · rw [hw5] at h
      exact absurd h (by simp)
    rw [hw5] at h
    dsimp only at h
    obtain ⟨o5, T5, hos5, hsh5, holen5, hcors5⟩ :=
      wChild_spec_step enc c5 fx5 snx4 snx5 hw5
        (fun m np1 s1' hoc hww => write_node_spec enc henc m.size m snx4 np1 s1'
          le_rfl hww)
        ((((((s.bytes ++ [tagByte [c0.isSome, c1.isSome, c2.isSome, c3.isSome, c4.isSome, c5.isSome, c6.isSome]]) ++ (o0.elim [] Dp.write)) ++ (o1.elim [] Dp.write)) ++ (o2.elim [] Dp.write)) ++ (o3.elim [] Dp.write)) ++ (o4.elim [] Dp.write)) (if c5.isSome then Dp.write 0 else ([] : List Nat)) ((if c6.isSome then Dp.write 0 else ([] : List Nat)) ++ (T0 ++ (T1 ++ (T2 ++ (T3 ++ T4)))))
        hadj5
        (by cases c5 <;> rfl)
        (by
          rw [hfx5]
          have he : (((((((s.bytes ++ [0x80]) ++ (if c0.isSome then Dp.write 0 else ([] : List Nat))) ++ (if c1.isSome then Dp.write 0 else ([] : List Nat))) ++ (if c2.isSome then Dp.write 0 else ([] : List Nat))) ++ (if c3.isSome then Dp.write 0 else ([] : List Nat))) ++ (if c4.isSome then Dp.write 0 else ([] : List Nat))) : List Nat).length = (((((((s.bytes ++ [tagByte [c0.isSome, c1.isSome, c2.isSome, c3.isSome, c4.isSome, c5.isSome, c6.isSome]]) ++ (o0.elim [] Dp.write)) ++ (o1.elim [] Dp.write)) ++ (o2.elim [] Dp.write)) ++ (o3.elim [] Dp.write)) ++ (o4.elim [] Dp.write)) : List Nat).length := by
            simp only [List.length_append, List.length_cons,
              List.length_nil] <;> omega
          rw [he])
    have hadj6 : (snx5).bytes = (((((((s.bytes ++ [tagByte [c0.isSome, c1.isSome, c2.isSome, c3.isSome, c4.isSome, c5.isSome, c6.isSome]]) ++ (o0.elim [] Dp.write)) ++ (o1.elim [] Dp.write)) ++ (o2.elim [] Dp.write)) ++ (o3.elim [] Dp.write)) ++ (o4.elim [] Dp.write)) ++ (o5.elim [] Dp.write)) ++ (if c6.isSome then Dp.write 0 else ([] : List Nat)) ++ (T0 ++ (T1 ++ (T2 ++ (T3 ++ (T4 ++ T5))))) := by
      rw [hsh5]
      simp [List.append_assoc]
    rcases hw6 : wChild enc c6 fx6 snx5 with e | snx6
    · rw [hw6] at h
      exact absurd h (by simp)
    rw [hw6] at h
    dsimp only at h
    obtain ⟨o6, T6, hos6, hsh6, holen6, hcors6⟩ :=
      wChild_spec_step enc c6 fx6 snx5 snx6 hw6
        (fun m np1 s1' hoc hww => write_node_spec enc henc m.size m snx5 np1 s1'
          le_rfl hww)
        (((((((s.bytes ++ [tagByte [c0.isSome, c1.isSome, c2.isSome, c3.isSome, c4.isSome, c5.isSome, c6.isSome]]) ++ (o0.elim [] Dp.write)) ++ (o1.elim [] Dp.write)) ++ (o2.elim [] Dp.write)) ++ (o3.elim [] Dp.write)) ++ (o4.elim [] Dp.write)) ++ (o5.elim [] Dp.write)) (if c6.isSome then Dp.write 0 else ([] : List Nat)) (T0 ++ (T1 ++ (T2 ++ (T3 ++ (T4 ++ T5)))))
        hadj6
        (by cases c6 <;> rfl)
        (by
          rw [hfx6]
          have he : ((((((((s.bytes ++ [0x80]) ++ (if c0.isSome then Dp.write 0 else ([] : List Nat))) ++ (if c1.isSome then Dp.write 0 else ([] : List Nat))) ++ (if c2.isSome then Dp.write 0 else ([] : List Nat))) ++ (if c3.isSome then Dp.write 0 else ([] : List Nat))) ++ (if c4.isSome then Dp.write 0 else ([] : List Nat))) ++ (if c5.isSome then Dp.write 0 else ([] : List Nat))) : List Nat).length = ((((((((s.bytes ++ [tagByte [c0.isSome, c1.isSome, c2.isSome, c3.isSome, c4.isSome, c5.isSome, c6.isSome]]) ++ (o0.elim [] Dp.write)) ++ (o1.elim [] Dp.write)) ++ (o2.elim [] Dp.write)) ++ (o3.elim [] Dp.write)) ++ (o4.elim [] Dp.write)) ++ (o5.elim [] Dp.write)) : List Nat).length := by
            simp only [List.length_append, List.length_cons,
              List.length_nil] <;> omega
          rw [he])
    simp only [Except.ok.injEq, Prod.mk.injEq] at h
    obtain ⟨hnp, hs2eq⟩ := h
    subst hs2eq
    have hfin : snx6.bytes = s.bytes ++ (tagByte [c0.isSome, c1.isSome, c2.isSome, c3.isSome, c4.isSome, c5.isSome, c6.isSome] :: ((o0.elim [] Dp.write) ++ ((o1.elim [] Dp.write) ++ ((o2.elim [] Dp.write) ++ ((o3.elim [] Dp.write) ++ ((o4.elim [] Dp.write) ++ ((o5.elim [] Dp.write) ++ ((o6.elim [] Dp.write) ++ (T0 ++ (T1 ++ (T2 ++ (T3 ++ (T4 ++ (T5 ++ T6)))))))))))))) := by
      rw [hsh6]
      simp [List.append_assoc]
    refine ⟨tagByte [c0.isSome, c1.isSome, c2.isSome, c3.isSome, c4.isSome, c5.isSome, c6.isSome], ?_, ?_, ?_⟩
    · rw [← hnp, hfin, List.get?_eq_getElem?,
        List.getElem?_append_right (Nat.le_refl _), Nat.sub_self]
      simp
    · intro cx vx heq
      exact absurd heq (by simp)
    · intro cx c0x c1x c2x c3x c4x c5x c6x heq
      injection heq with hcx h0x h1x h2x h3x h4x h5x h6x
      subst h0x
      subst h1x
      subst h2x
      subst h3x
      subst h4x
      subst h5x
      subst h6x
      refine ⟨rfl, tagByte_sentinel c0.isSome c1.isSome c2.isSome c3.isSome
        c4.isSome c5.isSome c6.isSome,
        (tagByte_testBit c0.isSome c1.isSome c2.isSome c3.isSome c4.isSome
          c5.isSome c6.isSome).1, ?_,
        o0, o1, o2, o3, o4, o5, o6, (T0 ++ (T1 ++ (T2 ++ (T3 ++ (T4 ++ (T5 ++ T6)))))),
        hos0, hos1, hos2, hos3, hos4, hos5, hos6, ?_, ?_⟩
      · intro d
        fin_cases d
        · exact (tagByte_testBit c0.isSome c1.isSome c2.isSome c3.isSome c4.isSome c5.isSome c6.isSome).2.1
        · exact (tagByte_testBit c0.isSome c1.isSome c2.isSome c3.isSome c4.isSome c5.isSome c6.isSome).2.2.1
        · exact (tagByte_testBit c0.isSome c1.isSome c2.isSome c3.isSome c4.isSome c5.isSome c6.isSome).2.2.2.1
        · exact (tagByte_testBit c0.isSome c1.isSome c2.isSome c3.isSome c4.isSome c5.isSome c6.isSome).2.2.2.2.1
        · exact (tagByte_testBit c0.isSome c1.isSome c2.isSome c3.isSome c4.isSome c5.isSome c6.isSome).2.2.2.2.2.1
        · exact (tagByte_testBit c0.isSome c1.isSome c2.isSome c3.isSome c4.isSome c5.isSome c6.isSome).2.2.2.2.2.2.1
        · exact (tagByte_testBit c0.isSome c1.isSome c2.isSome c3.isSome c4.isSome c5.isSome c6.isSome).2.2.2.2.2.2.2
      · have h1 : np + 1 = (s.bytes ++ [tagByte [c0.isSome, c1.isSome, c2.isSome, c3.isSome, c4.isSome, c5.isSome, c6.isSome]]).length := by
          rw [← hnp]
          simp
        rw [hfin, show s.bytes ++ (tagByte [c0.isSome, c1.isSome, c2.isSome, c3.isSome, c4.isSome, c5.isSome, c6.isSome] :: ((o0.elim [] Dp.write) ++ ((o1.elim [] Dp.write) ++ ((o2.elim [] Dp.write) ++ ((o3.elim [] Dp.write) ++ ((o4.elim [] Dp.write) ++ ((o5.elim [] Dp.write) ++ ((o6.elim [] Dp.write) ++ (T0 ++ (T1 ++ (T2 ++ (T3 ++ (T4 ++ (T5 ++ T6)))))))))))))) =
          (s.bytes ++ [tagByte [c0.isSome, c1.isSome, c2.isSome, c3.isSome, c4.isSome, c5.isSome, c6.isSome]]) ++ ((o0.elim [] Dp.write) ++ (o1.elim [] Dp.write) ++ (o2.elim [] Dp.write) ++ (o3.elim [] Dp.write) ++ (o4.elim [] Dp.write) ++ (o5.elim [] Dp.write) ++ (o6.elim [] Dp.write) ++ (T0 ++ (T1 ++ (T2 ++ (T3 ++ (T4 ++ (T5 ++ T6))))))) from by
            simp [List.append_assoc], h1, List.drop_left]
      · have hl0 := elim_write_length o0 c0.isSome hos0
        have hl1 := elim_write_length o1 c1.isSome hos1
        have hl2 := elim_write_length o2 c2.isSome hos2
        have hl3 := elim_write_length o3 c3.isSome hos3
        have hl4 := elim_write_length o4 c4.isSome hos4
        have hl5 := elim_write_length o5 c5.isSome hos5
        have hl6 := elim_write_length o6 c6.isSome hos6
        simp only [List.length_append, hl0, hl1, hl2, hl3, hl4, hl5, hl6]
        exact count_blocks c0.isSome c1.isSome c2.isSome c3.isSome c4.isSome
          c5.isSome c6.isSome

end Disk
namespace Disk

/-- Witness for the record-format theorem: a parent with children at
digits 0 and 2, written at the start of an empty stream, gets first
byte `0x85` — top bit set, bitmap `0b0000101`. -/
theorem claim7_witness :
    (∀ v : Nat, ((fun (_ : Nat) => [7]) v).length < 2 ^ 27) ∧
    ∃ b0,
      (⟨[133, 11, 0, 0, 0, 0, 13, 0, 0, 0, 0, 65, 7, 65, 7], 11⟩ :
        WS).bytes.get? 0 = some b0 ∧ b0 = 0x85 := by
  refine ⟨fun v => by norm_num, ?_⟩
  obtain ⟨b0, hb, hleaf, hpar⟩ :=
    claim7_record_format (fun _ => [7]) (fun v => by norm_num)
      (Node.parent 9 (some (.leaf 1 5)) none (some (.leaf 2 6)) none none
        none none)
      ⟨[], 0⟩ 0
      ⟨[133, 11, 0, 0, 0, 0, 13, 0, 0, 0, 0, 65, 7, 65, 7], 11⟩ (by decide)
  obtain ⟨htag, hrest⟩ :=
    hpar 9 (some (.leaf 1 5)) none (some (.leaf 2 6)) none none none none rfl
  exact ⟨b0, hb, by rw [htag]; rfl⟩

end Disk

/-- `cell.rs::CellStack::push` on a non-empty stack: the child of cell
`c` at digit `d` — the resolution field is bumped and the new
resolution's digit set. -/
def cellPush (c d : Nat) : Nat :=
  Index.set_digit (Index.set_res c (Cell.res c + 1)) (Cell.res c + 1) d

/-- `cell.rs::CellStack::push` on the empty stack: the res-0 cell of
base `d`, built from the template index `0x8001fffffffffff`. -/
def baseCellOf (d : Nat) : Nat := Index.set_base 0x8001fffffffffff d

mutual

/-- The yield sequence of the in-memory iterator
(`iteration.rs::Iter::next`): a stack-driven depth-first traversal that
visits children in ascending digit order and, at each leaf, yields the
cell rebuilt from the digit path by the `CellStack` together with the
leaf's value (the `Node` of `iteration.rs` stores no cell, so the cell
comes from the path). The sequence below is exactly what driving
`next()` to exhaustion produces, seeded at `cell`. -/
def Node.iterSeq : Node V → Nat → List (Nat × V)
  | .leaf _ v, cell => [(cell, v)]
  | .parent _ c0 c1 c2 c3 c4 c5 c6, cell =>
    Node.iterSeqO c0 cell 0 ++ Node.iterSeqO c1 cell 1 ++
    Node.iterSeqO c2 cell 2 ++ Node.iterSeqO c3 cell 3 ++
    Node.iterSeqO c4 cell 4 ++ Node.iterSeqO c5 cell 5 ++
    Node.iterSeqO c6 cell 6

/-- One child slot of the traversal: an absent child contributes
nothing, a present one its subtree below the pushed digit. -/
def Node.iterSeqO : Option (Node V) → Nat → Nat → List (Nat × V)
  | none, _, _ => []
  | some m, cell, d => Node.iterSeq m (cellPush cell d)

end

/-- One root slot's contribution to the in-memory iteration: an
occupied base slot is traversed from its base cell, an empty one (or an
index past the array) yields nothing. -/
def HexTreeMap.slotSeq (t : HexTreeMap V) (b : Nat) : List (Nat × V) :=
  match t.nodes.get? b with
  | some (some n) => Node.iterSeq n (baseCellOf b)
  | _ => []

/-- `HexTreeMap::iter` (via `iteration.rs::Iter::new` over the 122-slot
root array): occupied base slots in ascending order, each traversal
seeded with the slot's base cell. -/
def HexTreeMap.iterSeq (t : HexTreeMap V) : List (Nat × V) :=
  ((List.range 122).map (t.slotSeq)).join

namespace Disk

/-- One child slot of the disk iterator's descent
(`iter.rs::Iter::next`, the `Ok(Node::Parent(..))` arm): an absent
child is skipped, a present child's subtree is traversed below the
pushed digit by the supplied continuation. -/
def dSlot (rec : Nat → Nat → Option (List (Nat × List Nat)))
    (o : Option (Option Nat)) (d cell : Nat) :
    Option (List (Nat × List Nat)) :=
  match o with
  | some (some cp) => rec cp (cellPush cell d)
  | _ => some []

/-- The yield sequence of `iter.rs::Iter::next` below one node: the
stack machine performs a depth-first traversal in ascending digit order
(children are collected in reverse and popped from the back), parses
each record with `iter.rs::Iter::read_node` — whose tag test and
child-pointer loop coincide with `node.rs::Node::read`, reused here as
`DNode.read` — and at a leaf seeks back to the record, re-reads the
length varint and yields the path cell with the value slice
`buf[vbegin..vend]` (an out-of-bounds slice panics, and an I/O error
stops the iteration: both are `none` here). `fuel` bounds the descent
depth, which a well-formed file cannot exceed. -/
def dIterNode (buf : List Nat) : Nat → Nat → Nat →
    Option (List (Nat × List Nat))
  | 0, _, _ => none
  | fuel + 1, dp, cell =>
    match DNode.read buf dp with
    | .error _ => none
    | .ok (.leaf vb ve) =>
      if ve ≤ buf.length then some [(cell, (buf.drop vb).take (ve - vb))]
      else none
    | .ok (.parent cs) =>
      match dSlot (fun cp cell2 => dIterNode buf fuel cp cell2)
          (cs.get? 0) 0 cell with
      | none => none
      | some y0 =>
      match dSlot (fun cp cell2 => dIterNode buf fuel cp cell2)
          (cs.get? 1) 1 cell with
      | none => none
      | some y1 =>
      match dSlot (fun cp cell2 => dIterNode buf fuel cp cell2)
          (cs.get? 2) 2 cell with
      | none => none
      | some y2 =>
      match dSlot (fun cp cell2 => dIterNode buf fuel cp cell2)
          (cs.get? 3) 3 cell with
      | none => none
      | some y3 =>
      match dSlot (fun cp cell2 => dIterNode buf fuel cp cell2)
          (cs.get? 4) 4 cell with
      | none => none
      | some y4 =>
      match dSlot (fun cp cell2 => dIterNode buf fuel cp cell2)
          (cs.get? 5) 5 cell with
      | none => none
      | some y5 =>
      match dSlot (fun cp cell2 => dIterNode buf fuel cp cell2)
          (cs.get? 6) 6 cell with
      | none => none
      | some y6 => some (y0 ++ y1 ++ y2 ++ y3 ++ y4 ++ y5 ++ y6)

/-- `iter.rs::Iter::read_base_nodes` followed by the traversal: the
occupied base slots (5-byte pointer at `HDR_SZ + 5 * b` non-null) in
ascending order, each seeded with its base cell. -/
def dIterBases (buf : List Nat) (fuel : Nat) :
    List Nat → Option (List (Nat × List Nat))
  | [] => some []
  | b :: rest =>
    match Dp.read (buf.drop (HDR_SZ + 5 * b)) with
    | .error _ => none
    | .ok dp =>
      if dp = 0 then dIterBases buf fuel rest
      else
        match dIterNode buf fuel dp (baseCellOf b) with
        | none => none
        | some ys =>
          match dIterBases buf fuel rest with
          | none => none
          | some zs => some (ys ++ zs)

/-- The full yield sequence of `DiskTreeMap::iter`. -/
def dIter (buf : List Nat) (fuel : Nat) : Option (List (Nat × List Nat)) :=
  dIterBases buf fuel (List.range 122)

end Disk
namespace Disk

/-- One child slot of the descent follows the decoded slot: skipped
when absent, traversed through the continuation when present. -/
theorem dSlot_of (enc : V → List Nat) (buf : List Nat) (lo fuel : Nat)
    (o : Option (Option Nat)) (cN : Option (Node V)) (d cell : Nat)
    (h : CorrespondsO enc buf lo o cN)
    (hrec : ∀ m cp, cN = some m → o = some (some cp) →
      Corresponds enc buf lo cp m →
      dIterNode buf fuel cp (cellPush cell d) =
        some ((Node.iterSeq m (cellPush cell d)).map
          (fun p => (p.1, enc p.2)))) :
    dSlot (fun cp cell2 => dIterNode buf fuel cp cell2) o d cell =
      some ((Node.iterSeqO cN cell d).map (fun p => (p.1, enc p.2))) := by
  cases cN with
  | none =>
    rw [CorrespondsO] at h
    rw [h]
    simp [dSlot, Node.iterSeqO]
  | some m =>
    rw [CorrespondsO] at h
    obtain ⟨cp, hcp, hcor⟩ := h
    rw [hcp]
    simp only [dSlot]
    rw [hrec m cp rfl hcp hcor]
    simp [Node.iterSeqO]

/-- A node that corresponds to a disk position is traversed by the
disk iterator into exactly the in-memory yield sequence with each
value replaced by its encoding. -/
theorem dIter_of_corresponds (enc : V → List Nat) (buf : List Nat)
    (lo : Nat) :
    ∀ (k : Nat) (n : Node V) (dp cell fuel : Nat), n.size ≤ k →
      n.size ≤ fuel → Corresponds enc buf lo dp n →
      dIterNode buf fuel dp cell =
        some ((Node.iterSeq n cell).map (fun p => (p.1, enc p.2))) := by
  intro k
  induction k with
  | zero =>
    intro n dp cell fuel hsz hfl hc
    have := node_size_pos n
    omega
  | succ k ih =>
    intro n dp cell fuel hsz hfl hc
    cases n with
    | leaf c v =>
      rw [Corresponds] at hc
      obtain ⟨hlo, vb, kk, hw, hread, hslice, hbound⟩ := hc
      obtain ⟨fl, rfl⟩ : ∃ f, fuel = f + 1 := ⟨fuel - 1, by
        have h1 : (1 : Nat) ≤ fuel := hfl
        omega⟩
      rw [dIterNode, hread]
      dsimp only
      rw [if_pos (show dp + kk + (enc v).length ≤ buf.length from hbound)]
      rw [show dp + kk + (enc v).length - (dp + kk) = (enc v).length from by
        omega, hslice, Node.iterSeq]
      rfl
    | parent c c0 c1 c2 c3 c4 c5 c6 =>
      rw [Corresponds] at hc
      obtain ⟨hlo, cs, hread, h0, h1, h2, h3, h4, h5, h6⟩ := hc
      obtain ⟨fl, rfl⟩ : ∃ f, fuel = f + 1 := ⟨fuel - 1, by
        have h9 := node_size_pos (Node.parent c c0 c1 c2 c3 c4 c5 c6)
        omega⟩
      rw [dIterNode, hread]
      dsimp only
      rw [dSlot_of enc buf lo fl (cs.get? 0) c0 0 cell h0
        (fun m cp hm hcpo hcor => ih m cp (cellPush cell 0) fl
          (by
            have hlt : m.size <
                (Node.parent c c0 c1 c2 c3 c4 c5 c6).size :=
              Node.size_childSel
                (show Node.childSel c0 c1 c2 c3 c4 c5 c6 0 = some m from by
                  rw [hm]; rfl)
            rw [Node.size_parent] at hsz hlt
            omega)
          (by
            have hlt : m.size <
                (Node.parent c c0 c1 c2 c3 c4 c5 c6).size :=
              Node.size_childSel
                (show Node.childSel c0 c1 c2 c3 c4 c5 c6 0 = some m from by
                  rw [hm]; rfl)
            rw [Node.size_parent] at hfl hlt
            omega)
          hcor)]
      rw [dSlot_of enc buf lo fl (cs.get? 1) c1 1 cell h1
        (fun m cp hm hcpo hcor => ih m cp (cellPush cell 1) fl
          (by
            have hlt : m.size <
                (Node.parent c c0 c1 c2 c3 c4 c5 c6).size :=
              Node.size_childSel
                (show Node.childSel c0 c1 c2 c3 c4 c5 c6 1 = some m from by
                  rw [hm]; rfl)
            rw [Node.size_parent] at hsz hlt
            omega)
          (by
            have hlt : m.size <
                (Node.parent c c0 c1 c2 c3 c4 c5 c6).size :=
              Node.size_childSel
                (show Node.childSel c0 c1 c2 c3 c4 c5 c6 1 = some m from by
                  rw [hm]; rfl)
            rw [Node.size_parent] at hfl hlt
            omega)
          hcor)]
      rw [dSlot_of enc buf lo fl (cs.get? 2) c2 2 cell h2
        (fun m cp hm hcpo hcor => ih m cp (cellPush cell 2) fl
          (by
            have hlt : m.size <
                (Node.parent c c0 c1 c2 c3 c4 c5 c6).size :=
              Node.size_childSel
                (show Node.childSel c0 c1 c2 c3 c4 c5 c6 2 = some m from by
                  rw [hm]; rfl)
            rw [Node.size_parent] at hsz hlt
            omega)
          (by
            have hlt : m.size <
                (Node.parent c c0 c1 c2 c3 c4 c5 c6).size :=
              Node.size_childSel
                (show Node.childSel c0 c1 c2 c3 c4 c5 c6 2 = some m from by
                  rw [hm]; rfl)
            rw [Node.size_parent] at hfl hlt
            omega)
          hcor)]
      rw [dSlot_of enc buf lo fl (cs.get? 3) c3 3 cell h3
        (fun m cp hm hcpo hcor => ih m cp (cellPush cell 3) fl
          (by
            have hlt : m.size <
                (Node.parent c c0 c1 c2 c3 c4 c5 c6).size :=
              Node.size_childSel
                (show Node.childSel c0 c1 c2 c3 c4 c5 c6 3 = some m from by
                  rw [hm]; rfl)
            rw [Node.size_parent] at hsz hlt
            omega)
          (by
            have hlt : m.size <
                (Node.parent c c0 c1 c2 c3 c4 c5 c6).size :=
              Node.size_childSel
                (show Node.childSel c0 c1 c2 c3 c4 c5 c6 3 = some m from by
                  rw [hm]; rfl)
            rw [Node.size_parent] at hfl hlt
            omega)
          hcor)]
      rw [dSlot_of enc buf lo fl (cs.get? 4) c4 4 cell h4
        (fun m cp hm hcpo hcor => ih m cp (cellPush cell 4) fl
          (by
            have hlt : m.size <
                (Node.parent c c0 c1 c2 c3 c4 c5 c6).size :=
              Node.size_childSel
                (show Node.childSel c0 c1 c2 c3 c4 c5 c6 4 = some m from by
                  rw [hm]; rfl)
            rw [Node.size_parent] at hsz hlt
            omega)
          (by
            have hlt : m.size <
                (Node.parent c c0 c1 c2 c3 c4 c5 c6).size :=
              Node.size_childSel
                (show Node.childSel c0 c1 c2 c3 c4 c5 c6 4 = some m from by
                  rw [hm]; rfl)
            rw [Node.size_parent] at hfl hlt
            omega)
          hcor)]
      rw [dSlot_of enc buf lo fl (cs.get? 5) c5 5 cell h5
        (fun m cp hm hcpo hcor => ih m cp (cellPush cell 5) fl
          (by
            have hlt : m.size <
                (Node.parent c c0 c1 c2 c3 c4 c5 c6).size :=
              Node.size_childSel
                (show Node.childSel c0 c1 c2 c3 c4 c5 c6 5 = some m from by
                  rw [hm]; rfl)
            rw [Node.size_parent] at hsz hlt
            omega)
          (by
            have hlt : m.size <
                (Node.parent c c0 c1 c2 c3 c4 c5 c6).size :=
              Node.size_childSel
                (show Node.childSel c0 c1 c2 c3 c4 c5 c6 5 = some m from by
                  rw [hm]; rfl)
            rw [Node.size_parent] at hfl hlt
            omega)
          hcor)]
      rw [dSlot_of enc buf lo fl (cs.get? 6) c6 6 cell h6
        (fun m cp hm hcpo hcor => ih m cp (cellPush cell 6) fl
          (by
            have hlt : m.size <
                (Node.parent c c0 c1 c2 c3 c4 c5 c6).size :=
              Node.size_childSel
                (show Node.childSel c0 c1 c2 c3 c4 c5 c6 6 = some m from by
                  rw [hm]; rfl)
            rw [Node.size_parent] at hsz hlt
            omega)
          (by
            have hlt : m.size <
                (Node.parent c c0 c1 c2 c3 c4 c5 c6).size :=
              Node.size_childSel
                (show Node.childSel c0 c1 c2 c3 c4 c5 c6 6 = some m from by
                  rw [hm]; rfl)
            rw [Node.size_parent] at hfl hlt
            omega)
          hcor)]
      dsimp only
      rw [Node.iterSeq]
      simp [List.map_append]

end Disk
namespace Disk

/-- Two buffers that agree pointwise on a window have equal slices
there. -/
theorem slice_eq_of_agree (b b2 : List Nat) (p len : Nat)
    (hag : ∀ i, p ≤ i → i < p + len → b2.get? i = b.get? i) :
    (b2.drop p).take len = (b.drop p).take len := by
  apply List.ext_getElem?
  intro j
  rw [List.getElem?_take, List.getElem?_take]
  split_ifs with hj
  · rw [List.getElem?_drop, List.getElem?_drop]
    have hx := hag (p + j) (by omega) (by omega)
    rw [List.get?_eq_getElem?, List.get?_eq_getElem?] at hx
    exact hx
  · rfl

/-- Reading back an in-place patch returns the patched bytes. -/
theorem patch_slice (data bs : List Nat) (p : Nat)
    (h : p + data.length ≤ bs.length) :
    ((wWrite data ⟨bs, p⟩).bytes.drop p).take data.length = data := by
  simp only [wWrite]
  rw [show bs.take p ++ data ++ bs.drop (p + data.length) =
    bs.take p ++ (data ++ bs.drop (p + data.length)) from by
      simp [List.append_assoc]]
  rw [List.drop_left' (by rw [List.length_take]; omega)]
  rw [take_append_big data _ data.length (Nat.le_refl _), Nat.sub_self,
    List.take_zero, List.append_nil]

/-- The base-slot fixup loop (`writer.rs::DiskTreeWriter::write`): it
only grows the stream, patches nothing outside its own 5-byte slot
region, and leaves every slot either untouched (absent root) or holding
the 5-byte position of a record that corresponds to the root written
there. -/
theorem writeBases_spec (enc : V → List Nat)
    (henc : ∀ v, (enc v).length < 2 ^ 27) :
    ∀ (slots : List (Option (Node V))) (fx : Nat) (s s2 : WS),
      writeBases enc slots fx s = .ok s2 →
      fx + 5 * slots.length ≤ s.bytes.length →
      s.bytes.length ≤ s2.bytes.length ∧
      (∀ i, i < s.bytes.length → (i < fx ∨ fx + 5 * slots.length ≤ i) →
        s2.bytes.get? i = s.bytes.get? i) ∧
      (∀ j, j < slots.length →
        (slots.get? j = some none →
          (s2.bytes.drop (fx + 5 * j)).take 5 =
            (s.bytes.drop (fx + 5 * j)).take 5) ∧
        (∀ n, slots.get? j = some (some n) →
          ∃ np, (s2.bytes.drop (fx + 5 * j)).take 5 = Dp.write np ∧
            s.bytes.length ≤ np ∧ np < 2 ^ 40 ∧
            Corresponds enc s2.bytes s.bytes.length np n)) := by
  intro slots
  induction slots with
  | nil =>
    intro fx s s2 h hfx
    rw [writeBases] at h
    simp only [Except.ok.injEq] at h
    subst h
    exact ⟨le_rfl, fun i hi hcond => rfl, fun j hj => absurd hj (by simp)⟩
  | cons slot rest ih =>
    intro fx s s2 h hfx
    cases slot with
    | none =>
      rw [writeBases] at h
      have hfx' : (fx + 5) + 5 * rest.length ≤ s.bytes.length := by
        simp only [List.length_cons] at hfx
        omega
      obtain ⟨hgrow, hpres, hslots⟩ := ih (fx + 5) s s2 h hfx'
      refine ⟨hgrow, ?_, ?_⟩
      · intro i hi hcond
        simp only [List.length_cons] at hcond
        exact hpres i hi (by omega)
      · intro j hj
        cases j with
        | zero =>
          constructor
          · intro hsl
            exact slice_eq_of_agree s.bytes s2.bytes (fx + 5 * 0) 5
              (fun i hi1 hi2 => hpres i (by omega) (by omega))
          · intro n hsl
            exact absurd hsl (by simp)
        | succ j =>
          simp only [List.length_cons] at hj
          obtain ⟨hemp, hocc⟩ := hslots j (by omega)
          have hpos : fx + 5 * (j + 1) = (fx + 5) + 5 * j := by omega
          constructor
          · intro hsl
            rw [hpos]
            exact hemp (by simpa using hsl)
          · intro n hsl
            rw [hpos]
            exact hocc n (by simpa using hsl)
    | some n =>
      rw [writeBases] at h
      rcases hf : Dp.fromU64 fx with _ | fxok
      · rw [hf] at h
        exact absurd h (by simp)
      rw [hf] at h
      dsimp only at h
      rcases hwn : write_node enc n s with e | pr
      · rw [hwn] at h
        exact absurd h (by simp)
      obtain ⟨np, s1⟩ := pr
      rw [hwn] at h
      dsimp only at h
      obtain ⟨hnp, hmax, hgrow1, hpres1, hcor1⟩ :=
        write_node_spec enc henc n.size n s np s1 le_rfl hwn
      simp only [List.length_cons] at hfx
      have hfx5 : fx + 5 ≤ s.bytes.length := by omega
      have hsPlen : (wWrite (Dp.write np) ⟨s1.bytes, fx⟩).bytes.length =
          s1.bytes.length :=
        wWrite_patch_length _ _ _ (by rw [dp_write_length]; omega)
      have hPout : ∀ i, (i < fx ∨ fx + 5 ≤ i) →
          (wWrite (Dp.write np) ⟨s1.bytes, fx⟩).bytes.get? i =
            s1.bytes.get? i := by
        intro i hcond
        rw [wWrite_patch_get (Dp.write np) s1.bytes fx i
          (by rw [dp_write_length]; omega)]
        rw [dp_write_length]
        rcases hcond with hlt | hge
        · rw [if_pos hlt]
        · rw [if_neg (by omega), if_neg (by omega)]
      have hfx' : (fx + 5) + 5 * rest.length ≤
          (wWrite (Dp.write np) ⟨s1.bytes, fx⟩).bytes.length := by
        rw [hsPlen]
        omega
      obtain ⟨hgrow2, hpres2, hslots2⟩ := ih (fx + 5) _ s2 h hfx'
      refine ⟨by omega, ?_, ?_⟩
      · intro i hi hcond
        simp only [List.length_cons] at hcond
        rw [hpres2 i (by omega) (by omega), hPout i (by omega), hpres1 i hi]
      · intro j hj
        cases j with
        | zero =>
          constructor
          · intro hsl
            exact absurd hsl (by simp)
          · intro n2 hsl
            have hn2 : n = n2 := by simpa using hsl
            subst hn2
            refine ⟨np, ?_, by omega, hmax, ?_⟩
            · rw [show fx + 5 * 0 = fx from by omega]
              have hA : (s2.bytes.drop fx).take 5 =
                  ((wWrite (Dp.write np) ⟨s1.bytes, fx⟩).bytes.drop fx).take
                    5 :=
                slice_eq_of_agree _ s2.bytes fx 5
                  (fun i hi1 hi2 => hpres2 i (by omega) (by omega))
              rw [hA]
              have hB := patch_slice (Dp.write np) s1.bytes fx
                (by rw [dp_write_length]; omega)
              rw [dp_write_length] at hB
              exact hB
            · have hstep1 := corresponds_stable enc s1.bytes
                (wWrite (Dp.write np) ⟨s1.bytes, fx⟩).bytes s.bytes.length
                (fun i hi1 hi2 => hPout i (Or.inr (by omega)))
                (by omega) n.size n np le_rfl hcor1
              exact corresponds_stable enc
                (wWrite (Dp.write np) ⟨s1.bytes, fx⟩).bytes s2.bytes
                s.bytes.length
                (fun i hi1 hi2 => hpres2 i hi2 (Or.inr (by omega)))
                hgrow2 n.size n np le_rfl hstep1
        | succ j =>
          simp only [List.length_cons] at hj
          obtain ⟨hemp, hocc⟩ := hslots2 j (by omega)
          have hpos : fx + 5 * (j + 1) = (fx + 5) + 5 * j := by omega
          constructor
          · intro hsl
            rw [hpos]
            rw [hemp (by simpa using hsl)]
            exact slice_eq_of_agree s.bytes _ ((fx + 5) + 5 * j) 5
              (fun i hi1 hi2 => by
                rw [hPout i (Or.inr (by omega)), hpres1 i (by omega)])
          · intro n2 hsl
            rw [hpos]
            obtain ⟨np2, hslice2, hge2, hmax2, hcor2⟩ :=
              hocc n2 (by simpa using hsl)
            refine ⟨np2, hslice2, by omega, hmax2, ?_⟩
            exact corresponds_mono enc s2.bytes
              (wWrite (Dp.write np) ⟨s1.bytes, fx⟩).bytes.length
              s.bytes.length (by omega) n2.size n2 np2 le_rfl hcor2

end Disk

namespace Disk

/-- The base loop of the disk iterator, against per-slot facts: a null
pointer is skipped, a non-null one contributes its subtree's yields. -/
theorem dIterBases_build (buf : List Nat) (fuel : Nat)
    (F : Nat → List (Nat × List Nat)) :
    ∀ (bl : List Nat),
      (∀ b ∈ bl, ∃ np, Dp.read (buf.drop (HDR_SZ + 5 * b)) = .ok np ∧
        ((np = 0 ∧ F b = []) ∨
         (np ≠ 0 ∧ dIterNode buf fuel np (baseCellOf b) = some (F b)))) →
      dIterBases buf fuel bl = some ((bl.map F).join) := by
  intro bl
  induction bl with
  | nil =>
    intro hb
    rfl
  | cons b rest ih =>
    intro hb
    obtain ⟨np, hread, hcase⟩ := hb b (List.mem_cons_self b rest)
    rw [dIterBases, hread]
    dsimp only
    rcases hcase with ⟨h0, hF⟩ | ⟨h0, hN⟩
    · rw [if_pos h0, ih (fun b2 hb2 => hb b2 (List.mem_cons_of_mem b hb2))]
      simp [hF]
    · rw [if_neg h0, hN]
      dsimp only
      rw [ih (fun b2 hb2 => hb b2 (List.mem_cons_of_mem b hb2))]
      simp

/-- A 5-byte window of the untouched placeholder area is a null
pointer. -/
theorem slot_zero (b : Nat) (hb : b < 122) :
    ((((HDR_MAGIC ++ [0xFE]) ++ List.replicate 610 0).drop
      (HDR_SZ + 5 * b)).take 5) = Dp.write 0 := by
  rw [show HDR_SZ + 5 * b = ((HDR_MAGIC ++ [0xFE]) : List Nat).length + 5 * b
    from rfl]
  rw [List.drop_append]
  rw [List.drop_replicate, List.take_replicate]
  rw [show min 5 (610 - 5 * b) = 5 from by omega]
  rfl

/-- Splitting off a known 5-byte window: the remainder of the buffer
starts with it. -/
theorem read_of_slice (buf : List Nat) (pos np : Nat) (h40 : np < 2 ^ 40)
    (hslice : (buf.drop pos).take 5 = Dp.write np) :
    Dp.read (buf.drop pos) = .ok np := by
  have hsplit : buf.drop pos = Dp.write np ++ (buf.drop pos).drop 5 := by
    conv_lhs => rw [← List.take_append_drop 5 (buf.drop pos)]
    rw [hslice]
  rw [hsplit]
  exact dp_read_write np h40 _

end Disk

namespace Disk

set_option maxHeartbeats 1000000 in
set_option maxRecDepth 8000 in
/-- C3: serializing a 122-slot map with `DiskTreeWriter::write` and
iterating the resulting image with `DiskTreeMap::iter` yields exactly
the same `(cell, value)` sequence, in the same order, as the in-memory
`HexTreeMap::iter`, for every encoder/decoder pair that is a true
inverse (`dec ∘ enc = id`). The encoder must fit the varint bound the
writer itself enforces, and `fuel` is any bound on the depth of the
stored trees (the stack machine of `iter.rs` descends one level per
stack frame, so any tree's node count suffices). -/
theorem claim3_roundtrip (enc : V → List Nat) (dec : List Nat → V)
    (henc : ∀ v, (enc v).length < 2 ^ 27)
    (hdec : ∀ v, dec (enc v) = v)
    (t : HexTreeMap V) (hlen : t.nodes.length = 122)
    (s2 : WS) (hw : write enc t = .ok s2)
    (fuel : Nat)
    (hfuel : ∀ o ∈ t.nodes, (o.elim 0 Node.size) ≤ fuel) :
    (dIter s2.bytes fuel).map
        (fun l => l.map (fun p => (p.1, dec p.2))) =
      some (HexTreeMap.iterSeq t) := by
  rw [write, hlen] at hw
  rw [show wWrite (List.replicate (5 * 122) 0)
      (wWrite (HDR_MAGIC ++ [0xFE]) ⟨[], 0⟩) =
      ⟨(HDR_MAGIC ++ [0xFE]) ++ List.replicate 610 0, 619⟩ from by
    decide] at hw
  obtain ⟨hgrow, hpres, hslots⟩ := writeBases_spec enc henc t.nodes HDR_SZ
    ⟨(HDR_MAGIC ++ [0xFE]) ++ List.replicate 610 0, 619⟩ s2 hw
    (by rw [hlen]; decide)
  have hS0 : ((⟨(HDR_MAGIC ++ [0xFE]) ++ List.replicate 610 0, 619⟩ :
      WS)).bytes.length = 619 := by decide
  rw [hS0] at hgrow hslots
  have hbfacts : ∀ b ∈ List.range 122,
      ∃ np, Dp.read (s2.bytes.drop (HDR_SZ + 5 * b)) = .ok np ∧
        ((np = 0 ∧
            (HexTreeMap.slotSeq t b).map (fun p => (p.1, enc p.2)) = []) ∨
         (np ≠ 0 ∧ dIterNode s2.bytes fuel np (baseCellOf b) =
            some ((HexTreeMap.slotSeq t b).map (fun p => (p.1, enc p.2))))) := by
    intro b hbmem
    have hb122 : b < 122 := List.mem_range.mp hbmem
    rcases hsb : t.nodes.get? b with _ | o
    · rw [List.get?_eq_none] at hsb
      omega
    rcases o with _ | n
    · obtain ⟨hemp, _⟩ := hslots b (by omega)
      have hslice := hemp hsb
      refine ⟨0, read_of_slice s2.bytes _ 0 (by decide) ?_, Or.inl ⟨rfl, ?_⟩⟩
      · rw [hslice]
        exact slot_zero b hb122
      · rw [HexTreeMap.slotSeq, hsb]
        rfl
    · obtain ⟨_, hocc⟩ := hslots b (by omega)
      obtain ⟨np, hslice, hge, h40, hcor⟩ := hocc n hsb
      have hmem : some n ∈ t.nodes := List.get?_mem hsb
      have hsz : n.size ≤ fuel := hfuel (some n) hmem
      refine ⟨np, read_of_slice s2.bytes _ np h40 hslice,
        Or.inr ⟨by omega, ?_⟩⟩
      rw [dIter_of_corresponds enc s2.bytes 619 n.size n np (baseCellOf b)
        fuel le_rfl hsz hcor]
      rw [HexTreeMap.slotSeq, hsb]
  rw [dIter, dIterBases_build s2.bytes fuel
    (fun b => (HexTreeMap.slotSeq t b).map (fun p => (p.1, enc p.2)))
    (List.range 122) hbfacts]
  rw [Option.map_some']
  have hcomp : ∀ l : List (Nat × V),
      (l.map (fun p => (p.1, enc p.2))).map (fun p => (p.1, dec p.2)) = l := by
    intro l
    rw [List.map_map]
    have hfun : ((fun p : Nat × List Nat => (p.1, dec p.2)) ∘
        (fun p : Nat × V => (p.1, enc p.2))) = id := by
      funext p
      simp [hdec]
    rw [hfun, List.map_id]
  have hfin : (((List.range 122).map (fun b =>
      (HexTreeMap.slotSeq t b).map (fun p => (p.1, enc p.2)))).join).map
        (fun p : Nat × List Nat => (p.1, dec p.2)) =
      ((List.range 122).map (t.slotSeq)).join := by
    rw [List.map_join, List.map_map]
    have hF : ((List.map (fun p : Nat × List Nat => (p.1, dec p.2))) ∘
        (fun b => (HexTreeMap.slotSeq t b).map (fun p => (p.1, enc p.2)))) =
        t.slotSeq := by
      funext b
      exact hcomp (HexTreeMap.slotSeq t b)
    rw [hF]
  rw [HexTreeMap.iterSeq]
  exact congrArg some hfin

end Disk

namespace Disk

set_option maxRecDepth 8000 in
/-- Witness for the round-trip theorem: a map holding a two-leaf parent
at base 0 and a single leaf at base 7, written with a one-byte `Bool`
coder, then read back by the disk iterator. -/
theorem claim3_witness :
    (dIter ((⟨
      [104, 101, 120, 116, 114, 101, 101, 0, 254, 107, 2, 0, 0, 0, 0, 0,
      0, 0, 0, 0, 0, 0, 0, 0, 0, 0, 0, 0, 0, 0, 0, 0, 0, 0, 0, 0, 0, 0, 0,
      0, 0, 0, 0, 0, 122, 2, 0, 0, 0, 0, 0, 0, 0, 0, 0, 0, 0, 0, 0, 0, 0,
      0, 0, 0, 0, 0, 0, 0, 0, 0, 0, 0, 0, 0, 0, 0, 0, 0, 0, 0, 0, 0, 0, 0,
      0, 0, 0, 0, 0, 0, 0, 0, 0, 0, 0, 0, 0, 0, 0, 0, 0, 0, 0, 0, 0, 0, 0,
      0, 0, 0, 0, 0, 0, 0, 0, 0, 0, 0, 0, 0, 0, 0, 0, 0, 0, 0, 0, 0, 0, 0,
      0, 0, 0, 0, 0, 0, 0, 0, 0, 0, 0, 0, 0, 0, 0, 0, 0, 0, 0, 0, 0, 0, 0,
      0, 0, 0, 0, 0, 0, 0, 0, 0, 0, 0, 0, 0, 0, 0, 0, 0, 0, 0, 0, 0, 0, 0,
      0, 0, 0, 0, 0, 0, 0, 0, 0, 0, 0, 0, 0, 0, 0, 0, 0, 0, 0, 0, 0, 0, 0,
      0, 0, 0, 0, 0, 0, 0, 0, 0, 0, 0, 0, 0, 0, 0, 0, 0, 0, 0, 0, 0, 0, 0,
      0, 0, 0, 0, 0, 0, 0, 0, 0, 0, 0, 0, 0, 0, 0, 0, 0, 0, 0, 0, 0, 0, 0,
      0, 0, 0, 0, 0, 0, 0, 0, 0, 0, 0, 0, 0, 0, 0, 0, 0, 0, 0, 0, 0, 0, 0,
      0, 0, 0, 0, 0, 0, 0, 0, 0, 0, 0, 0, 0, 0, 0, 0, 0, 0, 0, 0, 0, 0, 0,
      0, 0, 0, 0, 0, 0, 0, 0, 0, 0, 0, 0, 0, 0, 0, 0, 0, 0, 0, 0, 0, 0, 0,
      0, 0, 0, 0, 0, 0, 0, 0, 0, 0, 0, 0, 0, 0, 0, 0, 0, 0, 0, 0, 0, 0, 0,
      0, 0, 0, 0, 0, 0, 0, 0, 0, 0, 0, 0, 0, 0, 0, 0, 0, 0, 0, 0, 0, 0, 0,
      0, 0, 0, 0, 0, 0, 0, 0, 0, 0, 0, 0, 0, 0, 0, 0, 0, 0, 0, 0, 0, 0, 0,
      0, 0, 0, 0, 0, 0, 0, 0, 0, 0, 0, 0, 0, 0, 0, 0, 0, 0, 0, 0, 0, 0, 0,
      0, 0, 0, 0, 0, 0, 0, 0, 0, 0, 0, 0, 0, 0, 0, 0, 0, 0, 0, 0, 0, 0, 0,
      0, 0, 0, 0, 0, 0, 0, 0, 0, 0, 0, 0, 0, 0, 0, 0, 0, 0, 0, 0, 0, 0, 0,
      0, 0, 0, 0, 0, 0, 0, 0, 0, 0, 0, 0, 0, 0, 0, 0, 0, 0, 0, 0, 0, 0, 0,
      0, 0, 0, 0, 0, 0, 0, 0, 0, 0, 0, 0, 0, 0, 0, 0, 0, 0, 0, 0, 0, 0, 0,
      0, 0, 0, 0, 0, 0, 0, 0, 0, 0, 0, 0, 0, 0, 0, 0, 0, 0, 0, 0, 0, 0, 0,
      0, 0, 0, 0, 0, 0, 0, 0, 0, 0, 0, 0, 0, 0, 0, 0, 0, 0, 0, 0, 0, 0, 0,
      0, 0, 0, 0, 0, 0, 0, 0, 0, 0, 0, 0, 0, 0, 0, 0, 0, 0, 0, 0, 0, 0, 0,
      0, 0, 0, 0, 0, 0, 0, 0, 0, 0, 0, 0, 0, 0, 0, 0, 0, 0, 0, 0, 0, 0, 0,
      0, 0, 0, 0, 0, 0, 0, 0, 0, 0, 0, 0, 0, 0, 0, 0, 0, 0, 0, 0, 0, 0, 0,
      0, 0, 0, 0, 0, 0, 133, 118, 2, 0, 0, 0, 120, 2, 0, 0, 0, 65, 1, 65,
      0, 65, 1],
      49⟩ : WS)).bytes 3).map
        (fun l => l.map (fun p => (p.1, p.2.headD 0 == 1))) =
      some (HexTreeMap.iterSeq
        ⟨((List.replicate 122 (none : Option (Node Bool))).set 0
          (some (Node.parent 0 (some (.leaf 0 true)) none
            (some (.leaf 0 false)) none none none none))).set 7
          (some (Node.leaf 0 true))⟩) :=
  claim3_roundtrip (fun b => [if b then 1 else 0])
    (fun l => l.headD 0 == 1) (by decide) (by decide)
    ⟨((List.replicate 122 (none : Option (Node Bool))).set 0
      (some (Node.parent 0 (some (.leaf 0 true)) none
        (some (.leaf 0 false)) none none none none))).set 7
      (some (Node.leaf 0 true))⟩ (by decide)
    ⟨
      [104, 101, 120, 116, 114, 101, 101, 0, 254, 107, 2, 0, 0, 0, 0, 0,
      0, 0, 0, 0, 0, 0, 0, 0, 0, 0, 0, 0, 0, 0, 0, 0, 0, 0, 0, 0, 0, 0, 0,
      0, 0, 0, 0, 0, 122, 2, 0, 0, 0, 0, 0, 0, 0, 0, 0, 0, 0, 0, 0, 0, 0,
      0, 0, 0, 0, 0, 0, 0, 0, 0, 0, 0, 0, 0, 0, 0, 0, 0, 0, 0, 0, 0, 0, 0,
      0, 0, 0, 0, 0, 0, 0, 0, 0, 0, 0, 0, 0, 0, 0, 0, 0, 0, 0, 0, 0, 0, 0,
      0, 0, 0, 0, 0, 0, 0, 0, 0, 0, 0, 0, 0, 0, 0, 0, 0, 0, 0, 0, 0, 0, 0,
      0, 0, 0, 0, 0, 0, 0, 0, 0, 0, 0, 0, 0, 0, 0, 0, 0, 0, 0, 0, 0, 0, 0,
      0, 0, 0, 0, 0, 0, 0, 0, 0, 0, 0, 0, 0, 0, 0, 0, 0, 0, 0, 0, 0, 0, 0,
      0, 0, 0, 0, 0, 0, 0, 0, 0, 0, 0, 0, 0, 0, 0, 0, 0, 0, 0, 0, 0, 0, 0,
      0, 0, 0, 0, 0, 0, 0, 0, 0, 0, 0, 0, 0, 0, 0, 0, 0, 0, 0, 0, 0, 0, 0,
      0, 0, 0, 0, 0, 0, 0, 0, 0, 0, 0, 0, 0, 0, 0, 0, 0, 0, 0, 0, 0, 0, 0,
      0, 0, 0, 0, 0, 0, 0, 0, 0, 0, 0, 0, 0, 0, 0, 0, 0, 0, 0, 0, 0, 0, 0,
      0, 0, 0, 0, 0, 0, 0, 0, 0, 0, 0, 0, 0, 0, 0, 0, 0, 0, 0, 0, 0, 0, 0,
      0, 0, 0, 0, 0, 0, 0, 0, 0, 0, 0, 0, 0, 0, 0, 0, 0, 0, 0, 0, 0, 0, 0,
      0, 0, 0, 0, 0, 0, 0, 0, 0, 0, 0, 0, 0, 0, 0, 0, 0, 0, 0, 0, 0, 0, 0,
      0, 0, 0, 0, 0, 0, 0, 0, 0, 0, 0, 0, 0, 0, 0, 0, 0, 0, 0, 0, 0, 0, 0,
      0, 0, 0, 0, 0, 0, 0, 0, 0, 0, 0, 0, 0, 0, 0, 0, 0, 0, 0, 0, 0, 0, 0,
      0, 0, 0, 0, 0, 0, 0, 0, 0, 0, 0, 0, 0, 0, 0, 0, 0, 0, 0, 0, 0, 0, 0,
      0, 0, 0, 0, 0, 0, 0, 0, 0, 0, 0, 0, 0, 0, 0, 0, 0, 0, 0, 0, 0, 0, 0,
      0, 0, 0, 0, 0, 0, 0, 0, 0, 0, 0, 0, 0, 0, 0, 0, 0, 0, 0, 0, 0, 0, 0,
      0, 0, 0, 0, 0, 0, 0, 0, 0, 0, 0, 0, 0, 0, 0, 0, 0, 0, 0, 0, 0, 0, 0,
      0, 0, 0, 0, 0, 0, 0, 0, 0, 0, 0, 0, 0, 0, 0, 0, 0, 0, 0, 0, 0, 0, 0,
      0, 0, 0, 0, 0, 0, 0, 0, 0, 0, 0, 0, 0, 0, 0, 0, 0, 0, 0, 0, 0, 0, 0,
      0, 0, 0, 0, 0, 0, 0, 0, 0, 0, 0, 0, 0, 0, 0, 0, 0, 0, 0, 0, 0, 0, 0,
      0, 0, 0, 0, 0, 0, 0, 0, 0, 0, 0, 0, 0, 0, 0, 0, 0, 0, 0, 0, 0, 0, 0,
      0, 0, 0, 0, 0, 0, 0, 0, 0, 0, 0, 0, 0, 0, 0, 0, 0, 0, 0, 0, 0, 0, 0,
      0, 0, 0, 0, 0, 0, 0, 0, 0, 0, 0, 0, 0, 0, 0, 0, 0, 0, 0, 0, 0, 0, 0,
      0, 0, 0, 0, 0, 0, 133, 118, 2, 0, 0, 0, 120, 2, 0, 0, 0, 65, 1, 65,
      0, 65, 1],
      49⟩ (by decide) 3 (by decide)

end Disk


end HexTree

-- Varint sanity checks mirroring the boundary values of
-- `src/disktree/varint.rs::tests::test_varint`.
example : (HexTree.Varint.write 0).bind (fun p => HexTree.Varint.read p.1) =
    .ok (0, 1) := by decide
example : (HexTree.Varint.write 0x3F).bind (fun p => HexTree.Varint.read p.1) =
    .ok (0x3F, 1) := by decide
example : (HexTree.Varint.write 0x40).bind (fun p => HexTree.Varint.read p.1) =
    .ok (0x40, 2) := by decide
example : (HexTree.Varint.write 0x1FFF).bind (fun p => HexTree.Varint.read p.1) =
    .ok (0x1FFF, 2) := by decide
example : (HexTree.Varint.write 0x2000).bind (fun p => HexTree.Varint.read p.1) =
    .ok (0x2000, 3) := by decide
example : (HexTree.Varint.write 0xFFFFF).bind (fun p => HexTree.Varint.read p.1) =
    .ok (0xFFFFF, 3) := by decide
example : (HexTree.Varint.write 0x100000).bind (fun p => HexTree.Varint.read p.1) =
    .ok (0x100000, 4) := by decide
example : (HexTree.Varint.write 0x7FFFFFF).bind (fun p => HexTree.Varint.read p.1) =
    .ok (0x7FFFFFF, 4) := by decide
example : HexTree.Varint.write 0x8000000 = .error (.varint 0x8000000) := by decide

-- Sanity checks against the repository's own unit tests
-- (`src/cell.rs::tests::test_index_bitfields`).
example : HexTree.Index.reserved 0x85283473fffffff = false := by decide
example : HexTree.Index.mode 0x85283473fffffff = 1 := by decide
example : HexTree.Index.res 0x85283473fffffff = 5 := by decide
example : HexTree.Index.base 0x85283473fffffff = 20 := by decide
example : HexTree.Index.digit 0x85283473fffffff 1 = some 0 := by decide
example : HexTree.Index.digit 0x85283473fffffff 2 = some 6 := by decide
example : HexTree.Index.digit 0x85283473fffffff 5 = some 4 := by decide
example : HexTree.Index.digit 0x85283473fffffff 6 = some 7 := by decide
example : HexTree.Digits.list 0x85283473fffffff = [0, 6, 4, 3, 4] := by decide
example : HexTree.Digits.list 592638622797135871 = [6, 3, 2] := by decide
example : HexTree.Digits.list 577164439745200127 = [] := by decide
example : HexTree.Cell.to_parent 0x85283473fffffff 4 = some 0x8428347ffffffff := by decide

-- Tree sanity checks: the seven res-1 children of base cell 0, inserted
-- with the Eq compactor, coalesce into the res-0 parent (spec scenario 2
-- at a different resolution).
set_option maxRecDepth 40000 in
example :
    ((List.range 7).foldl
      (fun t d => t.bind (fun t =>
        t.insert (0x0810000000000000 + d * 2 ^ 42 + (2 ^ 42 - 1)) 42
          HexTree.eqCompactor))
      (some (HexTree.HexTreeMap.empty (V := Nat)))).map
        HexTree.HexTreeMap.len = some 1 := by decide

set_option maxRecDepth 40000 in
example :
    ((List.range 7).foldl
      (fun t d => t.bind (fun t =>
        t.insert (0x0810000000000000 + d * 2 ^ 42 + (2 ^ 42 - 1)) 42
          HexTree.eqCompactor))
      (some (HexTree.HexTreeMap.empty (V := Nat)))).bind
        (fun t => t.get 0x081003FFFFFFFFFF) =
      some (some (0x08001FFFFFFFFFFF, 42)) := by decide

-- With the null compactor the seven children stay distinct.
set_option maxRecDepth 40000 in
example :
    ((List.range 7).foldl
      (fun t d => t.bind (fun t =>
        t.insert (0x0810000000000000 + d * 2 ^ 42 + (2 ^ 42 - 1)) 42
          HexTree.nullCompactor))
      (some (HexTree.HexTreeMap.empty (V := Nat)))).map
        HexTree.HexTreeMap.len = some 7 := by decide

example : HexTree.Digits.list 0x0820007FFFFFFFFF = [0, 0] := by decide

